import Mathlib

/-!
# NIRIKSHAK backend: upload pipeline, status machine and artifact download

A shallow embedding of `backend/routes/professor-upload.js`,
`backend/models/ProfessorUpload.js`, the four routes of
`backend/routes/resultsRoutes.js` (student result, combined class result,
combined class status, download) and the role check of
`backend/middleware/authMiddleware.js`.

Conventions of the embedding.

* The `professoruploads` collection is a list of documents in insertion order.
  A stored document carries the paths of `professorUploadSchema` and, beside
  them, the keys the routes read or assign without the schema declaring them
  (`status`, `errorDetails`, the `combinedResult*` and `combinedClassResult*`
  keys): such a key can be in a stored document only when another program
  wrote it, and the status route reads it with `lean()`.
* The assignments made on a fetched document between two saves are a `Patch`.
  Mongoose runs in strict mode, so `save()` and `findByIdAndUpdate` send the
  schema paths of a patch to the store and nothing else (`Patch.strict`); a
  `save()` of a new document inserts it after the schema setters (`trim`) and
  validators have run.
* The conditions of `findOne` are cast by the schema before they are compared
  with the stored values: the `trim` setter applies to them.
* Everything the outside world decides during one request (store errors, the
  parser's result, the answers of the two HTTP engines, the order in which
  their callbacks run) is an explicit argument, so a run is a function.
* A body sent with `res.json` is a `JsonValue`; a JSON number is an exact
  decimal, a date is shown by its time value, and the fields of `req.body`
  are texts. A Number that `parseInt` returns is an integer rounded to a
  double (`toDouble`).
* A record id is a natural number; the text of an id in a URL or a body is
  related to it by functions given with the world (`isValid`, `objectId`,
  `idText`).
* Two requests handled at once are interleaved at the awaits of the
  synchronous part of the handler (`race`).
-/

namespace Nirikshak

/-! ## JavaScript primitives used by the routes -/

/-- White space and line terminators removed by `String.prototype.trim` and
skipped by `parseInt`. -/
def isJsWhiteSpace (c : Char) : Bool :=
  let n := c.toNat
  n == 9 || n == 10 || n == 11 || n == 12 || n == 13 || n == 32 || n == 160 ||
  n == 5760 || (8192 ≤ n && n ≤ 8202) || n == 8232 || n == 8233 || n == 8239 ||
  n == 8287 || n == 12288 || n == 65279

/-- Characters of a string with the leading white space dropped. -/
def trimStart (cs : List Char) : List Char :=
  cs.dropWhile isJsWhiteSpace

/-- The method `String.prototype.trim`. -/
def jsTrim (s : String) : String :=
  String.mk (trimStart (trimStart s.data).reverse).reverse

/-- JavaScript truthiness of a text field of `req.body`: `undefined` and the
empty string are falsy. -/
def truthy : Option String → Bool
  | none => false
  | some s => s != ""

/-- Value of a character as a digit (any radix up to 36). -/
def digitValue (c : Char) : Option Nat :=
  let n := c.toNat
  if 48 ≤ n ∧ n ≤ 57 then some (n - 48)
  else if 97 ≤ n ∧ n ≤ 122 then some (n - 97 + 10)
  else if 65 ≤ n ∧ n ≤ 90 then some (n - 65 + 10)
  else none

/-- Longest prefix of digits of the radix, as digit values. -/
def takeDigits (radix : Nat) : List Char → List Nat
  | [] => []
  | c :: cs =>
    match digitValue c with
    | some d => if d < radix then d :: takeDigits radix cs else []
    | none => []

/-- The Number that a natural number becomes: itself below `2^53`, and from
there on the nearest number with 53 significant bits, the even one of two
equally near; `2^1024` stands for `Infinity`, which every value that rounds
beyond the largest finite Number becomes. -/
def toDouble (n : Nat) : Nat :=
  if n < 9007199254740992 then n
  else
    let e := Nat.log2 n - 52
    let q := n / 2 ^ e
    let r := n % 2 ^ e
    let v := (if 2 ^ (e - 1) < r ∨ (r = 2 ^ (e - 1) ∧ q % 2 = 1) then q + 1 else q) * 2 ^ e
    if v < 2 ^ 1024 then v else 2 ^ 1024

/-- The shortest decimal that names a Number of `2^53` or more: the digits `s`
and the count `p` of zeros after them, `p` as large as possible such that
`s * 10 ^ p` becomes the Number again, the nearer candidate when the one below
and the one above both do, the even one of two equally near. -/
def shortestDecimal (v : Nat) : Nat × Nat :=
  ((List.range ((Nat.toDigits 10 v).length + 1)).reverse.filterMap (fun p =>
    let lo := v / 10 ^ p
    let below := lo * 10 ^ p
    let above := (lo + 1) * 10 ^ p
    let okBelow : Bool := lo != 0 && toDouble below == v
    let okAbove : Bool := toDouble above == v
    if okBelow && okAbove then
      if v - below < above - v then some (lo, p)
      else if above - v < v - below then some (lo + 1, p)
      else if lo % 2 == 0 then some (lo, p) else some (lo + 1, p)
    else if okBelow then some (lo, p)
    else if okAbove then some (lo + 1, p)
    else none)).headD (v, 0)

/-- The conversion `String(number)` of a Number that is a natural number or
`Infinity`: the decimal digits below `2^53`; from there on the shortest
decimal that names the Number, written out with its zeros when it has at most
21 digits and with an exponent otherwise. -/
def natToString (v : Nat) : String :=
  if v < 9007199254740992 then toString v
  else if v = 2 ^ 1024 then "Infinity"
  else
    let sp := shortestDecimal v
    let digits := Nat.toDigits 10 sp.1
    let n := digits.length + sp.2
    if n ≤ 21 then String.mk (digits ++ List.replicate sp.2 '0')
    else
      String.mk (digits.take 1 ++ (if digits.length = 1 then [] else '.' :: digits.drop 1)) ++
        "e+" ++ toString (n - 1)

/-- The conversion `String(number)` of a Number that `parseInt` returns. -/
def numberToString (n : Int) : String :=
  if n < 0 then "-" ++ natToString n.natAbs else natToString n.natAbs

/-- The global `parseInt(string)` without a radix argument: leading white
space is skipped, a sign is read, a `0x`/`0X` prefix selects radix 16, and
the longest run of digits is converted to a Number. `none` stands for `NaN`,
`2^1024` and its negative for the two Infinities. The digits are rounded
as a whole, which is what V8 does; the language leaves the digits after the
twentieth of a decimal to the implementation. -/
def parseInt (s : String) : Option Int :=
  let cs := trimStart s.data
  let signed : Bool × List Char :=
    match cs with
    | '-' :: r => (true, r)
    | '+' :: r => (false, r)
    | _ => (false, cs)
  let radixed : Nat × List Char :=
    match signed.2 with
    | '0' :: 'x' :: r => (16, r)
    | '0' :: 'X' :: r => (16, r)
    | _ => (10, signed.2)
  match takeDigits radixed.1 radixed.2 with
  | [] => none
  | ds =>
    let n : Int := (toDouble (ds.foldl (fun a d => a * radixed.1 + d) 0) : Nat)
    some (if signed.1 then -n else n)

/-- The rewrite `path.replace(/\\/g, '/')`: every backslash becomes a slash. -/
def normalizeSlashes (p : String) : String :=
  String.mk (p.data.map (fun c => if c.toNat == 92 then '/' else c))

/-! ## The upload record (`models/ProfessorUpload.js`) -/

/-- Pipeline status values assigned by the upload route. -/
inductive Status
  | upload_received
  | question_parsing_started
  | questions_extracted
  | question_parsing_failed
  | answer_book_processing_started
  | answer_book_processing_completed
  | answer_book_processing_failed
  | student_script_api_processing_started
  | student_script_api_processing_completed
  | student_script_api_processing_failed
  | processing_error_db
deriving DecidableEq, Repr, Inhabited

/-- A JSON value, represented by its canonical text. -/
abbrev Json := String

/-- One entry of the `students` array of a record. -/
structure Student where
  roll_no : String
  answers : List (String × String)
deriving DecidableEq, Repr

/-- A document of the `professoruploads` collection. -/
structure ProfessorUpload where
  id : Nat
  username : String
  course : String
  subject : String
  subjectCode : String
  semester : Int
  year : Int
  examType : String
  sectionType : String
  questionPaper : String
  bookAnswer : String
  studentScriptPaths : List String
  processedJSON : Json
  students : List Student
  uploadedAt : Nat
  status : Option Status
  errorDetails : Option String
  combinedResultGenerationStatus : Option String
  combinedResultErrorMessage : Option String
  combinedResultProcessedAt : Option Nat
  combinedClassResultPdfGridFsId : Option String
  combinedClassResultCsvGridFsId : Option String
  combinedResultStudentProcessedCount : Option Nat
  combinedResultStudentFailedOrSkippedCount : Option Nat
deriving DecidableEq, Repr

/-- The exam key of a stored record. -/
structure ExamKey where
  course : String
  subject : String
  subjectCode : String
  semester : Int
  year : Int
  examType : String
  sectionType : String
deriving DecidableEq, Repr

/-- Exam key under which a record is stored. -/
def ProfessorUpload.examKey (r : ProfessorUpload) : ExamKey :=
  { course := r.course, subject := r.subject, subjectCode := r.subjectCode,
    semester := r.semester, year := r.year, examType := r.examType,
    sectionType := r.sectionType }

/-- The collection, in insertion order. -/
abbrev Store := List ProfessorUpload

/-- Schema validation run by `save()` on a new document: the `required`,
`min`, `max` and `enum` options of `professorUploadSchema`. -/
def schemaValid (r : ProfessorUpload) : Bool :=
  r.username != "" && r.course != "" && r.subject != "" && r.subjectCode != "" &&
  decide (1 ≤ r.semester) &&
  decide (1900 ≤ r.year) && decide (r.year ≤ 2100) &&
  (r.examType == "CT1" || r.examType == "CT2" || r.examType == "FAT") &&
  (r.sectionType == "A" || r.sectionType == "B") &&
  r.questionPaper != "" && r.bookAnswer != ""

/-- Fields assigned on a fetched document between two saves, or named by the
`$set` of an update. The route assigns them as properties of the document
object; which of them `save()` sends to the store is decided by the schema
(`Patch.strict`). -/
structure Patch where
  status : Option Status
  errorDetails : Option String
  processedJSON : Option Json
  pushScripts : List String
  combinedResultGenerationStatus : Option String
  combinedResultErrorMessage : Option String
  combinedResultProcessedAt : Option Nat
deriving DecidableEq, Repr

/-- The patch that assigns nothing. -/
def Patch.none : Patch :=
  { status := Option.none, errorDetails := Option.none, processedJSON := Option.none,
    pushScripts := [], combinedResultGenerationStatus := Option.none,
    combinedResultErrorMessage := Option.none, combinedResultProcessedAt := Option.none }

/-- A patch assigning only `status`. -/
def Patch.setStatus (s : Status) : Patch :=
  { Patch.none with status := some s }

/-- A patch assigning `status` and `errorDetails`. -/
def Patch.setFailure (s : Status) (details : String) : Patch :=
  { Patch.none with status := some s, errorDetails := some details }

/-- Later assignments on the same document override earlier ones; pushed
script paths accumulate. -/
def Patch.merge (p q : Patch) : Patch :=
  { status := q.status.orElse (fun _ => p.status)
    errorDetails := q.errorDetails.orElse (fun _ => p.errorDetails)
    processedJSON := q.processedJSON.orElse (fun _ => p.processedJSON)
    pushScripts := p.pushScripts ++ q.pushScripts
    combinedResultGenerationStatus :=
      q.combinedResultGenerationStatus.orElse (fun _ => p.combinedResultGenerationStatus)
    combinedResultErrorMessage :=
      q.combinedResultErrorMessage.orElse (fun _ => p.combinedResultErrorMessage)
    combinedResultProcessedAt :=
      q.combinedResultProcessedAt.orElse (fun _ => p.combinedResultProcessedAt) }

/-- Effect of the assignments of a patch on a document object: every assigned
property takes its new value, pushed script paths are appended. -/
def Patch.apply (p : Patch) (r : ProfessorUpload) : ProfessorUpload :=
  { r with
    status := p.status.orElse (fun _ => r.status)
    errorDetails := p.errorDetails.orElse (fun _ => r.errorDetails)
    processedJSON := p.processedJSON.getD r.processedJSON
    studentScriptPaths := r.studentScriptPaths ++ p.pushScripts
    combinedResultGenerationStatus :=
      p.combinedResultGenerationStatus.orElse (fun _ => r.combinedResultGenerationStatus)
    combinedResultErrorMessage :=
      p.combinedResultErrorMessage.orElse (fun _ => r.combinedResultErrorMessage)
    combinedResultProcessedAt :=
      p.combinedResultProcessedAt.orElse (fun _ => r.combinedResultProcessedAt) }

/-- The part of a patch that reaches the store. `professorUploadSchema`
(lines 11-110 of `models/ProfessorUpload.js`) declares `processedJSON` and
`studentScriptPaths` but no `status`, no `errorDetails` and no
`combinedResult*` path, and sets no `strict` option, so Mongoose works in
strict mode: `save()` writes the modified schema paths only, and
`findByIdAndUpdate` strips every other key from its `$set`. -/
def Patch.strict (p : Patch) : Patch :=
  { Patch.none with processedJSON := p.processedJSON, pushScripts := p.pushScripts }

/-- The query `findById`. -/
def Store.findById (db : Store) (id : Nat) : Option ProfessorUpload :=
  db.find? (fun r => r.id == id)

/-- Write of a patch to the document with the given `_id` (the first one, ids
being unique in a collection): the stored document changes in the schema
paths the patch assigns; nothing happens when there is none. -/
def Store.update (id : Nat) (p : Patch) : Store → Store
  | [] => []
  | r :: rs => if r.id == id then p.strict.apply r :: rs else r :: Store.update id p rs

/-- An `_id` not used in the collection, standing for the ObjectId generated
for a new document. -/
def Store.freshId (db : Store) : Nat :=
  (db.map (fun r => r.id)).foldr max 0 + 1

/-! ## The professor upload route (`routes/professor-upload.js`) -/

/-- The decoded token payload attached by `authenticateToken`. -/
structure User where
  username : String
  role : String
deriving DecidableEq, Repr

/-- A file stored by multer; only its `path` is read. -/
structure UploadedFile where
  path : String
deriving DecidableEq, Repr

/-- What the handler reads of the request: `req.user`, the text fields of
`req.body` and the file arrays of `req.files`. `multipart` tells whether the
request came as `multipart/form-data`: multer sets `req.files` only then, and
leaves it `undefined` for every other request, whose file fields are of no
account. -/
structure ProfessorRequest where
  multipart : Bool
  user : User
  course : Option String
  subject : Option String
  subjectCode : Option String
  semester : Option String
  year : Option String
  examType : Option String
  sectionType : Option String
  questionPaper : Option UploadedFile
  bookAnswer : Option UploadedFile
  studentScript : List UploadedFile
deriving DecidableEq, Repr

/-- The values bound at lines 59-70 once the guard of line 64 has passed. -/
structure Submission where
  course : String
  subject : String
  subjectCode : String
  semester : String
  year : String
  examType : String
  sectionType : String
  questionPaperFilePath : String
  bookAnswerFilePath : String
  studentScriptPaths : List String
deriving DecidableEq, Repr

/-- Lines 59-70: the destructured fields with the three path lists rewritten
to forward slashes. `none` when the handler does not get that far: the request
is not multipart, so that the read `req.files['questionPaper']` of line 60
throws, or the guard of line 64 answers 400. -/
def ProfessorRequest.submission (req : ProfessorRequest) : Option Submission :=
  match req.multipart, req.questionPaper, req.bookAnswer, req.course, req.subject,
    req.subjectCode, req.semester, req.year, req.examType, req.sectionType with
  | true, some qp, some ba, some course, some subject, some subjectCode,
    some semester, some year, some examType, some sectionType =>
    if course != "" && subject != "" && subjectCode != "" && semester != "" &&
        year != "" && examType != "" && sectionType != "" then
      some
        { course := course, subject := subject, subjectCode := subjectCode,
          semester := semester, year := year, examType := examType,
          sectionType := sectionType,
          questionPaperFilePath := normalizeSlashes qp.path,
          bookAnswerFilePath := normalizeSlashes ba.path,
          studentScriptPaths := req.studentScript.map (fun f => normalizeSlashes f.path) }
    else none
  | _, _, _, _, _, _, _, _, _, _ => none

/-- The conditions object passed to `findOne` at lines 75-77, as the route
builds it. -/
structure ExamQuery where
  course : String
  subject : String
  subjectCode : String
  semester : Option Int
  year : Option Int
  examType : String
  sectionType : String
deriving DecidableEq, Repr

/-- The query built from a submission. -/
def Submission.query (s : Submission) : ExamQuery :=
  { course := s.course, subject := s.subject, subjectCode := s.subjectCode,
    semester := parseInt s.semester, year := parseInt s.year,
    examType := s.examType, sectionType := s.sectionType }

/-- A stored document satisfies the conditions when every field equals the
condition as Mongoose casts it to the schema: the setters of a path run on a
condition for it, so `course`, `subject` and `subjectCode` are compared after
`trim`; `examType` and `sectionType` have no setter. A `NaN` condition equals
nothing. -/
def ExamQuery.matches (q : ExamQuery) (r : ProfessorUpload) : Bool :=
  r.course == jsTrim q.course && r.subject == jsTrim q.subject &&
  r.subjectCode == jsTrim q.subjectCode &&
  some r.semester == q.semester && some r.year == q.year &&
  r.examType == q.examType && r.sectionType == q.sectionType

/-- The query `findOne`: the first matching document. -/
def Store.findOne (db : Store) (q : ExamQuery) : Option ProfessorUpload :=
  db.find? q.matches

/-- Every `await` on the store in the handler, by the line it stands on. -/
inductive DbSite
  | findOne
  | saveMerge
  | saveCreate
  | saveParsingStarted
  | saveQuestionsExtracted
  | findByIdFlask1
  | saveAnswerBookStarted
  | findByIdFlask2
  | saveStudentScriptStarted
  | saveParsingFailed
  | findByIdAndUpdate
  | answerBookThenFind
  | answerBookThenSave
  | answerBookCatchFind
  | answerBookCatchSave
  | studentScriptThenFind
  | studentScriptThenSave
  | studentScriptCatchFind
  | studentScriptCatchSave
deriving DecidableEq, Repr

/-- Result of `executePythonScript` for `question_parser.py`, together with
what `JSON.parse(stdout.trim())` makes of the output (`none`: it throws). -/
inductive ParserOutcome
  | rejected (code : Option Int) (stdout : String) (stderr : String) (message : String)
  | resolved (stdout : String) (parsed : Option Json)
deriving DecidableEq, Repr

/-- Result of one `axios.post`: a response, or an error with its message and
the serialised `response.data` when the server answered. -/
inductive ApiOutcome
  | fulfilled (data : String)
  | rejected (message : String) (responseData : Option String)
deriving DecidableEq, Repr

/-- What the outside world decides during one request. -/
structure Env where
  dbError : DbSite → Option String
  now : Nat
  relative : String → String
  parser : ParserOutcome
  answerBook : ApiOutcome
  studentScripts : ApiOutcome

/-- Body of the POST to `/process-professor-data` (lines 145-158). -/
structure AnswerBookPayload where
  professorUploadId : Nat
  parsedQuestionData : Json
  questionPaperPath : String
  bookAnswerPath : String
  course : String
  subject : String
  subjectCode : String
  semester : Int
  year : Int
  examType : String
  sectionType : String
  studentScriptPaths : List String
deriving DecidableEq, Repr

/-- The two HTTP engines of the fan-out. -/
inductive Engine
  | answerBook
  | studentScripts
deriving DecidableEq, Repr

/-- Observable steps of a run, in the order they take effect. `uncaught` is an
exception thrown at the given line that no `catch` of the handler encloses:
the promise of the handler rejects and the handler sends no response (Express
4 leaves the rejection unhandled, on which `server.js` exits the process;
Express 5 passes it to its error handler, which answers 500). -/
inductive Event
  | findOne (q : ExamQuery)
  | findById (site : DbSite) (id : Nat)
  | insert (doc : ProfessorUpload)
  | save (site : DbSite) (id : Nat) (p : Patch)
  | findByIdAndUpdate (id : Nat) (p : Patch)
  | dbFailed (site : DbSite) (message : String)
  | respond (code : Nat) (message : String) (uploadId : Option Nat)
  | execParser (pdfPath : String)
  | parserSettled (outcome : ParserOutcome)
  | postAnswerBook (payload : AnswerBookPayload)
  | postStudentScripts (professorUploadId : Nat)
  | apiSettled (engine : Engine) (outcome : ApiOutcome)
  | processExit
  | uncaught (line : Nat)
deriving DecidableEq, Repr

/-- Effect of a step on the collection. -/
def Event.apply : Event → Store → Store
  | .insert doc, db => db ++ [doc]
  | .save _ id p, db => Store.update id p db
  | .findByIdAndUpdate id p, db => Store.update id p db
  | _, db => db

/-- The collection after a sequence of steps. -/
def applyTrace (trace : List Event) (db : Store) : Store :=
  trace.foldl (fun d e => e.apply d) db

/-- The document built at lines 89-101, after the schema setters: `trim` on
`username`, `course`, `subject` and `subjectCode`, the default of
`uploadedAt`. The key `status` of line 100 names no path of the schema, so the
constructor drops it and the document has no status. `none` when `semester` or
`year` is `NaN`, which cannot be cast to a Number. -/
def newProfessorUpload (env : Env) (user : User) (s : Submission) (id : Nat) :
    Option ProfessorUpload :=
  match parseInt s.semester, parseInt s.year with
  | some semester, some year =>
    some
      { id := id
        username := jsTrim user.username
        course := jsTrim s.course
        subject := jsTrim s.subject
        subjectCode := jsTrim s.subjectCode
        semester := semester
        year := year
        examType := s.examType
        sectionType := s.sectionType
        questionPaper := s.questionPaperFilePath
        bookAnswer := s.bookAnswerFilePath
        studentScriptPaths := s.studentScriptPaths
        processedJSON := "{}"
        students := []
        uploadedAt := env.now
        status := none
        errorDetails := none
        combinedResultGenerationStatus := none
        combinedResultErrorMessage := none
        combinedResultProcessedAt := none
        combinedClassResultPdfGridFsId := none
        combinedClassResultCsvGridFsId := none
        combinedResultStudentProcessedCount := none
        combinedResultStudentFailedOrSkippedCount := none }
  | _, _ => none

/-- The outer `catch (dbError)` of lines 225-240: a 500 unless a response was
already sent, then the best-effort `findByIdAndUpdate` when
`professorUploadDoc` is set. -/
def outerCatch (env : Env) (headersSent : Bool) (doc : Option Nat) (message : String) :
    List Event :=
  (if headersSent then []
   else [Event.respond 500 "Server error during initial database operation." none]) ++
  match doc with
  | none => []
  | some id =>
    match env.dbError DbSite.findByIdAndUpdate with
    | some m => [Event.dbFailed DbSite.findByIdAndUpdate m]
    | none =>
      [Event.findByIdAndUpdate id
        (Patch.setFailure Status.processing_error_db ("DB Error: " ++ message))]

/-- The patch of the merge branch (lines 82-83): the submitted script paths
are pushed onto the existing list. -/
def mergePatch (s : Submission) : Patch :=
  { Patch.none with pushScripts := s.studentScriptPaths }

/-- Result of the synchronous part of the handler: the steps taken and, when
a 200 or 201 was sent, the submission and `professorUploadDoc`. -/
structure Intake where
  events : List Event
  doc : Option (Submission × ProfessorUpload)

/-- Lines 59-104: validation, find-before-create, merge or create, and the
response to the client. When no values are bound (`req.submission` is `none`)
the request was either not multipart, and the `TypeError` of line 60 left the
handler before the guard, or the guard of line 64 answered 400. -/
def intake (env : Env) (req : ProfessorRequest) (db : Store) : Intake :=
  match req.submission with
  | none =>
    if req.multipart then
      { events := [Event.respond 400 "Required fields missing." none], doc := none }
    else { events := [Event.uncaught 60], doc := none }
  | some s =>
    match env.dbError DbSite.findOne with
    | some m =>
      { events := Event.dbFailed DbSite.findOne m :: outerCatch env false none m, doc := none }
    | none =>
      match db.findOne s.query with
      | some existingUpload =>
        let p : Patch := mergePatch s
        match env.dbError DbSite.saveMerge with
        | some m =>
          { events := [Event.findOne s.query, Event.dbFailed DbSite.saveMerge m] ++
              outerCatch env false none m,
            doc := none }
        | none =>
          { events :=
              [Event.findOne s.query, Event.save DbSite.saveMerge existingUpload.id p,
               Event.respond 200
                 "Student scripts added to existing upload. Background processing continues."
                 (some existingUpload.id)],
            doc := some (s, p.apply existingUpload) }
      | none =>
        match env.dbError DbSite.saveCreate with
        | some m =>
          { events := [Event.findOne s.query, Event.dbFailed DbSite.saveCreate m] ++
              outerCatch env false none m,
            doc := none }
        | none =>
          match (newProfessorUpload env req.user s db.freshId).filter schemaValid with
          | none =>
            { events :=
                [Event.findOne s.query,
                 Event.dbFailed DbSite.saveCreate "ProfessorUpload validation failed"] ++
                outerCatch env false none "ProfessorUpload validation failed",
              doc := none }
          | some newProfessorUpload =>
            { events :=
                [Event.findOne s.query, Event.insert newProfessorUpload,
                 Event.respond 201 "Upload received. Background processing started."
                   (some newProfessorUpload.id)],
              doc := some (s, newProfessorUpload) }

/-- What the inner `catch (pythonError)` reads of the value it caught. A
rejection of `executePythonScript` carries all three; a store error or a
`SyntaxError` of `JSON.parse` carries none of them. -/
structure Thrown where
  code : Option Int
  stderr : Option String
  errorMessage : Option String
deriving DecidableEq, Repr

/-- A caught value without `code`, `stderr` or `error`. -/
def Thrown.plain : Thrown :=
  { code := none, stderr := none, errorMessage := none }

/-- The template of line 221. `code || 'N/A'` and `stderr || ...` take the
right operand on `undefined`, `0` and the empty string. -/
def parserErrorDetails (e : Thrown) : String :=
  "Python (question_parser.py) error. Exit code: " ++
  (match e.code with
   | some c => if c = 0 then "N/A" else toString c
   | none => "N/A") ++
  ". Stderr: " ++
  (match e.stderr with
   | some t => if t != "" then t else e.errorMessage.getD "Unknown Python error"
   | none => e.errorMessage.getD "Unknown Python error")

/-- The inner `catch (pythonError)` of lines 214-223. `pending` holds the
assignments made on `professorUploadDoc` by a save that failed; they are
written together with the failure status. A failure of this save reaches the
outer catch, after the response. -/
def innerCatch (env : Env) (id : Nat) (pending : Patch) (e : Thrown) : List Event :=
  let p := pending.merge (Patch.setFailure Status.question_parsing_failed (parserErrorDetails e))
  match env.dbError DbSite.saveParsingFailed with
  | some m => Event.dbFailed DbSite.saveParsingFailed m :: outerCatch env true (some id) m
  | none => [Event.save DbSite.saveParsingFailed id p]

/-- The body posted to the answer-book API, built from the submission, the
parser output and `professorUploadDoc`. -/
def answerBookPayload (env : Env) (s : Submission) (doc : ProfessorUpload)
    (parsedQuestionsData : Json) : AnswerBookPayload :=
  { professorUploadId := doc.id
    parsedQuestionData := parsedQuestionsData
    questionPaperPath := env.relative s.questionPaperFilePath
    bookAnswerPath := env.relative s.bookAnswerFilePath
    course := doc.course
    subject := doc.subject
    subjectCode := doc.subjectCode
    semester := doc.semester
    year := doc.year
    examType := doc.examType
    sectionType := doc.sectionType
    studentScriptPaths := s.studentScriptPaths.map env.relative }

/-- Lines 179-212 of the main flow: the second re-fetch, the
`student_script_api_processing_started` write and the second POST. -/
def studentScriptStage (env : Env) (doc : ProfessorUpload) : List Event :=
  match env.dbError DbSite.findByIdFlask2 with
  | some m =>
    Event.dbFailed DbSite.findByIdFlask2 m :: innerCatch env doc.id Patch.none Thrown.plain
  | none =>
    Event.findById DbSite.findByIdFlask2 doc.id ::
    match env.dbError DbSite.saveStudentScriptStarted with
    | some m =>
      Event.dbFailed DbSite.saveStudentScriptStarted m ::
        innerCatch env doc.id Patch.none Thrown.plain
    | none =>
      [Event.save DbSite.saveStudentScriptStarted doc.id
         (Patch.setStatus Status.student_script_api_processing_started),
       Event.postStudentScripts doc.id]

/-- Lines 132-158 of the main flow: the first re-fetch, the
`answer_book_processing_started` write and the first POST, then the
student-script stage. -/
def answerBookStage (env : Env) (s : Submission) (doc : ProfessorUpload)
    (parsedQuestionsData : Json) : List Event :=
  match env.dbError DbSite.findByIdFlask1 with
  | some m =>
    Event.dbFailed DbSite.findByIdFlask1 m :: innerCatch env doc.id Patch.none Thrown.plain
  | none =>
    Event.findById DbSite.findByIdFlask1 doc.id ::
    match env.dbError DbSite.saveAnswerBookStarted with
    | some m =>
      Event.dbFailed DbSite.saveAnswerBookStarted m ::
        innerCatch env doc.id Patch.none Thrown.plain
    | none =>
      Event.save DbSite.saveAnswerBookStarted doc.id
        (Patch.setStatus Status.answer_book_processing_started) ::
      Event.postAnswerBook (answerBookPayload env s doc parsedQuestionsData) ::
      studentScriptStage env doc

/-- The assignments of lines 127-128, saved at line 129: the parser output to
`processedJSON` and `questions_extracted` to `status`. -/
def questionsExtractedPatch (parsedQuestionsData : Json) : Patch :=
  { Patch.none with
    processedJSON := some parsedQuestionsData
    status := some Status.questions_extracted }

/-- Lines 116-223, the main flow of the background processing that starts
after the response: the `question_parsing_started` write, the parser, the
`questions_extracted` write and the two fan-out stages; every exception of
the inner `try` goes to `innerCatch`. -/
def background (env : Env) (s : Submission) (doc : ProfessorUpload) : List Event :=
  match env.dbError DbSite.saveParsingStarted with
  | some m =>
    Event.dbFailed DbSite.saveParsingStarted m ::
      innerCatch env doc.id (Patch.setStatus Status.question_parsing_started) Thrown.plain
  | none =>
    Event.save DbSite.saveParsingStarted doc.id (Patch.setStatus Status.question_parsing_started) ::
    Event.execParser (env.relative s.questionPaperFilePath) ::
    Event.parserSettled env.parser ::
    match env.parser with
    | ParserOutcome.rejected code _ stderr message =>
      innerCatch env doc.id Patch.none
        { code := code, stderr := some stderr, errorMessage := some message }
    | ParserOutcome.resolved _ none => innerCatch env doc.id Patch.none Thrown.plain
    | ParserOutcome.resolved _ (some parsedQuestionsData) =>
      let p : Patch := questionsExtractedPatch parsedQuestionsData
      match env.dbError DbSite.saveQuestionsExtracted with
      | some m =>
        Event.dbFailed DbSite.saveQuestionsExtracted m :: innerCatch env doc.id p Thrown.plain
      | none =>
        Event.save DbSite.saveQuestionsExtracted doc.id p ::
        answerBookStage env s doc parsedQuestionsData

/-- The template of lines 174 and 209: the name of the engine script, the
message of the error and the serialised response body when there is one. -/
def apiErrorDetails (script message : String) (responseData : Option String) : String :=
  "Flask API (" ++ script ++ ") error: " ++ message ++ ". " ++ responseData.getD ""

/-- The `.catch` callback of a POST (lines 168-177 and 203-212): re-fetch,
write the failure status and the diagnostic. A store error here is an
unhandled rejection, on which `server.js` exits the process. -/
def apiCatch (env : Env) (findSite saveSite : DbSite) (failed : Status) (script : String)
    (id : Nat) (message : String) (responseData : Option String) : List Event :=
  match env.dbError findSite with
  | some m => [Event.dbFailed findSite m, Event.processExit]
  | none =>
    Event.findById findSite id ::
    match env.dbError saveSite with
    | some m => [Event.dbFailed saveSite m, Event.processExit]
    | none =>
      [Event.save saveSite id
         (Patch.setFailure failed (apiErrorDetails script message responseData))]

/-- The `.then` callback of a POST (lines 159-167 and 191-202): re-fetch and
write the completed status. A store error here rejects the promise that the
chained `.catch` handles. -/
def apiThen (env : Env) (thenFind thenSave catchFind catchSave : DbSite)
    (completed failed : Status) (script : String) (id : Nat) : List Event :=
  match env.dbError thenFind with
  | some m =>
    Event.dbFailed thenFind m :: apiCatch env catchFind catchSave failed script id m none
  | none =>
    Event.findById thenFind id ::
    match env.dbError thenSave with
    | some m =>
      Event.dbFailed thenSave m :: apiCatch env catchFind catchSave failed script id m none
    | none => [Event.save thenSave id (Patch.setStatus completed)]

/-- Steps taken when the answer-book POST settles. -/
def answerBookCallback (env : Env) (id : Nat) : List Event :=
  Event.apiSettled Engine.answerBook env.answerBook ::
  match env.answerBook with
  | ApiOutcome.fulfilled _ =>
    apiThen env DbSite.answerBookThenFind DbSite.answerBookThenSave
      DbSite.answerBookCatchFind DbSite.answerBookCatchSave
      Status.answer_book_processing_completed Status.answer_book_processing_failed
      "Answer_from_book.py" id
  | ApiOutcome.rejected message responseData =>
    apiCatch env DbSite.answerBookCatchFind DbSite.answerBookCatchSave
      Status.answer_book_processing_failed "Answer_from_book.py" id message responseData

/-- Steps taken when the student-script POST settles. -/
def studentScriptCallback (env : Env) (id : Nat) : List Event :=
  Event.apiSettled Engine.studentScripts env.studentScripts ::
  match env.studentScripts with
  | ApiOutcome.fulfilled _ =>
    apiThen env DbSite.studentScriptThenFind DbSite.studentScriptThenSave
      DbSite.studentScriptCatchFind DbSite.studentScriptCatchSave
      Status.student_script_api_processing_completed
      Status.student_script_api_processing_failed "studentScripts.py" id
  | ApiOutcome.rejected message responseData =>
    apiCatch env DbSite.studentScriptCatchFind DbSite.studentScriptCatchSave
      Status.student_script_api_processing_failed "studentScripts.py" id message responseData

/-- The three flows of control after the response. -/
inductive Tid
  | main
  | answerBook
  | studentScript
deriving DecidableEq, Repr

/-- Test for the first POST. -/
def Event.isPostAnswerBook : Event → Bool
  | .postAnswerBook _ => true
  | _ => false

/-- Test for the second POST. -/
def Event.isPostStudentScripts : Event → Bool
  | .postStudentScripts _ => true
  | _ => false

/-- Interleaving of the main flow with the two callbacks. Each entry of the
schedule lets one flow take its next step; a callback can move only once the
main flow has issued its POST, and an entry naming a flow that cannot move is
skipped. When the schedule is used up the flows run to their end, the main
flow first. -/
def interleave : List Tid → List Event → List Event → List Event → List Event
  | [], m, a, s => m ++ a ++ s
  | Tid.main :: sched, [], a, s => interleave sched [] a s
  | Tid.main :: sched, e :: m, a, s => e :: interleave sched m a s
  | Tid.answerBook :: sched, m, [], s => interleave sched m [] s
  | Tid.answerBook :: sched, m, e :: a, s =>
    if m.any Event.isPostAnswerBook then interleave sched m (e :: a) s
    else e :: interleave sched m a s
  | Tid.studentScript :: sched, m, a, [] => interleave sched m a []
  | Tid.studentScript :: sched, m, a, e :: s =>
    if m.any Event.isPostStudentScripts then interleave sched m a (e :: s)
    else e :: interleave sched m a s

/-- Steps up to and including the first exit of the process. -/
def haltAtExit : List Event → List Event
  | [] => []
  | e :: es => if e = Event.processExit then [e] else e :: haltAtExit es

/-- The background processing of one accepted submission under a schedule. A
callback exists only if its POST is issued. -/
def pipeline (env : Env) (sched : List Tid) (s : Submission) (doc : ProfessorUpload) :
    List Event :=
  let m := background env s doc
  haltAtExit
    (interleave sched m
      (if m.any Event.isPostAnswerBook then answerBookCallback env doc.id else [])
      (if m.any Event.isPostStudentScripts then studentScriptCallback env doc.id else []))

/-- The handler `router.post('/professor')`: all steps of one request, the
synchronous part followed by the background processing. -/
def professorUpload (env : Env) (sched : List Tid) (req : ProfessorRequest) (db : Store) :
    List Event :=
  let i := intake env req db
  match i.doc with
  | none => i.events
  | some (s, doc) => i.events ++ pipeline env sched s doc

/-- The assignments that a save or an update carries for the document with
`_id` equal to `j`. -/
def Event.patchAt (j : Nat) : Event → Patch
  | .save _ id p => if id = j then p else Patch.none
  | .findByIdAndUpdate id p => if id = j then p else Patch.none
  | _ => Patch.none

/-- Test for the insertion of a new document. -/
def Event.isInsert : Event → Bool
  | .insert _ => true
  | _ => false

/-- All assignments that the saves and updates of a sequence of steps carry
for document `j`, as one patch. -/
def tracePatch (j : Nat) (trace : List Event) : Patch :=
  trace.foldr (fun e p => (e.patchAt j).merge p) Patch.none

/-- A patch that assigns pipeline fields only: it pushes no script path and
leaves the combined-report fields alone. -/
def Patch.stageOnly (p : Patch) : Bool :=
  p.pushScripts == [] && p.combinedResultGenerationStatus == Option.none &&
  p.combinedResultErrorMessage == Option.none && p.combinedResultProcessedAt == Option.none

/-- A step of the background processing as far as the collection goes: no
insertion, and any write is a pipeline-field patch. -/
def Event.stageWrite : Event → Bool
  | .insert _ => false
  | .save _ _ p => p.stageOnly
  | .findByIdAndUpdate _ p => p.stageOnly
  | _ => true

/-! ## Sample inputs -/

/-- A world without store errors in which the parser answers with a question
list, the answer-book API refuses the connection and the student-script API
succeeds. -/
def sampleEnv : Env :=
  { dbError := fun _ => none
    now := 1700000000
    relative := fun p => p
    parser := ParserOutcome.resolved "[1]\n" (some "[1]")
    answerBook := ApiOutcome.rejected "connect ECONNREFUSED" none
    studentScripts := ApiOutcome.fulfilled "ok" }

/-- The world of `sampleEnv` in which the question parser exits with code 1. -/
def parserFailsEnv : Env :=
  { sampleEnv with parser := ParserOutcome.rejected (some 1) "" "Traceback" "Command failed" }

/-- A complete submission with two student scripts. -/
def sampleRequest : ProfessorRequest :=
  { multipart := true
    user := { username := "prof", role := "professor" }
    course := some "BTech"
    subject := some "DS"
    subjectCode := some "CS201"
    semester := some "3"
    year := some "2024"
    examType := some "CT1"
    sectionType := some "A"
    questionPaper := some { path := "uploads/professor/questionPaper-1.pdf" }
    bookAnswer := some { path := "uploads/professor/bookAnswer-1.pdf" }
    studentScript :=
      [{ path := "uploads/professor/studentScript-1.pdf" },
       { path := "uploads/professor/studentScript-2.pdf" }] }

/-- The values the handler binds for `sampleRequest`. -/
def sampleSubmission : Submission :=
  { course := "BTech"
    subject := "DS"
    subjectCode := "CS201"
    semester := "3"
    year := "2024"
    examType := "CT1"
    sectionType := "A"
    questionPaperFilePath := "uploads/professor/questionPaper-1.pdf"
    bookAnswerFilePath := "uploads/professor/bookAnswer-1.pdf"
    studentScriptPaths :=
      ["uploads/professor/studentScript-1.pdf", "uploads/professor/studentScript-2.pdf"] }

/-- A stored record under the exam key of `sampleRequest`, holding one earlier
script that is also part of the new submission; it has no status, as every
record the upload route creates. -/
def sampleRecord : ProfessorUpload :=
  { id := 1
    username := "prof"
    course := "BTech"
    subject := "DS"
    subjectCode := "CS201"
    semester := 3
    year := 2024
    examType := "CT1"
    sectionType := "A"
    questionPaper := "uploads/professor/questionPaper-0.pdf"
    bookAnswer := "uploads/professor/bookAnswer-0.pdf"
    studentScriptPaths := ["uploads/professor/studentScript-1.pdf"]
    processedJSON := "{}"
    students := []
    uploadedAt := 1600000000
    status := none
    errorDetails := none
    combinedResultGenerationStatus := none
    combinedResultErrorMessage := none
    combinedResultProcessedAt := none
    combinedClassResultPdfGridFsId := none
    combinedClassResultCsvGridFsId := none
    combinedResultStudentProcessedCount := none
    combinedResultStudentFailedOrSkippedCount := none }

/-- The submission of `sampleRequest` by a user whose name carries surrounding
white space. -/
def paddedUserRequest : ProfessorRequest :=
  { sampleRequest with user := { username := " prof ", role := "professor" } }

/-- The fields of `sampleRequest` sent as a JSON body: no part of the request
is a file, and multer does not set `req.files`. -/
def jsonBodyRequest : ProfessorRequest :=
  { sampleRequest with multipart := false, questionPaper := none, bookAnswer := none,
                       studentScript := [] }

/-- The submission of `sampleRequest` with a leading blank in `course`. -/
def paddedCourseRequest : ProfessorRequest :=
  { sampleRequest with course := some " BTech" }

/-- Requests handled one after the other, each run to its end before the next
starts. -/
def submitAll : List (Env × List Tid × ProfessorRequest) → Store → Store
  | [], db => db
  | (env, sched, req) :: rest, db =>
    submitAll rest (applyTrace (professorUpload env sched req db) db)

/-- Invocation of an external engine: the question parser, the answer-book
API or the student-script API. -/
def Event.isEngineCall : Event → Bool
  | .execParser _ => true
  | .postAnswerBook _ => true
  | .postStudentScripts _ => true
  | _ => false

/-- The response `r` acknowledges the record write `w`: a 200 carrying the id
of the document saved by the merge, or a 201 carrying the id of the inserted
document. -/
def Event.acknowledges (r w : Event) : Bool :=
  match w, r with
  | .save DbSite.saveMerge id _, .respond 200 _ (some uploadId) => id == uploadId
  | .insert doc, .respond 201 _ (some uploadId) => doc.id == uploadId
  | _, _ => false

/-- One of the two POSTs of the fan-out. -/
def Event.isFanOutCall : Event → Bool
  | .postAnswerBook _ => true
  | .postStudentScripts _ => true
  | _ => false

/-- A step that leaves `processedJSON` alone or writes the given value. -/
def Event.writesJsonOnly (d : Json) : Event → Bool
  | .insert _ => false
  | .save _ _ p => p.processedJSON == none || p.processedJSON == some d
  | .findByIdAndUpdate _ p => p.processedJSON == none || p.processedJSON == some d
  | _ => true

/-- A step that is not the first POST, or is the first POST with the given
body. -/
def Event.postsPayload (pl : AnswerBookPayload) : Event → Bool
  | .postAnswerBook p => p == pl
  | _ => true

/-- The document created for `sampleRequest` in an empty collection. -/
def sampleCreated : ProfessorUpload :=
  { sampleRecord with
    questionPaper := "uploads/professor/questionPaper-1.pdf"
    bookAnswer := "uploads/professor/bookAnswer-1.pdf"
    studentScriptPaths :=
      ["uploads/professor/studentScript-1.pdf", "uploads/professor/studentScript-2.pdf"]
    uploadedAt := 1700000000 }

/-- The save with which the answer-book callback ends when the store raises
no error: the completed status assigned on a response, the failed status and
the diagnostic on an error. -/
def answerBookTerminalWrite (id : Nat) : ApiOutcome → Event
  | ApiOutcome.fulfilled _ =>
    Event.save DbSite.answerBookThenSave id
      (Patch.setStatus Status.answer_book_processing_completed)
  | ApiOutcome.rejected message responseData =>
    Event.save DbSite.answerBookCatchSave id
      (Patch.setFailure Status.answer_book_processing_failed
        (apiErrorDetails "Answer_from_book.py" message responseData))

/-- The write with which the student-script callback ends when the store
raises no error. -/
def studentScriptTerminalWrite (id : Nat) : ApiOutcome → Event
  | ApiOutcome.fulfilled _ =>
    Event.save DbSite.studentScriptThenSave id
      (Patch.setStatus Status.student_script_api_processing_completed)
  | ApiOutcome.rejected message responseData =>
    Event.save DbSite.studentScriptCatchSave id
      (Patch.setFailure Status.student_script_api_processing_failed
        (apiErrorDetails "studentScripts.py" message responseData))

/-- Terminal status of the answer-book branch for an outcome of its POST. -/
def answerBookTerminalStatus : ApiOutcome → Status
  | ApiOutcome.fulfilled _ => Status.answer_book_processing_completed
  | ApiOutcome.rejected _ _ => Status.answer_book_processing_failed

/-- Terminal status of the student-script branch for an outcome of its POST. -/
def studentScriptTerminalStatus : ApiOutcome → Status
  | ApiOutcome.fulfilled _ => Status.student_script_api_processing_completed
  | ApiOutcome.rejected _ _ => Status.student_script_api_processing_failed

/-- A save made by one of the two callbacks. -/
def Event.isCallbackSave : Event → Bool
  | .save DbSite.answerBookThenSave _ _ => true
  | .save DbSite.answerBookCatchSave _ _ => true
  | .save DbSite.studentScriptThenSave _ _ => true
  | .save DbSite.studentScriptCatchSave _ _ => true
  | _ => false

/-- The schedule that lets the main flow issue both POSTs and then runs the
student-script callback to its end before the answer-book callback. -/
def scriptsFirst : List Tid :=
  List.replicate 10 Tid.main ++ List.replicate 3 Tid.studentScript

/-- A step that is no callback save and carries no assignment for document
`j`. -/
def Event.isSilent (j : Nat) (e : Event) : Bool :=
  !e.isCallbackSave && (e.patchAt j == Patch.none)

/-- The main flow of the background processing before its second POST, when
the store raises no error and the parser output is `data`. -/
def mainBeforeSecondPost (env : Env) (s : Submission) (doc : ProfessorUpload) (stdout : String)
    (data : Json) : List Event :=
  [Event.save DbSite.saveParsingStarted doc.id (Patch.setStatus Status.question_parsing_started),
   Event.execParser (env.relative s.questionPaperFilePath),
   Event.parserSettled (ParserOutcome.resolved stdout (some data)),
   Event.save DbSite.saveQuestionsExtracted doc.id (questionsExtractedPatch data),
   Event.findById DbSite.findByIdFlask1 doc.id,
   Event.save DbSite.saveAnswerBookStarted doc.id
     (Patch.setStatus Status.answer_book_processing_started),
   Event.postAnswerBook (answerBookPayload env s doc data),
   Event.findById DbSite.findByIdFlask2 doc.id,
   Event.save DbSite.saveStudentScriptStarted doc.id
     (Patch.setStatus Status.student_script_api_processing_started)]

/-- The site of the re-fetch made by the answer-book callback. -/
def answerBookFindSite : ApiOutcome → DbSite
  | ApiOutcome.fulfilled _ => DbSite.answerBookThenFind
  | ApiOutcome.rejected _ _ => DbSite.answerBookCatchFind

/-- The site of the re-fetch made by the student-script callback. -/
def studentScriptFindSite : ApiOutcome → DbSite
  | ApiOutcome.fulfilled _ => DbSite.studentScriptThenFind
  | ApiOutcome.rejected _ _ => DbSite.studentScriptCatchFind

/-- A step that leaves `errorDetails` of document `j` alone or writes the
given text. -/
def Event.writesDetailsOnly (j : Nat) (d : String) (e : Event) : Bool :=
  (e.patchAt j).errorDetails == none || (e.patchAt j).errorDetails == some d

/-! ## The download route (`routes/resultsRoutes.js`, lines 21-48 and 325-386) -/

/-- The method `String.prototype.includes`. -/
def includes (s sub : String) : Bool :=
  s.data.tails.any (fun t => sub.data.isPrefixOf t)

/-- The two GridFS buckets. -/
inductive BucketName
  | results_marksheets
  | class_aggregate_reports
deriving DecidableEq, Repr

/-- A file document of a bucket; `id` is the ObjectId in canonical form. -/
structure GridFile where
  id : String
  filename : Option String
  contentType : Option String
deriving DecidableEq, Repr

/-- The file collections of the two buckets in the database. -/
structure BlobStore where
  results_marksheets : List GridFile
  class_aggregate_reports : List GridFile
deriving DecidableEq, Repr

/-- The files of a bucket. -/
def BlobStore.files (store : BlobStore) : BucketName → List GridFile
  | BucketName.results_marksheets => store.results_marksheets
  | BucketName.class_aggregate_reports => store.class_aggregate_reports

/-- The query `bucket.find({ _id: fileId }).limit(1).toArray()`: the first
file with that id, if any. -/
def BlobStore.find (store : BlobStore) (bucket : BucketName) (fileId : String) :
    Option GridFile :=
  (store.files bucket).find? (fun f => f.id == fileId)

/-- The module-level variables `individualResultsBucket` and
`classAggregateBucket`: `true` when the variable holds its GridFSBucket,
`false` when it is `undefined` or `null`. -/
structure Buckets where
  individualResultsBucket : Bool
  classAggregateBucket : Bool
deriving DecidableEq, Repr

/-- How the piping of the download stream ends. -/
inductive StreamOutcome
  | finished
  | failedBeforeHeaders
  | failedAfterHeaders
deriving DecidableEq, Repr

/-- What the outside world and the driver decide during one download:
the state of the connection, the error a `GridFSBucket` constructor or a
`find` throws (if any), the test `mongoose.Types.ObjectId.isValid`, the
conversion `new ObjectId(string)` and the fate of the stream. -/
structure DownloadEnv where
  readyState : Nat
  constructorError : BucketName → Option String
  findError : BucketName → Option String
  isValid : String → Bool
  objectId : String → String
  stream : StreamOutcome

/-- The `catch` of lines 39-44: a variable is reset when the message of the
error names its bucket. -/
def resetOnError (message : String) (b : Buckets) : Buckets :=
  { individualResultsBucket :=
      if includes message "results_marksheets" then false else b.individualResultsBucket
    classAggregateBucket :=
      if includes message "class_aggregate_reports" then false else b.classAggregateBucket }

/-- The function `initializeGridFSBuckets` (lines 24-48): when the connection
is ready, each unset variable is given its bucket, the first constructor error
ending the attempt in the `catch`; otherwise nothing changes. -/
def initializeGridFSBuckets (env : DownloadEnv) (b : Buckets) : Buckets :=
  if env.readyState = 1 then
    match (if b.individualResultsBucket then none
           else env.constructorError BucketName.results_marksheets) with
    | some message => resetOnError message b
    | none =>
      let b1 : Buckets := { b with individualResultsBucket := true }
      match (if b1.classAggregateBucket then none
             else env.constructorError BucketName.class_aggregate_reports) with
      | some message => resetOnError message b1
      | none => { b1 with classAggregateBucket := true }
  else b

/-- Steps of a download that touch the storage system. -/
inductive DownloadEvent
  | initAttempt
  | find (bucket : BucketName) (fileId : String)
  | openDownloadStream (bucket : BucketName) (fileId : String)
deriving DecidableEq, Repr

/-- What the client receives: a status with a message, or the headers and the
content of a file streamed from a bucket (`complete` is `false` when the
stream broke after the headers were sent). -/
inductive DownloadResponse
  | status (code : Nat) (message : String)
  | file (bucket : BucketName) (fileId : String) (contentType : String)
      (contentDisposition : String) (complete : Bool)
deriving DecidableEq, Repr

/-- Result of one download request. -/
structure DownloadResult where
  buckets : Buckets
  events : List DownloadEvent
  response : DownloadResponse
deriving DecidableEq, Repr

/-- The function `path.basename` (POSIX): trailing slashes are dropped, then
the part after the last slash is taken. -/
def basename (p : String) : String :=
  let cs := (p.data.reverse.dropWhile (fun c => c == '/')).reverse
  String.mk (cs.reverse.takeWhile (fun c => c != '/')).reverse

/-- Characters kept by the replacement of line 359: letters, digits, `.`, `_`
and `-`. -/
def isSafeChar (c : Char) : Bool :=
  let n := c.toNat
  (97 ≤ n && n ≤ 122) || (65 ≤ n && n ≤ 90) || (48 ≤ n && n ≤ 57) ||
  n == 46 || n == 95 || n == 45

/-- What the replacement of line 359 puts for one character: the character
itself when it is in the safe set, one underscore otherwise, and two
underscores for a character outside the basic plane, which JavaScript holds as
two code units and the pattern (without the `u` flag) replaces one by one. -/
def replaceUnsafe (c : Char) : List Char :=
  if isSafeChar c then [c]
  else if 65536 ≤ c.toNat then ['_', '_']
  else ['_']

/-- The name computed at line 359: the stored filename, or a name built from
the id when there is none, reduced to its base name, every character outside
the safe set replaced by an underscore. -/
def cleanFilename (fileIdString : String) (fileInfo : GridFile) : String :=
  let name :=
    match fileInfo.filename with
    | some f =>
      if f != "" then f
      else "file-" ++ fileIdString ++ "." ++
        (if fileInfo.contentType == some "text/csv" then "csv" else "pdf")
    | none =>
      "file-" ++ fileIdString ++ "." ++
        (if fileInfo.contentType == some "text/csv" then "csv" else "pdf")
  String.mk ((basename name).data.map replaceUnsafe).flatten

/-- The value given for `Content-Type` at line 362:
`fileInfo.contentType || 'application/octet-stream'`. -/
def storedContentType (fileInfo : GridFile) : String :=
  match fileInfo.contentType with
  | some t => if t != "" then t else "application/octet-stream"
  | none => "application/octet-stream"

/-- The test of the pattern `/;\s*charset\s*=/` with which `res.set` of Express
looks for a charset parameter in a value. -/
def hasCharsetParam (value : String) : Bool :=
  value.data.tails.any (fun t =>
    match t with
    | ';' :: r =>
      "charset".data.isPrefixOf (r.dropWhile isJsWhiteSpace) &&
        (match ((r.dropWhile isJsWhiteSpace).drop 7).dropWhile isJsWhiteSpace with
         | '=' :: _ => true
         | _ => false)
    | _ => false)

/-- The types for which `mime.charsets.lookup` answers `UTF-8`: the part of
the value before the first `;` begins with `text/`, `application/javascript`
or `application/json`. -/
def textualType (value : String) : Bool :=
  "text/".data.isPrefixOf (value.data.takeWhile (fun c => c != ';')) ||
  "application/javascript".data.isPrefixOf (value.data.takeWhile (fun c => c != ';')) ||
  "application/json".data.isPrefixOf (value.data.takeWhile (fun c => c != ';'))

/-- The value of the `Content-Type` header (line 362) as `res.set` of Express 4
writes it: a value without a charset parameter whose type is textual gets
`; charset=utf-8` appended, every other value is written as given. -/
def contentTypeHeader (fileInfo : GridFile) : String :=
  if !hasCharsetParam (storedContentType fileInfo) && textualType (storedContentType fileInfo) then
    storedContentType fileInfo ++ "; charset=utf-8"
  else storedContentType fileInfo

/-- Lines 355-378: the headers are set and the file is streamed from the
bucket in which it was found. -/
def serve (env : DownloadEnv) (b : Buckets) (events : List DownloadEvent) (bucket : BucketName)
    (fileIdString fileId : String) (fileInfo : GridFile) : DownloadResult :=
  { buckets := b
    events := events ++ [DownloadEvent.openDownloadStream bucket fileId]
    response :=
      match env.stream with
      | StreamOutcome.failedBeforeHeaders =>
        DownloadResponse.status 500
          "Error occurred while retrieving the file content from storage."
      | StreamOutcome.failedAfterHeaders =>
        DownloadResponse.file bucket fileId (contentTypeHeader fileInfo)
          ("inline; filename=\"" ++ cleanFilename fileIdString fileInfo ++ "\"") false
      | StreamOutcome.finished =>
        DownloadResponse.file bucket fileId (contentTypeHeader fileInfo)
          ("inline; filename=\"" ++ cleanFilename fileIdString fileInfo ++ "\"") true }

/-- Lines 333-385, entered with both buckets set: validation of the id, the
lookup in `results_marksheets`, the lookup in `class_aggregate_reports` when
the first returned nothing, and the 404, the 500 of the `catch` or the
stream. -/
def lookupAndServe (env : DownloadEnv) (store : BlobStore) (b : Buckets)
    (events : List DownloadEvent) (fileIdString : String) : DownloadResult :=
  if env.isValid fileIdString then
    let fileId := env.objectId fileIdString
    let events1 := events ++ [DownloadEvent.find BucketName.results_marksheets fileId]
    match env.findError BucketName.results_marksheets with
    | some _ =>
      { buckets := b, events := events1,
        response := DownloadResponse.status 500
          "Server error occurred while trying to prepare the file for download." }
    | none =>
      match store.find BucketName.results_marksheets fileId with
      | some fileInfo =>
        serve env b events1 BucketName.results_marksheets fileIdString fileId fileInfo
      | none =>
        let events2 := events1 ++ [DownloadEvent.find BucketName.class_aggregate_reports fileId]
        match env.findError BucketName.class_aggregate_reports with
        | some _ =>
          { buckets := b, events := events2,
            response := DownloadResponse.status 500
              "Server error occurred while trying to prepare the file for download." }
        | none =>
          match store.find BucketName.class_aggregate_reports fileId with
          | some fileInfo =>
            serve env b events2 BucketName.class_aggregate_reports fileIdString fileId fileInfo
          | none =>
            { buckets := b, events := events2,
              response := DownloadResponse.status 404
                "File not found. It might have been deleted or the ID is incorrect." }
  else
    { buckets := b, events := events,
      response := DownloadResponse.status 400 "Invalid file ID format provided." }

/-- The handler `router.get('/download/:fileId')`: the guard of lines 326-332
with its initialisation attempt, then the lookup. -/
def download (env : DownloadEnv) (store : BlobStore) (b : Buckets) (fileIdString : String) :
    DownloadResult :=
  if b.individualResultsBucket && b.classAggregateBucket then
    lookupAndServe env store b [] fileIdString
  else
    let b1 := initializeGridFSBuckets env b
    if b1.individualResultsBucket && b1.classAggregateBucket then
      lookupAndServe env store b1 [DownloadEvent.initAttempt] fileIdString
    else
      { buckets := b1, events := [DownloadEvent.initAttempt],
        response := DownloadResponse.status 503
          "Server error: File storage system is not ready. Please try again later." }

/-- Test for a lookup in a bucket. -/
def DownloadEvent.isFind : DownloadEvent → Bool
  | .find _ _ => true
  | _ => false

/-- The test for 24 hexadecimal digits, one reading of
`mongoose.Types.ObjectId.isValid` on strings. -/
def isHex24 (s : String) : Bool :=
  s.length == 24 && s.data.all (fun c => (digitValue c).any (fun d => d < 16))

/-- A world for downloads in which the connection is ready and nothing
fails. -/
def sampleDownloadEnv : DownloadEnv :=
  { readyState := 1
    constructorError := fun _ => none
    findError := fun _ => none
    isValid := isHex24
    objectId := fun s => String.mk (s.data.map Char.toLower)
    stream := StreamOutcome.finished }

/-- A world for downloads in which the connection is not open yet. -/
def notReadyEnv : DownloadEnv :=
  { sampleDownloadEnv with readyState := 0 }

/-- A per-student marksheet. -/
def sampleMarksheet : GridFile :=
  { id := "65a000000000000000000001", filename := some "marksheet 21.pdf",
    contentType := some "application/pdf" }

/-- A blob store in which one id names a marksheet and also an aggregate
report, and a second id names an aggregate report only. -/
def sampleBlobs : BlobStore :=
  { results_marksheets := [sampleMarksheet]
    class_aggregate_reports :=
      [{ id := "65a000000000000000000001", filename := some "class.csv",
         contentType := some "text/csv" },
       { id := "65a000000000000000000002", filename := some "reports/class report.pdf",
         contentType := none }] }

/-- An aggregate report stored as CSV. -/
def csvReport : GridFile :=
  { id := "65a000000000000000000003", filename := some "class.csv",
    contentType := some "text/csv" }

/-- A blob store that holds the CSV report only. -/
def csvBlobs : BlobStore :=
  { results_marksheets := [], class_aggregate_reports := [csvReport] }

/-- Whether the guard of lines 326-332 lets a request through: both variables
are set, or the initialisation attempt sets both. -/
def bucketsReady (env : DownloadEnv) (b : Buckets) : Bool :=
  (b.individualResultsBucket && b.classAggregateBucket) ||
  ((initializeGridFSBuckets env b).individualResultsBucket &&
    (initializeGridFSBuckets env b).classAggregateBucket)

/-- The HTTP status of a response; a streamed file goes out with 200. -/
def DownloadResponse.code : DownloadResponse → Nat
  | .status code _ => code
  | .file _ _ _ _ _ => 200

/-- Both bucket variables set. -/
def bothSet : Buckets :=
  { individualResultsBucket := true, classAggregateBucket := true }

/-- Both bucket variables unset, as at process start before the connection
opens. -/
def noneSet : Buckets :=
  { individualResultsBucket := false, classAggregateBucket := false }

/-! ## The results routes: student result, combined class result, status -/

/-- A value as `JSON.parse` returns it and `res.json` sends it. A number is
`mantissa * 10 ^ exponent`, taken exactly (the rounding of JavaScript to a
double is not modelled); an object lists its own properties, each key once. -/
inductive JsonValue where
  | null
  | bool (b : Bool)
  | number (mantissa : Int) (exponent : Int)
  | string (s : String)
  | array (items : List JsonValue)
  | object (fields : List (String × JsonValue))
deriving Repr

/-- JavaScript truthiness of a parsed value. -/
def JsonValue.truthy : JsonValue → Bool
  | .null => false
  | .bool b => b
  | .number mantissa _ => mantissa != 0
  | .string s => s != ""
  | .array _ => true
  | .object _ => true

/-- The read `value.key` for the keys the handlers use (`status`, `message`,
`details`): the own property of an object, `none` for `undefined`. Arrays,
strings, numbers and booleans have no such property. The read throws on
`null`, which the callers treat before. -/
def JsonValue.field (v : JsonValue) (key : String) : Option JsonValue :=
  match v with
  | .object fields => fields.lookup key
  | _ => none

/-- The expression `a || b` where `a` may be `undefined`. -/
def JsonValue.orElse (a : Option JsonValue) (b : JsonValue) : JsonValue :=
  match a with
  | some x => if x.truthy then x else b
  | none => b

/-- The expression `a || b` on strings where `a` may be `undefined`. -/
def orString (a : Option String) (b : String) : String :=
  match a with
  | some x => if x != "" then x else b
  | none => b

/-- An object literal passed to `res.json`: a property whose value is
`undefined` is left out by `JSON.stringify`. -/
def jsonObject (fields : List (String × Option JsonValue)) : JsonValue :=
  JsonValue.object (fields.filterMap (fun kv => kv.2.map (fun v => (kv.1, v))))

/-- The method `String.prototype.startsWith`. -/
def startsWith (s pre : String) : Bool :=
  pre.data.isPrefixOf s.data

/-- The method `substring(0, n)`, counted in characters; JavaScript counts
UTF-16 code units, which are the characters on text of the basic plane. -/
def substring0 (s : String) (n : Nat) : String :=
  String.mk (s.data.take n)

/-- The options passed to `exec`: `cwd` and `env` are fixed by the process;
`maxBuffer` is given in bytes; `timeout` is `none` when the key is absent. -/
structure ExecOptions where
  maxBuffer : Nat
  timeout : Option Nat
deriving DecidableEq, Repr

/-- What the callback of `exec` receives: an error (with its `message` and
`code`, `none` for `undefined`) or none, and the two output texts. -/
inductive ExecOutcome
  | error (message : String) (code : Option JsonValue) (stdout stderr : String)
  | ok (stdout stderr : String)

/-- The conditions of `profCriteriaQuery` (line 216). -/
structure CriteriaQuery where
  course : String
  subjectCode : String
  examType : String
  year : Int
  semester : Int
  sectionType : String
deriving DecidableEq, Repr

/-- A stored document satisfies the criteria when each of the six fields is
equal. The route has trimmed the four strings itself (lines 199-202), so the
`trim` setter that Mongoose runs on the conditions changes nothing. -/
def CriteriaQuery.matches (q : CriteriaQuery) (r : ProfessorUpload) : Bool :=
  r.course == q.course && r.subjectCode == q.subjectCode && r.examType == q.examType &&
  r.year == q.year && r.semester == q.semester && r.sectionType == q.sectionType

/-- The query `findOne(profCriteriaQuery)`: the first matching document. -/
def Store.findOneByCriteria (db : Store) (q : CriteriaQuery) : Option ProfessorUpload :=
  db.find? q.matches

/-- Observable steps of the handlers of resultsRoutes.js, in the order they
take effect. -/
inductive ResultsEvent
  | findOne (q : CriteriaQuery)
  | findById (id : Nat)
  | storeFailed (message : String)
  | exec (script : String) (args : List String) (options : ExecOptions)
  | execSettled (outcome : ExecOutcome)
  | findByIdAndUpdate (id : Nat) (p : Patch)
  | respond (code : Nat) (body : JsonValue)

/-- Effect of a step on the collection. -/
def ResultsEvent.apply : ResultsEvent → Store → Store
  | .findByIdAndUpdate id p, db => Store.update id p db
  | _, db => db

/-- The collection after a sequence of steps. -/
def applyResults (trace : List ResultsEvent) (db : Store) : Store :=
  trace.foldl (fun d e => e.apply d) db

/-- The responses sent in a sequence of steps. -/
def responses : List ResultsEvent → List (Nat × JsonValue)
  | [] => []
  | .respond code body :: rest => (code, body) :: responses rest
  | _ :: rest => responses rest

/-- The engine launches in a sequence of steps, by script name. -/
def launches : List ResultsEvent → List String
  | [] => []
  | .exec script _ _ :: rest => script :: launches rest
  | _ :: rest => launches rest

/-- A body `{ message: ... }`. -/
def messageBody (message : String) : JsonValue :=
  JsonValue.object [("message", JsonValue.string message)]

/-- The fields of `req.body` read by the student-result handler (line 97), as
text; `none` for a field that is not sent. -/
structure ResultRequest where
  rollNo : Option String
  subjectCode : Option String
  examType : Option String
  year : Option String
  semester : Option String
  course : Option String
  sectionType : Option String
deriving DecidableEq, Repr

/-- What the `catch` of line 178 reads of the value it caught; `none` for
`undefined`. -/
structure ResultError where
  message : Option String
  errorDetails : Option String
  stderr : Option String
  stdout : Option String
  code : Option JsonValue

/-- What the student-result handler does not decide itself: the outcome of the
Marksheet_Generator.py process, the result of `JSON.parse` on a text (`none`
when it throws), and the message of the `TypeError` the JavaScript engine
raises on a read of a property of `null` or on a call of a missing method. -/
structure MarksheetEnv where
  script : ExecOutcome
  jsonParse : String → Option JsonValue
  typeError : String

/-- The options `pythonOptions` of lines 128-132. -/
def marksheetOptions : ExecOptions :=
  { maxBuffer := 15 * 1024 * 1024, timeout := none }

/-- The `catch` of lines 178-187: a 500 whose body is built from the caught
value. -/
def studentResultCatch (e : ResultError) : ResultsEvent :=
  let errorMessage :=
    orString e.message
      (match e.errorDetails with
       | some d =>
         if d != "" then "Python Script Error: " ++ d
         else "Unknown server error during result generation."
       | none => "Unknown server error during result generation.")
  ResultsEvent.respond 500
    (jsonObject
      [("message", some (JsonValue.string errorMessage)),
       ("errorDetails",
          some (JsonValue.string
            (orString e.stderr
              (orString e.message "Unknown execution error from Python script.")))),
       ("stdout", e.stdout.map JsonValue.string),
       ("code", e.code)])

/-- The value thrown by a read of a property of `null` or by a call of a
method the value does not have. -/
def typeErrorThrown (env : MarksheetEnv) : ResultError :=
  { message := some env.typeError, errorDetails := none, stderr := none, stdout := none,
    code := none }

/-- The HTTP code of lines 170-173 for a status that did not pass the test of
line 167. -/
def nonSuccessCode (statusFromPython : Option JsonValue) : Nat :=
  match statusFromPython with
  | some (JsonValue.string s) =>
    if s == "error_professor_data_missing" || s == "error_student_data_missing" then 404
    else if s == "error_student_extraction_incomplete" || s == "error_scoring_failed" ||
        s == "error_pdf_generation_failed" || s == "error_cli_value" then 422
    else 500
  | _ => 500

/-- Lines 167-177: the response for a parsed payload. The test of line 167
reads `status` (a `TypeError` on `null`), and calls `startsWith` on it when it
is truthy (a `TypeError` unless it is a string). -/
def marksheetResponse (env : MarksheetEnv) (pythonResult : JsonValue) : ResultsEvent :=
  match pythonResult with
  | JsonValue.null => studentResultCatch (typeErrorThrown env)
  | _ =>
    let nonSuccess : ResultsEvent :=
      ResultsEvent.respond (nonSuccessCode (pythonResult.field "status"))
        (jsonObject
          [("message",
              some (JsonValue.orElse (pythonResult.field "message")
                (JsonValue.string "Marksheet_Generator.py script reported an error."))),
           ("details", some (JsonValue.orElse (pythonResult.field "details") pythonResult))])
    match pythonResult.field "status" with
    | none => nonSuccess
    | some status =>
      if status.truthy then
        match status with
        | JsonValue.string s =>
          if startsWith s "success" then ResultsEvent.respond 200 pythonResult
          else nonSuccess
        | _ => studentResultCatch (typeErrorThrown env)
      else nonSuccess

/-- Lines 145-177 and the `catch`: what follows the settlement of the
process. -/
def marksheetSettled (env : MarksheetEnv) : ResultsEvent :=
  match env.script with
  | ExecOutcome.error message code stdout stderr =>
    studentResultCatch
      { message := some "Python script (Marksheet_Generator.py) execution failed."
        errorDetails := some message
        stderr := some stderr
        stdout := some stdout
        code := code }
  | ExecOutcome.ok stdout stderr =>
    if stdout == "" || jsTrim stdout == "" then
      studentResultCatch
        { message :=
            some "Python script (Marksheet_Generator.py) produced no parsable output to stdout."
          errorDetails := none
          stderr := some (orString (some stderr) "No stderr output.")
          stdout := some stdout
          code := none }
    else
      match env.jsonParse (jsTrim stdout) with
      | none =>
        studentResultCatch
          { message :=
              some ("Failed to parse Marksheet_Generator.py script output. Raw stdout: " ++
                substring0 stdout 500 ++ "...")
            errorDetails := none
            stderr := some (orString (some stderr) "No stderr output.")
            stdout := some stdout
            code := none }
      | some pythonResult => marksheetResponse env pythonResult

/-- The handler `router.post('/student-result')` (lines 96-188). -/
def studentResult (env : MarksheetEnv) (req : ResultRequest) : List ResultsEvent :=
  if !truthy req.rollNo then
    [ResultsEvent.respond 400 (messageBody "Bad Request: Student roll number is required.")]
  else if !truthy req.subjectCode || !truthy req.examType || !truthy req.year ||
      !truthy req.semester || !truthy req.course || !truthy req.sectionType then
    [ResultsEvent.respond 400 (messageBody ("Missing required exam criteria: course, " ++
      "subjectCode, examType, year, semester, or sectionType."))]
  else
    match parseInt (req.year.getD ""), parseInt (req.semester.getD "") with
    | some year, some semester =>
      [ResultsEvent.exec "Marksheet_Generator.py"
        ["--roll_no", jsTrim (req.rollNo.getD ""),
         "--course", jsTrim (req.course.getD ""),
         "--subject_code", jsTrim (req.subjectCode.getD ""),
         "--exam_type", jsTrim (req.examType.getD ""),
         "--year", numberToString year,
         "--semester", numberToString semester,
         "--section", jsTrim (req.sectionType.getD ""),
         "--mode", "student"]
        marksheetOptions,
       ResultsEvent.execSettled env.script,
       marksheetSettled env]
    | _, _ =>
      [ResultsEvent.respond 400 (messageBody "Year and Semester must be valid numbers.")]

/-- A request for the result of one student. -/
def sampleResultRequest : ResultRequest :=
  { rollNo := some "21CS042", subjectCode := some "CS301", examType := some "CT1",
    year := some "2024", semester := some "5", course := some "BTech",
    sectionType := some "A" }

/-- A payload of the marksheet engine that reports a scoring failure with its
own message and details. -/
def scoringFailedPayload : JsonValue :=
  JsonValue.object
    [("status", JsonValue.string "error_scoring_failed"),
     ("message", JsonValue.string "Scoring failed"),
     ("details", JsonValue.string "no rubric")]

/-- The line the marksheet engine prints for `scoringFailedPayload`. -/
def scoringFailedText : String :=
  "\x7b\"status\":\"error_scoring_failed\",\"message\":\"Scoring failed\"," ++
  "\"details\":\"no rubric\"\x7d"

/-- A world in which the marksheet engine prints one line that parses to
`scoringFailedPayload`. -/
def scoringFailedEnv : MarksheetEnv :=
  { script := ExecOutcome.ok (scoringFailedText ++ "\n") ""
    jsonParse := fun s => if s == scoringFailedText then some scoringFailedPayload else none
    typeError := "pythonResult.status.startsWith is not a function" }

/-- The fields of `req.body` read by the combined-class-result handler (line
192), as text; `none` for a field that is not sent. -/
structure CombinedRequest where
  course : Option String
  subjectCode : Option String
  examType : Option String
  year : Option String
  semester : Option String
  sectionType : Option String
deriving DecidableEq, Repr

/-- What the combined-class-result handler does not decide itself: an error of
the lookup, an exception thrown by the call of `exec` itself, the outcome the
callback of `exec` receives (`none` when the process never ends), an error of
the update made by the callback, the clock, and the text `_id.toString()` of a
record id. -/
structure CombinedEnv where
  findError : Option String
  launchError : Option String
  script : Option ExecOutcome
  updateError : Option String
  now : Nat
  idText : Nat → String

/-- The options `pythonOptions` of lines 235-239. -/
def combinedOptions : ExecOptions :=
  { maxBuffer := 25 * 1024 * 1024, timeout := none }

/-- The `$set` of lines 258-262. -/
def combinedFailurePatch (now : Nat) (message stderr : String) : Patch :=
  { Patch.none with
    combinedResultGenerationStatus := some "error_script_execution"
    combinedResultErrorMessage :=
      some ("Python script execution failed: " ++ message ++ ". Stderr: " ++
        substring0 stderr 500)
    combinedResultProcessedAt := some now }

/-- The callback of `exec` (lines 252-273): on an error the record is updated,
a failure of that update being logged and dropped; otherwise nothing is
written. It does not run when the process never ends. -/
def combinedCallback (env : CombinedEnv) (id : Nat) : List ResultsEvent :=
  match env.script with
  | none => []
  | some (ExecOutcome.error message code stdout stderr) =>
    ResultsEvent.execSettled (ExecOutcome.error message code stdout stderr) ::
      (match env.updateError with
       | some m => [ResultsEvent.storeFailed m]
       | none =>
         [ResultsEvent.findByIdAndUpdate id (combinedFailurePatch env.now message stderr)])
  | some (ExecOutcome.ok stdout stderr) =>
    [ResultsEvent.execSettled (ExecOutcome.ok stdout stderr)]

/-- The criteria built at lines 199-216 from a request that passed the guard
of line 194, `none` when `year` or `semester` parses to `NaN`. -/
def CombinedRequest.criteria (req : CombinedRequest) : Option CriteriaQuery :=
  match parseInt (req.year.getD ""), parseInt (req.semester.getD "") with
  | some year, some semester =>
    some
      { course := jsTrim (req.course.getD "")
        subjectCode := jsTrim (req.subjectCode.getD "")
        examType := jsTrim (req.examType.getD "")
        year := year
        semester := semester
        sectionType := jsTrim (req.sectionType.getD "") }
  | _, _ => none

/-- The arguments `scriptArgs` of lines 241-248. -/
def combinedArgs (q : CriteriaQuery) : List String :=
  ["--course", q.course, "--subject_code", q.subjectCode, "--exam_type", q.examType,
   "--year", numberToString q.year, "--semester", numberToString q.semester, "--section",
   q.sectionType]

/-- The body of the 202 (lines 275-278). -/
def acceptedBody (professorUploadId : String) : JsonValue :=
  JsonValue.object
    [("message",
        JsonValue.string
          "Combined class result generation initiated. Polling for status will begin."),
     ("professorUploadId", JsonValue.string professorUploadId)]

/-- The handler `router.post('/combined-class-result')` (lines 191-287): the
steps up to the response, then those of the callback of `exec`. -/
def combinedClassResult (env : CombinedEnv) (req : CombinedRequest) (db : Store) :
    List ResultsEvent :=
  if !truthy req.subjectCode || !truthy req.examType || !truthy req.year ||
      !truthy req.semester || !truthy req.course || !truthy req.sectionType then
    [ResultsEvent.respond 400 (messageBody ("Missing required exam criteria: course, " ++
      "subjectCode, examType, year, semester, or sectionType."))]
  else
    match req.criteria with
    | none => [ResultsEvent.respond 400 (messageBody "Year and Semester must be valid numbers.")]
    | some q =>
      match env.findError with
      | some m =>
        [ResultsEvent.findOne q, ResultsEvent.storeFailed m,
         ResultsEvent.respond 500 (messageBody "Server error finding exam record.")]
      | none =>
        match db.findOneByCriteria q with
        | none =>
          [ResultsEvent.findOne q,
           ResultsEvent.respond 404 (messageBody ("No matching professor upload found for " ++
             "these criteria. Please ensure files were submitted first and all criteria " ++
             "match an existing record."))]
        | some profUploadDoc =>
          match env.launchError with
          | some m =>
            [ResultsEvent.findOne q,
             ResultsEvent.respond 500
               (JsonValue.object
                 [("message", JsonValue.string ("Failed to initiate combined result " ++
                    "generation due to a server-side setup error.")),
                  ("errorDetails", JsonValue.string (orString (some m) "Unknown server error."))])]
          | none =>
            [ResultsEvent.findOne q,
             ResultsEvent.exec "Combined_Results.py" (combinedArgs q) combinedOptions,
             ResultsEvent.respond 202 (acceptedBody (env.idText profUploadDoc.id))] ++
            combinedCallback env profUploadDoc.id

/-- What the combined-class-status handler does not decide itself: the test
`mongoose.Types.ObjectId.isValid`, the record id a valid text names, and an
error of the lookup. -/
structure StatusEnv where
  isValid : String → Bool
  objectId : String → Nat
  findError : Option String

/-- The body of the 200 (lines 304-316). A property read from a record that
does not hold it is `undefined` and left out; the date is shown by its time
value. -/
def statusBody (profUpload : ProfessorUpload) : JsonValue :=
  jsonObject
    [("status",
        some (JsonValue.string (orString profUpload.combinedResultGenerationStatus "pending"))),
     ("message",
        some (JsonValue.string
          (orString profUpload.combinedResultErrorMessage "Status fetched successfully."))),
     ("pdfId", profUpload.combinedClassResultPdfGridFsId.map JsonValue.string),
     ("csvId", profUpload.combinedClassResultCsvGridFsId.map JsonValue.string),
     ("studentsProcessed",
        profUpload.combinedResultStudentProcessedCount.map (fun n => JsonValue.number n 0)),
     ("studentsFailed",
        profUpload.combinedResultStudentFailedOrSkippedCount.map
          (fun n => JsonValue.number n 0)),
     ("examDetails",
        some (JsonValue.object
          [("subject", JsonValue.string profUpload.subject),
           ("examType", JsonValue.string profUpload.examType),
           ("uploadedAt", JsonValue.number profUpload.uploadedAt 0)]))]

/-- The handler `router.get('/combined-class-status/:profUploadId')` (lines
290-321). -/
def combinedClassStatus (env : StatusEnv) (db : Store) (profUploadId : String) :
    List ResultsEvent :=
  if !env.isValid profUploadId then
    [ResultsEvent.respond 400 (messageBody "Invalid Professor Upload ID format.")]
  else
    match env.findError with
    | some m =>
      [ResultsEvent.storeFailed m,
       ResultsEvent.respond 500
         (messageBody "Server error while fetching combined result status.")]
    | none =>
      match db.findById (env.objectId profUploadId) with
      | none =>
        [ResultsEvent.findById (env.objectId profUploadId),
         ResultsEvent.respond 404 (messageBody "Professor upload record not found.")]
      | some profUpload =>
        [ResultsEvent.findById (env.objectId profUploadId),
         ResultsEvent.respond 200 (statusBody profUpload)]

/-- Test for a step that settles the report process. -/
def ResultsEvent.isSettled : ResultsEvent → Bool
  | .execSettled _ => true
  | _ => false

/-- A world for the combined report in which the store answers, the process
is launched and never ends. -/
def pendingReportEnv : CombinedEnv :=
  { findError := none, launchError := none, script := none, updateError := none,
    now := 1700000500, idText := fun id => toString id }

/-- A world for the combined report in which the process exits with an
error. -/
def failedReportEnv : CombinedEnv :=
  { pendingReportEnv with
    script := some (ExecOutcome.error "Command failed: python3" none "" "Traceback") }

/-- A request for the combined report of the exam of `sampleRecord`. -/
def sampleCombinedRequest : CombinedRequest :=
  { course := some "BTech", subjectCode := some " CS201", examType := some "CT1",
    year := some "2024", semester := some "3", sectionType := some "A" }

/-- A world for the status handler in which a text of decimal digits names a
record id. -/
def sampleStatusEnv : StatusEnv :=
  { isValid := fun s => s.data.all Char.isDigit && s != ""
    objectId := fun s => s.data.foldl (fun n c => 10 * n + (c.toNat - 48)) 0
    findError := none }

/-- The criteria of `sampleCombinedRequest`. -/
def sampleCriteria : CriteriaQuery :=
  { course := "BTech", subjectCode := "CS201", examType := "CT1", year := 2024, semester := 3,
    sectionType := "A" }

/-- A patch that assigns combined-report fields only. -/
def Patch.combinedOnly (p : Patch) : Bool :=
  p.status == Option.none && p.errorDetails == Option.none &&
  p.processedJSON == Option.none && p.pushScripts == []

/-- A patch that leaves the combined-report fields alone. -/
def Patch.keepsCombined (p : Patch) : Bool :=
  p.combinedResultGenerationStatus == Option.none &&
  p.combinedResultErrorMessage == Option.none && p.combinedResultProcessedAt == Option.none

/-- A step of the professor upload that assigns no combined-report field. -/
def Event.keepsCombined : Event → Bool
  | .save _ _ p => p.keepsCombined
  | .findByIdAndUpdate _ p => p.keepsCombined
  | _ => true

/-- A step of the results routes that assigns combined-report fields only. -/
def ResultsEvent.combinedOnly : ResultsEvent → Bool
  | .findByIdAndUpdate _ p => p.combinedOnly
  | _ => true

/-- The combined-report fields of a record: status, error message, time of
processing, the two artifact ids and the two counts. -/
def ProfessorUpload.combinedReport (r : ProfessorUpload) :
    Option String × Option String × Option Nat × Option String × Option String ×
      Option Nat × Option Nat :=
  (r.combinedResultGenerationStatus, r.combinedResultErrorMessage, r.combinedResultProcessedAt,
   r.combinedClassResultPdfGridFsId, r.combinedClassResultCsvGridFsId,
   r.combinedResultStudentProcessedCount, r.combinedResultStudentFailedOrSkippedCount)

/-- The failure states of the pipeline status. -/
def Status.isFailure : Status → Bool
  | .question_parsing_failed => true
  | .answer_book_processing_failed => true
  | .student_script_api_processing_failed => true
  | .processing_error_db => true
  | _ => false

/-- A patch that assigns `errorDetails` only together with a failure
status. -/
def Patch.detailsWithFailure (p : Patch) : Bool :=
  p.errorDetails == Option.none ||
  (match p.status with
   | some s => s.isFailure
   | Option.none => false)

/-- A step whose write, if any, assigns `errorDetails` only together with a
failure status. -/
def Event.detailsWithFailure : Event → Bool
  | .save _ _ p => p.detailsWithFailure
  | .findByIdAndUpdate _ p => p.detailsWithFailure
  | _ => true

/-- A world without store errors in which the parser and both APIs
succeed. -/
def allSucceedEnv : Env :=
  { sampleEnv with answerBook := ApiOutcome.fulfilled "ok" }

/-- The record of `sampleRecord` with a failure status and a diagnostic, as a
writer other than the upload route may have left it. -/
def failedRecord : ProfessorUpload :=
  { sampleRecord with
    status := some Status.question_parsing_failed
    errorDetails :=
      some "Python (question_parser.py) error. Exit code: 1. Stderr: Traceback" }

/-- A world in which the store rejects the save of `question_parsing_started`
and nothing else fails. -/
def startedSaveFailsEnv : Env :=
  { allSucceedEnv with
    dbError := fun site =>
      if site = DbSite.saveParsingStarted then some "connection lost" else none }

/-- A world in which the store rejects the save of `questions_extracted` and
nothing else fails. -/
def extractedSaveFailsEnv : Env :=
  { allSucceedEnv with
    dbError := fun site =>
      if site = DbSite.saveQuestionsExtracted then some "connection lost" else none }

/-- A world in which the store rejects the save of
`answer_book_processing_started` and nothing else fails. -/
def answerBookStartedSaveFailsEnv : Env :=
  { allSucceedEnv with
    dbError := fun site =>
      if site = DbSite.saveAnswerBookStarted then some "connection lost" else none }

/-- A world in which the store rejects the save of the merge branch and
nothing else fails. -/
def mergeSaveFailsEnv : Env :=
  { allSucceedEnv with
    dbError := fun site => if site = DbSite.saveMerge then some "connection lost" else none }

/-- The responses sent in a run of the professor upload, by HTTP code. -/
def responseCodes : List Event → List Nat
  | [] => []
  | .respond code _ _ :: rest => code :: responseCodes rest
  | _ :: rest => responseCodes rest

/-- The parser failed: the process was rejected, or its output did not
parse. -/
def ParserOutcome.failed : ParserOutcome → Bool
  | .rejected _ _ _ _ => true
  | .resolved _ none => true
  | .resolved _ (some _) => false

/-- A patch that assigns a failure status and an `errorDetails` and nothing
else. -/
def Patch.onlyFailure (p : Patch) : Bool :=
  p.processedJSON == Option.none && p.pushScripts == [] &&
  p.combinedResultGenerationStatus == Option.none &&
  p.combinedResultErrorMessage == Option.none &&
  p.combinedResultProcessedAt == Option.none &&
  p.status.any Status.isFailure && p.errorDetails.isSome

/-- The save that records an engine failure: the save of a `.catch` callback
of a POST, or the save of the inner `catch` when the parser failed. -/
def DbSite.recordsEngineFailure (parserFailed : Bool) (site : DbSite) : Bool :=
  site == DbSite.answerBookCatchSave || site == DbSite.studentScriptCatchSave ||
  (site == DbSite.saveParsingFailed && parserFailed)

/-- A step that, if it is a save recording an engine failure, assigns a
failure status and an `errorDetails` and nothing else. -/
def Event.failureWriteFramed (parserFailed : Bool) : Event → Bool
  | .save site _ p => !site.recordsEngineFailure parserFailed || p.onlyFailure
  | _ => true

/-- Test for the launch of the question parser. -/
def Event.isExecParser : Event → Bool
  | .execParser _ => true
  | _ => false

/-- The fields of a record that are set when it is created: the owner, the
two input paths, the exam key and the time of upload. -/
def ProfessorUpload.origin (r : ProfessorUpload) : String × String × String × ExamKey × Nat :=
  (r.username, r.questionPaper, r.bookAnswer, r.examKey, r.uploadedAt)

/-- The submission of `sampleRequest` sent by another professor, with newly
uploaded question-paper and book-answer files. -/
def otherProfessorRequest : ProfessorRequest :=
  { sampleRequest with
    user := { username := "other", role := "professor" }
    questionPaper := some { path := "uploads/professor/questionPaper-9.pdf" }
    bookAnswer := some { path := "uploads/professor/bookAnswer-9.pdf" } }

/-- A write that assigns `processedJSON`. -/
def Event.assignsJson : Event → Bool
  | .save _ _ p => p.processedJSON.isSome
  | .findByIdAndUpdate _ p => p.processedJSON.isSome
  | _ => false

/-- The record of `sampleRecord` after a run in which everything succeeded and
the parser printed `[0]`. -/
def parsedRecord : ProfessorUpload :=
  { sampleRecord with processedJSON := "[0]" }

/-- What a stored record shows of the pipeline: its `status` and its
`errorDetails`. -/
def ProfessorUpload.pipelineState (r : ProfessorUpload) : Option Status × Option String :=
  (r.status, r.errorDetails)

/-- The request of `sampleResultRequest` with the year `2024abc`. -/
def malformedYearRequest : ResultRequest :=
  { sampleResultRequest with year := some "2024abc" }

/-- The request of `sampleCombinedRequest` with the year `2024abc`. -/
def malformedYearCombined : CombinedRequest :=
  { sampleCombinedRequest with year := some "2024abc" }

/-- The submission of `sampleRequest` with the semester `3rd`. -/
def malformedSemesterRequest : ProfessorRequest :=
  { sampleRequest with semester := some "3rd" }

/-! ## The role check (`middleware/authMiddleware.js`) -/

/-- The value of `req.user` as `authorizeRoles` reads it: its `role`, `none`
for `undefined`. -/
structure TokenPayload where
  role : Option String
deriving DecidableEq, Repr

/-- What a middleware does with a request: it calls `next`, or it answers. -/
inductive Gate
  | next
  | respond (code : Nat) (message : String)
deriving DecidableEq, Repr

/-- The middleware returned by `authorizeRoles(roles)` (lines 26-34), applied
to a request whose `req.user` is the given payload, `none` when no user is
attached. An entry of `roles` is a text or `undefined`. -/
def authorizeRoles (roles : List (Option String)) (user : Option TokenPayload) : Gate :=
  match user with
  | some u =>
    if roles.contains u.role then Gate.next
    else Gate.respond 403 "Unauthorized: Insufficient role"
  | none => Gate.respond 403 "Unauthorized: Insufficient role"

/-- A step that sends no response. -/
def Event.isQuiet : Event → Bool
  | .respond _ _ _ => false
  | _ => true

/-- The request config passed to `axios.post`; `timeout` is in milliseconds,
`none` when the key is absent. -/
structure RequestConfig where
  timeout : Option Nat
deriving DecidableEq, Repr

/-- The options `pythonOptions` of line 108 of the professor upload, with
which `question_parser.py` is launched. -/
def parserOptions : ExecOptions :=
  { maxBuffer := 10 * 1024 * 1024, timeout := none }

/-- The config of the POST to the answer-book API (line 158). -/
def answerBookConfig : RequestConfig :=
  { timeout := some (15 * 60 * 1000) }

/-- The config of the POST to the student-script API (line 190). -/
def studentScriptConfig : RequestConfig :=
  { timeout := some (30 * 60 * 1000) }

/-- The `timeout` in the options of the call a step of the professor upload
makes: `none` for a step that calls no engine, `some none` for a call whose
options carry no `timeout`. -/
def Event.callTimeout : Event → Option (Option Nat)
  | .execParser _ => some parserOptions.timeout
  | .postAnswerBook _ => some answerBookConfig.timeout
  | .postStudentScripts _ => some studentScriptConfig.timeout
  | _ => none

/-- The `timeout` in the options of the launch a step of the results routes
makes. -/
def ResultsEvent.callTimeout : ResultsEvent → Option (Option Nat)
  | .exec _ _ options => some options.timeout
  | _ => none

/-! ## Two requests to the professor upload at once -/

/-- What a request holds between its lookup (the `await` of line 75) and its
write (the `await` of line 85 or 101): nothing when the handler threw at line
60, answered 400 or the lookup failed, the record found, or the fact that none
was found. -/
inductive Looked
  | rejected
  | found (s : Submission) (existingUpload : ProfessorUpload)
  | missing (s : Submission)
deriving DecidableEq, Repr

/-- Lines 59-77 of the handler: the guard and the lookup, on the collection as
it is when the lookup runs. -/
def lookupStep (env : Env) (req : ProfessorRequest) (db : Store) : Looked :=
  match req.submission with
  | none => Looked.rejected
  | some s =>
    match env.dbError DbSite.findOne with
    | some _ => Looked.rejected
    | none =>
      match db.findOne s.query with
      | some existingUpload => Looked.found s existingUpload
      | none => Looked.missing s

/-- Lines 81-103 of the handler: the write chosen by the result of the lookup,
on the collection as it is when the write runs. -/
def writeStep (env : Env) (req : ProfessorRequest) (looked : Looked) (db : Store) :
    List Event :=
  match looked with
  | Looked.rejected => []
  | Looked.found s existingUpload =>
    match env.dbError DbSite.saveMerge with
    | some _ => []
    | none => [Event.save DbSite.saveMerge existingUpload.id (mergePatch s)]
  | Looked.missing s =>
    match env.dbError DbSite.saveCreate with
    | some _ => []
    | none =>
      match (newProfessorUpload env req.user s db.freshId).filter schemaValid with
      | none => []
      | some newProfessorUpload => [Event.insert newProfessorUpload]

/-- How far a request has come. -/
inductive Phase
  | start
  | looked (l : Looked)
  | done
deriving DecidableEq, Repr

/-- The collection and the two requests in flight. The background processing
of a request is left out: it inserts nothing and changes no exam key. -/
structure Race where
  db : Store
  first : Phase
  second : Phase
deriving DecidableEq, Repr

/-- One of the two requests takes its next step: its lookup, then its
write. `true` moves the first request, `false` the second. -/
def Race.step (env1 env2 : Env) (req1 req2 : ProfessorRequest) (st : Race) (turn : Bool) :
    Race :=
  if turn then
    match st.first with
    | Phase.start => { st with first := Phase.looked (lookupStep env1 req1 st.db) }
    | Phase.looked l =>
      { st with db := applyTrace (writeStep env1 req1 l st.db) st.db, first := Phase.done }
    | Phase.done => st
  else
    match st.second with
    | Phase.start => { st with second := Phase.looked (lookupStep env2 req2 st.db) }
    | Phase.looked l =>
      { st with db := applyTrace (writeStep env2 req2 l st.db) st.db, second := Phase.done }
    | Phase.done => st

/-- Two requests handled at once, their steps taken in the given order. -/
def race (env1 env2 : Env) (req1 req2 : ProfessorRequest) (turns : List Bool) (db : Store) :
    Race :=
  turns.foldl (Race.step env1 env2 req1 req2)
    { db := db, first := Phase.start, second := Phase.start }

/-- The record a second creation from `sampleRequest` adds after
`sampleCreated`. -/
def sampleCreatedAgain : ProfessorUpload :=
  { sampleCreated with id := 2 }

/-- The pipeline status the handler has assigned on the document a step
sends to the store: the status of an inserted document (none, the constructor
having dropped it), or the status assigned before a save or named by an
update. -/
def Event.statusAssigned : Event → Option Status
  | .insert doc => doc.status
  | .save _ _ p => p.status
  | .findByIdAndUpdate _ p => p.status
  | _ => none

/-- The statuses assigned in a run, in the order of the saves and updates that
follow the assignments. -/
def statusesAssigned (trace : List Event) : List Status :=
  trace.filterMap Event.statusAssigned

/-- The engine whose answer a step receives. -/
def Event.settledEngine : Event → Option Engine
  | .apiSettled engine _ => some engine
  | _ => none

/-- The schedule on which the answer-book callback runs to its end right after
its POST, before the main flow goes on. -/
def answerBookEarly : List Tid :=
  List.replicate 7 Tid.main ++ List.replicate 3 Tid.answerBook

/-- The schedule on which the answer-book API answers first, then the
student-script API answers and its callback runs to its end, and the
answer-book callback makes its write last. -/
def answerBookOvertaken : List Tid :=
  List.replicate 10 Tid.main ++ [Tid.answerBook] ++ List.replicate 3 Tid.studentScript

/-! ## Properties -/

theorem Patch.apply_id (p : Patch) (r : ProfessorUpload) : (p.apply r).id = r.id := rfl

theorem Patch.apply_examKey (p : Patch) (r : ProfessorUpload) :
    (p.apply r).examKey = r.examKey := rfl

theorem Patch.none_apply (r : ProfessorUpload) : Patch.none.apply r = r := by
  cases r
  simp [Patch.apply, Patch.none]

theorem Patch.merge_apply (p q : Patch) (r : ProfessorUpload) :
    (p.merge q).apply r = q.apply (p.apply r) := by
  cases r
  cases p with
  | mk ps pe pj pp pa pb pc =>
    cases q with
    | mk qs qe qj qp qa qb qc =>
      cases qs <;> cases qe <;> cases qj <;> cases qa <;> cases qb <;> cases qc <;>
        simp [Patch.apply, Patch.merge]

theorem Store.update_length (id : Nat) (p : Patch) (db : Store) :
    (Store.update id p db).length = db.length := by
  induction db with
  | nil => rfl
  | cons r rs ih =>
    unfold Store.update
    split <;> simp [ih]

theorem Store.update_examKeys (id : Nat) (p : Patch) (db : Store) :
    (Store.update id p db).map ProfessorUpload.examKey = db.map ProfessorUpload.examKey := by
  induction db with
  | nil => rfl
  | cons r rs ih =>
    unfold Store.update
    split <;> simp [ih, Patch.apply_examKey]

theorem Patch.strict_none : Patch.none.strict = Patch.none := rfl

theorem Patch.strict_strict (p : Patch) : p.strict.strict = p.strict := rfl

theorem Patch.strict_merge (p q : Patch) : (p.merge q).strict = p.strict.merge q.strict := by
  cases p; cases q
  simp [Patch.strict, Patch.merge, Patch.none]

theorem Patch.strict_apply (p : Patch) (r : ProfessorUpload) :
    p.strict.apply r =
      { r with
        processedJSON := p.processedJSON.getD r.processedJSON
        studentScriptPaths := r.studentScriptPaths ++ p.pushScripts } := by
  cases r
  simp [Patch.strict, Patch.apply, Patch.none]

theorem Patch.strict_apply_status (p : Patch) (r : ProfessorUpload) :
    (p.strict.apply r).status = r.status ∧ (p.strict.apply r).errorDetails = r.errorDetails := by
  rw [Patch.strict_apply]
  exact ⟨rfl, rfl⟩

theorem Store.findById_update (id j : Nat) (p : Patch) (db : Store) :
    (Store.update id p db).findById j =
      (db.findById j).map (fun r => if id = j then p.strict.apply r else r) := by
  induction db with
  | nil => rfl
  | cons r rs ih =>
    simp only [Store.findById] at ih
    by_cases h : r.id = id <;> by_cases hj : r.id = j
    · have hij : id = j := h.symm.trans hj
      simp [Store.update, Store.findById, List.find?_cons, h, hij, Patch.apply_id]
    · have hij : ¬ id = j := fun e => hj (h.trans e)
      simp [Store.update, Store.findById, List.find?_cons, h, hij, Patch.apply_id]
    · have hij : ¬ id = j := fun e => h (hj.trans e.symm)
      have hji : ¬ j = id := fun e => hij e.symm
      simp [Store.update, Store.findById, List.find?_cons, hj, hij, hji]
    · simp [Store.update, Store.findById, List.find?_cons, h, hj, ih]

theorem Patch.none_merge (p : Patch) : Patch.none.merge p = p := by
  cases p with
  | mk ps pe pj pp pa pb pc =>
    cases ps <;> cases pe <;> cases pj <;> cases pa <;> cases pb <;> cases pc <;>
      simp [Patch.merge, Patch.none]

theorem Patch.merge_none (p : Patch) : p.merge Patch.none = p := by
  cases p
  simp [Patch.merge, Patch.none]

theorem Patch.merge_assoc (p q r : Patch) : (p.merge q).merge r = p.merge (q.merge r) := by
  cases p; cases q
  cases r with
  | mk rs re rj rp ra rb rc =>
    cases rs <;> cases re <;> cases rj <;> cases ra <;> cases rb <;> cases rc <;>
      simp [Patch.merge]

theorem tracePatch_nil (j : Nat) : tracePatch j [] = Patch.none := rfl

theorem tracePatch_cons (j : Nat) (e : Event) (es : List Event) :
    tracePatch j (e :: es) = (e.patchAt j).merge (tracePatch j es) := rfl

theorem tracePatch_append (j : Nat) (l₁ l₂ : List Event) :
    tracePatch j (l₁ ++ l₂) = (tracePatch j l₁).merge (tracePatch j l₂) := by
  induction l₁ with
  | nil => simp [tracePatch_nil, Patch.none_merge]
  | cons e es ih => simp [tracePatch_cons, ih, Patch.merge_assoc]

theorem applyTrace_nil (db : Store) : applyTrace [] db = db := rfl

theorem applyTrace_cons (e : Event) (es : List Event) (db : Store) :
    applyTrace (e :: es) db = applyTrace es (e.apply db) := rfl

theorem applyTrace_append (l₁ l₂ : List Event) (db : Store) :
    applyTrace (l₁ ++ l₂) db = applyTrace l₂ (applyTrace l₁ db) := by
  simp [applyTrace, List.foldl_append]

theorem Patch.map_none_apply (o : Option ProfessorUpload) : o.map Patch.none.apply = o := by
  cases o <;> simp [Patch.none_apply]

theorem Event.apply_findById (e : Event) (h : e.isInsert = false) (j : Nat) (db : Store) :
    (e.apply db).findById j = (db.findById j).map (e.patchAt j).strict.apply := by
  cases e with
  | insert doc => simp [Event.isInsert] at h
  | save site id p =>
    simp only [Event.apply, Event.patchAt, Store.findById_update]
    by_cases hij : id = j <;> simp [hij, Patch.strict_none, Patch.map_none_apply]
  | findByIdAndUpdate id p =>
    simp only [Event.apply, Event.patchAt, Store.findById_update]
    by_cases hij : id = j <;> simp [hij, Patch.strict_none, Patch.map_none_apply]
  | _ => simp [Event.apply, Event.patchAt, Patch.strict_none, Patch.map_none_apply]

theorem Event.apply_length (e : Event) (h : e.isInsert = false) (db : Store) :
    (e.apply db).length = db.length := by
  cases e <;> simp [Event.isInsert] at h <;> simp [Event.apply, Store.update_length]

/-- Without insertions, the document with a given `_id` after a sequence of
steps is the document before with the accumulated patch applied. -/
theorem applyTrace_findById (trace : List Event) (h : ∀ e ∈ trace, e.isInsert = false)
    (j : Nat) (db : Store) :
    (applyTrace trace db).findById j =
      (db.findById j).map (tracePatch j trace).strict.apply := by
  induction trace generalizing db with
  | nil => simp [applyTrace_nil, tracePatch_nil, Patch.strict_none, Patch.map_none_apply]
  | cons e es ih =>
    have he : e.isInsert = false := h e (List.mem_cons_self _ _)
    have hes : ∀ x ∈ es, x.isInsert = false := fun x hx => h x (List.mem_cons_of_mem _ hx)
    rw [applyTrace_cons, ih hes, Event.apply_findById e he, tracePatch_cons, Patch.strict_merge]
    cases db.findById j <;> simp [Patch.merge_apply]

theorem applyTrace_length (trace : List Event) (h : ∀ e ∈ trace, e.isInsert = false)
    (db : Store) : (applyTrace trace db).length = db.length := by
  induction trace generalizing db with
  | nil => rfl
  | cons e es ih =>
    have he : e.isInsert = false := h e (List.mem_cons_self _ _)
    have hes : ∀ x ∈ es, x.isInsert = false := fun x hx => h x (List.mem_cons_of_mem _ hx)
    rw [applyTrace_cons, ih hes, Event.apply_length e he]

/-- A write leaves `status` and `errorDetails` of every stored record as they
were: neither is a path of the schema. -/
theorem Store.update_pipelineState (id : Nat) (p : Patch) (db : Store) :
    (Store.update id p db).map ProfessorUpload.pipelineState =
      db.map ProfessorUpload.pipelineState := by
  induction db with
  | nil => rfl
  | cons r rs ih =>
    unfold Store.update
    split
    · simp [ProfessorUpload.pipelineState, (Patch.strict_apply_status p r).1,
        (Patch.strict_apply_status p r).2]
    · simp [ih]

/-- A patch without schema paths changes nothing in the store. -/
theorem Store.update_of_strict_none (id : Nat) (p : Patch) (h : p.strict = Patch.none)
    (db : Store) : Store.update id p db = db := by
  induction db with
  | nil => rfl
  | cons r rs ih =>
    unfold Store.update
    split
    · rw [h, Patch.none_apply]
    · rw [ih]

theorem Event.apply_pipelineState (e : Event) (h : e.isInsert = false) (db : Store) :
    (e.apply db).map ProfessorUpload.pipelineState = db.map ProfessorUpload.pipelineState := by
  cases e <;> simp [Event.isInsert] at h <;>
    simp [Event.apply, Store.update_pipelineState]

/-- Without insertions, a sequence of steps leaves `status` and `errorDetails`
of every stored record as they were. -/
theorem applyTrace_pipelineState (trace : List Event) (h : ∀ e ∈ trace, e.isInsert = false)
    (db : Store) :
    (applyTrace trace db).map ProfessorUpload.pipelineState =
      db.map ProfessorUpload.pipelineState := by
  induction trace generalizing db with
  | nil => rfl
  | cons e es ih =>
    have he : e.isInsert = false := h e (List.mem_cons_self _ _)
    have hes : ∀ x ∈ es, x.isInsert = false := fun x hx => h x (List.mem_cons_of_mem _ hx)
    rw [applyTrace_cons, ih hes, Event.apply_pipelineState e he]

theorem mem_haltAtExit {e : Event} {l : List Event} (h : e ∈ haltAtExit l) : e ∈ l := by
  induction l with
  | nil => simp [haltAtExit] at h
  | cons x xs ih =>
    unfold haltAtExit at h
    split at h
    · simp at h; simp [h]
    · rcases List.mem_cons.mp h with h | h
      · simp [h]
      · exact List.mem_cons_of_mem _ (ih h)

theorem mem_interleave {e : Event} (sched : List Tid) (m a s : List Event)
    (h : e ∈ interleave sched m a s) : e ∈ m ∨ e ∈ a ∨ e ∈ s := by
  induction sched generalizing m a s with
  | nil => simpa [interleave, or_assoc] using h
  | cons t sched ih =>
    cases t with
    | main =>
      cases m with
      | nil =>
        have h2 := ih _ _ _ (by simpa [interleave] using h)
        simpa using h2
      | cons x xs =>
        simp only [interleave, List.mem_cons] at h
        rcases h with h | h
        · simp [h]
        · rcases ih _ _ _ h with h | h | h <;> simp [h]
    | answerBook =>
      cases a with
      | nil =>
        have h2 := ih _ _ _ (by simpa [interleave] using h)
        simpa using h2
      | cons x xs =>
        simp only [interleave] at h
        split at h
        · exact ih _ _ _ h
        · rcases List.mem_cons.mp h with h | h
          · simp [h]
          · rcases ih _ _ _ h with h | h | h <;> simp [h]
    | studentScript =>
      cases s with
      | nil =>
        have h2 := ih _ _ _ (by simpa [interleave] using h)
        simpa using h2
      | cons x xs =>
        simp only [interleave] at h
        split at h
        · exact ih _ _ _ h
        · rcases List.mem_cons.mp h with h | h
          · simp [h]
          · rcases ih _ _ _ h with h | h | h <;> simp [h]

/-- A property of every step of the main flow and of both callbacks holds of
every step of the background processing, under every schedule. -/
theorem pipeline_forall (Q : Event → Prop) (env : Env) (sched : List Tid) (s : Submission)
    (doc : ProfessorUpload)
    (hm : ∀ e ∈ background env s doc, Q e)
    (ha : ∀ e ∈ answerBookCallback env doc.id, Q e)
    (hs : ∀ e ∈ studentScriptCallback env doc.id, Q e) :
    ∀ e ∈ pipeline env sched s doc, Q e := by
  intro e he
  unfold pipeline at he
  rcases mem_interleave _ _ _ _ (mem_haltAtExit he) with h | h | h
  · exact hm e h
  · split at h
    · exact ha e h
    · simp at h
  · split at h
    · exact hs e h
    · simp at h

theorem Patch.stageOnly_merge (p q : Patch) (hp : p.stageOnly = true) (hq : q.stageOnly = true) :
    (p.merge q).stageOnly = true := by
  simp [Patch.stageOnly, Patch.merge] at *
  simp [hp, hq]

theorem outerCatch_stageWrite (env : Env) (id : Nat) (msg : String) :
    (outerCatch env true (some id) msg).all Event.stageWrite = true := by
  unfold outerCatch
  cases env.dbError DbSite.findByIdAndUpdate <;> rfl

theorem innerCatch_stageWrite (env : Env) (id : Nat) (p : Patch) (hp : p.stageOnly = true)
    (t : Thrown) : (innerCatch env id p t).all Event.stageWrite = true := by
  unfold innerCatch
  cases env.dbError DbSite.saveParsingFailed with
  | some m => simp [List.all_cons, Event.stageWrite, outerCatch_stageWrite]
  | none =>
    simp only [List.all_cons, List.all_nil, Event.stageWrite, Bool.and_true]
    exact Patch.stageOnly_merge _ _ hp rfl

theorem studentScriptStage_stageWrite (env : Env) (doc : ProfessorUpload) :
    (studentScriptStage env doc).all Event.stageWrite = true := by
  unfold studentScriptStage
  cases env.dbError DbSite.findByIdFlask2 <;>
    cases env.dbError DbSite.saveStudentScriptStarted <;>
    simp [List.all_cons, Event.stageWrite, innerCatch_stageWrite, Patch.stageOnly, Patch.none,
      Patch.setStatus]

theorem answerBookStage_stageWrite (env : Env) (s : Submission) (doc : ProfessorUpload)
    (d : Json) : (answerBookStage env s doc d).all Event.stageWrite = true := by
  unfold answerBookStage
  cases env.dbError DbSite.findByIdFlask1 <;> cases env.dbError DbSite.saveAnswerBookStarted <;>
    simp [List.all_cons, Event.stageWrite, innerCatch_stageWrite, studentScriptStage_stageWrite,
      Patch.stageOnly, Patch.none, Patch.setStatus]

theorem background_stageWrite (env : Env) (s : Submission) (doc : ProfessorUpload) :
    (background env s doc).all Event.stageWrite = true := by
  unfold background
  cases env.dbError DbSite.saveParsingStarted <;>
    cases env.dbError DbSite.saveQuestionsExtracted <;>
    rcases env.parser with ⟨c, so, se, msg⟩ | ⟨so, _ | d⟩ <;>
    simp [List.all_cons, Event.stageWrite, innerCatch_stageWrite, answerBookStage_stageWrite,
      Patch.stageOnly, Patch.none, Patch.setStatus, questionsExtractedPatch]

theorem apiCatch_stageWrite (env : Env) (f g : DbSite) (st : Status) (script : String) (id : Nat)
    (msg : String) (data : Option String) :
    (apiCatch env f g st script id msg data).all Event.stageWrite = true := by
  unfold apiCatch
  cases env.dbError f <;> cases env.dbError g <;>
    simp [List.all_cons, Event.stageWrite, Patch.stageOnly, Patch.none, Patch.setFailure]

theorem apiThen_stageWrite (env : Env) (f g f2 g2 : DbSite) (c st : Status) (script : String)
    (id : Nat) : (apiThen env f g f2 g2 c st script id).all Event.stageWrite = true := by
  unfold apiThen
  cases env.dbError f <;> cases env.dbError g <;>
    simp [List.all_cons, Event.stageWrite, Patch.stageOnly, Patch.none, Patch.setStatus,
      apiCatch_stageWrite]

theorem answerBookCallback_stageWrite (env : Env) (id : Nat) :
    (answerBookCallback env id).all Event.stageWrite = true := by
  unfold answerBookCallback
  cases env.answerBook <;>
    simp [List.all_cons, Event.stageWrite, apiCatch_stageWrite, apiThen_stageWrite]

theorem studentScriptCallback_stageWrite (env : Env) (id : Nat) :
    (studentScriptCallback env id).all Event.stageWrite = true := by
  unfold studentScriptCallback
  cases env.studentScripts <;>
    simp [List.all_cons, Event.stageWrite, apiCatch_stageWrite, apiThen_stageWrite]

/-- Under every schedule, the background processing inserts nothing and writes
pipeline fields only. -/
theorem pipeline_stageWrite (env : Env) (sched : List Tid) (s : Submission)
    (doc : ProfessorUpload) : ∀ e ∈ pipeline env sched s doc, e.stageWrite = true := by
  apply pipeline_forall
  · exact fun e he => List.all_eq_true.mp (background_stageWrite env s doc) e he
  · exact fun e he => List.all_eq_true.mp (answerBookCallback_stageWrite env doc.id) e he
  · exact fun e he => List.all_eq_true.mp (studentScriptCallback_stageWrite env doc.id) e he

theorem Event.stageWrite_not_insert {e : Event} (h : e.stageWrite = true) :
    e.isInsert = false := by
  cases e <;> simp [Event.stageWrite] at h <;> rfl

theorem Event.stageWrite_patchAt {e : Event} (h : e.stageWrite = true) (j : Nat) :
    (e.patchAt j).stageOnly = true := by
  cases e <;> simp [Event.stageWrite] at h <;> simp only [Event.patchAt] <;>
    first
      | rfl
      | (split
         · exact h
         · rfl)

theorem tracePatch_stageOnly (j : Nat) (trace : List Event)
    (h : ∀ e ∈ trace, e.stageWrite = true) : (tracePatch j trace).stageOnly = true := by
  induction trace with
  | nil => rfl
  | cons e es ih =>
    rw [tracePatch_cons]
    exact Patch.stageOnly_merge _ _
      (Event.stageWrite_patchAt (h e (List.mem_cons_self _ _)) j)
      (ih (fun x hx => h x (List.mem_cons_of_mem _ hx)))

theorem Patch.stageOnly_pushScripts {p : Patch} (h : p.stageOnly = true) : p.pushScripts = [] := by
  simp [Patch.stageOnly] at h
  exact h.1.1.1

theorem Store.findById_of_mem (db : Store) (hids : (db.map (fun r => r.id)).Nodup)
    (r : ProfessorUpload) (hr : r ∈ db) : db.findById r.id = some r := by
  induction db with
  | nil => simp at hr
  | cons x xs ih =>
    simp only [List.map_cons, List.nodup_cons] at hids
    rcases List.mem_cons.mp hr with h | h
    · subst h
      simp [Store.findById, List.find?_cons]
    · have hne : ¬ x.id = r.id := by
        intro e
        exact hids.1 (e ▸ List.mem_map_of_mem (fun r => r.id) h)
      have := ih hids.2 h
      simp only [Store.findById] at this
      simp [Store.findById, List.find?_cons, hne, this]

theorem Store.findOne_mem {db : Store} {q : ExamQuery} {r : ProfessorUpload}
    (h : db.findOne q = some r) : r ∈ db :=
  List.mem_of_find?_eq_some h

theorem Store.findOne_matches {db : Store} {q : ExamQuery} {r : ProfessorUpload}
    (h : db.findOne q = some r) : q.matches r = true :=
  List.find?_some h

theorem ProfessorRequest.submission_scripts {req : ProfessorRequest} {s : Submission}
    (h : req.submission = some s) :
    s.studentScriptPaths = req.studentScript.map (fun f => normalizeSlashes f.path) := by
  unfold ProfessorRequest.submission at h
  split at h
  · split at h
    · simp at h
      rw [← h]
    · simp at h
  · simp at h

theorem intake_merge (env : Env) (req : ProfessorRequest) (db : Store) (s : Submission)
    (r : ProfessorUpload) (hs : req.submission = some s)
    (hfind : db.findOne s.query = some r)
    (h1 : env.dbError DbSite.findOne = none) (h2 : env.dbError DbSite.saveMerge = none) :
    intake env req db =
      { events :=
          [Event.findOne s.query, Event.save DbSite.saveMerge r.id (mergePatch s),
           Event.respond 200
             "Student scripts added to existing upload. Background processing continues."
             (some r.id)],
        doc := some (s, (mergePatch s).apply r) } := by
  simp [intake, hs, h1, h2, hfind]

theorem intake_create (env : Env) (req : ProfessorRequest) (db : Store) (s : Submission)
    (d : ProfessorUpload) (hs : req.submission = some s)
    (hfind : db.findOne s.query = none)
    (h1 : env.dbError DbSite.findOne = none) (h2 : env.dbError DbSite.saveCreate = none)
    (hnew : newProfessorUpload env req.user s db.freshId = some d)
    (hvalid : schemaValid d = true) :
    intake env req db =
      { events :=
          [Event.findOne s.query, Event.insert d,
           Event.respond 201 "Upload received. Background processing started." (some d.id)],
        doc := some (s, d) } := by
  simp [intake, hs, h1, h2, hfind, hnew, Option.filter, hvalid]

/-- C1. A submission that passes the guard and whose query finds a record `r`
(no store error at the lookup and at the save): after the whole run, under
every schedule and every outcome of the engines, the collection has as many
documents as before, and the script list of `r` is its previous list followed
by the submitted paths in submission order, so it is longer by exactly the
number of submitted script files and nothing is lost, reordered or
deduplicated. -/
theorem merge_appends_scripts (env : Env) (sched : List Tid) (req : ProfessorRequest)
    (db : Store) (s : Submission) (r : ProfessorUpload)
    (hs : req.submission = some s)
    (hfind : db.findOne s.query = some r)
    (hids : (db.map (fun x => x.id)).Nodup)
    (h1 : env.dbError DbSite.findOne = none) (h2 : env.dbError DbSite.saveMerge = none) :
    (applyTrace (professorUpload env sched req db) db).length = db.length ∧
    ((applyTrace (professorUpload env sched req db) db).findById r.id).map
        (fun x => x.studentScriptPaths) =
      some (r.studentScriptPaths ++ req.studentScript.map (fun f => normalizeSlashes f.path)) ∧
    ((applyTrace (professorUpload env sched req db) db).findById r.id).map
        (fun x => x.studentScriptPaths.length) =
      some (r.studentScriptPaths.length + req.studentScript.length) := by
  have hi := intake_merge env req db s r hs hfind h1 h2
  have htr : professorUpload env sched req db =
      [Event.findOne s.query, Event.save DbSite.saveMerge r.id (mergePatch s),
       Event.respond 200
         "Student scripts added to existing upload. Background processing continues."
         (some r.id)] ++ pipeline env sched s ((mergePatch s).apply r) := by
    simp [professorUpload, hi]
  have hpipe := pipeline_stageWrite env sched s ((mergePatch s).apply r)
  have hins : ∀ e ∈ professorUpload env sched req db, e.isInsert = false := by
    intro e he
    rw [htr] at he
    rcases List.mem_append.mp he with h | h
    · simp at h
      rcases h with h | h | h <;> subst h <;> rfl
    · exact Event.stageWrite_not_insert (hpipe e h)
  have hfb : db.findById r.id = some r :=
    Store.findById_of_mem db hids r (Store.findOne_mem hfind)
  have hpush : (tracePatch r.id (professorUpload env sched req db)).pushScripts =
      s.studentScriptPaths := by
    rw [htr, tracePatch_append]
    have h0 := Patch.stageOnly_pushScripts (tracePatch_stageOnly r.id _ hpipe)
    generalize tracePatch r.id (pipeline env sched s ((mergePatch s).apply r)) = tp at h0 ⊢
    simp only [tracePatch_cons, tracePatch_nil, Event.patchAt, if_true]
    simp [Patch.merge, Patch.none, mergePatch, h0]
  have hpaths : ((applyTrace (professorUpload env sched req db) db).findById r.id).map
      (fun x => x.studentScriptPaths) =
      some (r.studentScriptPaths ++ req.studentScript.map (fun f => normalizeSlashes f.path)) := by
    rw [applyTrace_findById _ hins, hfb]
    simp [Patch.strict_apply, hpush, ProfessorRequest.submission_scripts hs]
  refine ⟨applyTrace_length _ hins db, hpaths, ?_⟩
  have := congrArg (Option.map List.length) hpaths
  simpa [Option.map_map, Function.comp] using this

/-- The theorem above at `sampleRequest` merged into `sampleRecord`. -/
theorem merge_appends_scripts_witness :
    (applyTrace (professorUpload sampleEnv [] sampleRequest [sampleRecord])
        [sampleRecord]).length = [sampleRecord].length ∧
    ((applyTrace (professorUpload sampleEnv [] sampleRequest [sampleRecord])
        [sampleRecord]).findById sampleRecord.id).map (fun x => x.studentScriptPaths) =
      some (sampleRecord.studentScriptPaths ++
        sampleRequest.studentScript.map (fun f => normalizeSlashes f.path)) ∧
    ((applyTrace (professorUpload sampleEnv [] sampleRequest [sampleRecord])
        [sampleRecord]).findById sampleRecord.id).map (fun x => x.studentScriptPaths.length) =
      some (sampleRecord.studentScriptPaths.length + sampleRequest.studentScript.length) :=
  merge_appends_scripts sampleEnv [] sampleRequest [sampleRecord] sampleSubmission sampleRecord
    (by decide) (by decide) (by decide) rfl rfl

theorem Store.freshId_gt (db : Store) : ∀ r ∈ db, r.id < db.freshId := by
  induction db with
  | nil => simp
  | cons x xs ih =>
    intro r hr
    simp only [Store.freshId, List.map_cons, List.foldr_cons] at ih ⊢
    rcases List.mem_cons.mp hr with h | h
    · subst h
      omega
    · have := ih r h
      omega

theorem Store.findById_append_fresh (db : Store) (d : ProfessorUpload)
    (h : d.id = db.freshId) : (db ++ [d]).findById d.id = some d := by
  have hlt := Store.freshId_gt db
  have hnone : db.find? (fun r => r.id == d.id) = none := by
    rw [List.find?_eq_none]
    intro r hr
    have := hlt r hr
    simp
    omega
  simp [Store.findById, List.find?_append, hnone]

theorem newProfessorUpload_fields {env : Env} {user : User} {s : Submission} {id : Nat}
    {d : ProfessorUpload} (h : newProfessorUpload env user s id = some d) :
    d.id = id ∧ d.status = none ∧ d.username = jsTrim user.username ∧
    d.questionPaper = s.questionPaperFilePath ∧ d.bookAnswer = s.bookAnswerFilePath ∧
    d.studentScriptPaths = s.studentScriptPaths ∧
    d.examKey.course = jsTrim s.course ∧ d.examKey.subject = jsTrim s.subject ∧
    d.examKey.subjectCode = jsTrim s.subjectCode ∧
    some d.examKey.semester = parseInt s.semester ∧ some d.examKey.year = parseInt s.year ∧
    d.examKey.examType = s.examType ∧ d.examKey.sectionType = s.sectionType := by
  unfold newProfessorUpload at h
  split at h
  · rename_i sem yr hsem hyr
    simp only [Option.some.injEq] at h
    subst h
    simp [ProfessorUpload.examKey, hsem, hyr]
  · simp at h

theorem ProfessorRequest.submission_files {req : ProfessorRequest} {s : Submission}
    (h : req.submission = some s) :
    req.questionPaper.map (fun f => normalizeSlashes f.path) = some s.questionPaperFilePath ∧
    req.bookAnswer.map (fun f => normalizeSlashes f.path) = some s.bookAnswerFilePath := by
  unfold ProfessorRequest.submission at h
  split at h
  · rename_i h1 h2 _ _ _ _ _ _ _
    split at h
    · simp at h
      rw [← h]
      simp [h1, h2]
    · simp at h
  · simp at h

/-- The create branch in general. A submission that passes the guard, whose
query finds no record and whose document passes the schema (no store error at
the lookup and at the save): the synchronous part looks up, inserts exactly
one document `d` and answers 201 with the id of `d`; `d` has the submitting
user's username after the `trim` setter, the question-paper and book-answer
paths and exactly the submitted script paths (backslashes rewritten to
slashes), and it has no status and no errorDetails. After the whole run the
collection has one document more, and that document has the same owner, file
fields, status and errorDetails. -/
theorem create_persists_record (env : Env) (sched : List Tid) (req : ProfessorRequest)
    (db : Store) (s : Submission) (d : ProfessorUpload)
    (hs : req.submission = some s)
    (hfind : db.findOne s.query = none)
    (h1 : env.dbError DbSite.findOne = none) (h2 : env.dbError DbSite.saveCreate = none)
    (hnew : newProfessorUpload env req.user s db.freshId = some d)
    (hvalid : schemaValid d = true) :
    (intake env req db).events =
      [Event.findOne s.query, Event.insert d,
       Event.respond 201 "Upload received. Background processing started." (some d.id)] ∧
    applyTrace (intake env req db).events db = db ++ [d] ∧
    d.status = none ∧
    d.username = jsTrim req.user.username ∧
    some d.questionPaper = req.questionPaper.map (fun f => normalizeSlashes f.path) ∧
    some d.bookAnswer = req.bookAnswer.map (fun f => normalizeSlashes f.path) ∧
    d.studentScriptPaths = req.studentScript.map (fun f => normalizeSlashes f.path) ∧
    (applyTrace (professorUpload env sched req db) db).length = db.length + 1 ∧
    ((applyTrace (professorUpload env sched req db) db).findById d.id).map
        (fun x => (x.username, x.questionPaper, x.bookAnswer, x.studentScriptPaths, x.status,
          x.errorDetails)) =
      some (d.username, d.questionPaper, d.bookAnswer, d.studentScriptPaths, none, none) := by
  have hi := intake_create env req db s d hs hfind h1 h2 hnew hvalid
  have hf := newProfessorUpload_fields hnew
  have hfiles := ProfessorRequest.submission_files hs
  have hpipe := pipeline_stageWrite env sched s d
  have hins : ∀ e ∈ pipeline env sched s d, e.isInsert = false :=
    fun e he => Event.stageWrite_not_insert (hpipe e he)
  have htr : applyTrace (professorUpload env sched req db) db =
      applyTrace (pipeline env sched s d) (db ++ [d]) := by
    simp [professorUpload, hi, applyTrace_append, applyTrace, Event.apply]
  refine ⟨by rw [hi], by simp [hi, applyTrace, Event.apply], hf.2.1, hf.2.2.1, ?_, ?_, ?_, ?_, ?_⟩
  · rw [hfiles.1, hf.2.2.2.1]
  · rw [hfiles.2, hf.2.2.2.2.1]
  · rw [hf.2.2.2.2.2.1, ProfessorRequest.submission_scripts hs]
  · rw [htr, applyTrace_length _ hins]
    simp
  · rw [htr, applyTrace_findById _ hins, Store.findById_append_fresh db d hf.1]
    have h0 := Patch.stageOnly_pushScripts (tracePatch_stageOnly d.id _ hpipe)
    have he : d.errorDetails = none := by
      unfold newProfessorUpload at hnew
      split at hnew
      · simp only [Option.some.injEq] at hnew
        subst hnew
        rfl
      · simp at hnew
    simp [Patch.strict_apply, h0, hf.2.1, he]

/-- The `trim` setter of the schema applies to the owner as well: for a user
named `" prof "` the document inserted by a valid first submission carries the
username `"prof"`. -/
theorem create_trims_username :
    paddedUserRequest.submission = some sampleSubmission ∧
    Store.findOne [] sampleSubmission.query = none ∧
    (applyTrace (intake sampleEnv paddedUserRequest []).events []).map (fun x => x.username) =
      ["prof"] ∧
    paddedUserRequest.user.username ≠ "prof" := by
  decide

/-- C2, the code at the failing input. The first valid submission on the empty
collection: the handler looks up, inserts one document and answers 201 with
its id, and the document carries the owner, the two input paths and the
submitted script paths. But the claim's pipeline status `upload_received` is
not persisted: the key `status` of line 100 names no path of the schema, the
inserted document has no status, and the record still has none when the run
has ended, here with the parser and both APIs succeeding. -/
theorem created_record_has_no_status :
    (intake sampleEnv sampleRequest []).events =
      [Event.findOne sampleSubmission.query, Event.insert sampleCreated,
       Event.respond 201 "Upload received. Background processing started." (some 1)] ∧
    applyTrace (intake sampleEnv sampleRequest []).events [] = [sampleCreated] ∧
    sampleCreated.status = none ∧
    sampleCreated.status ≠ some Status.upload_received ∧
    (sampleCreated.username, sampleCreated.questionPaper, sampleCreated.bookAnswer,
        sampleCreated.studentScriptPaths) =
      ("prof", "uploads/professor/questionPaper-1.pdf", "uploads/professor/bookAnswer-1.pdf",
        ["uploads/professor/studentScript-1.pdf", "uploads/professor/studentScript-2.pdf"]) ∧
    (applyTrace (professorUpload allSucceedEnv [] sampleRequest []) []).map
        (fun x => (x.id, x.status)) = [(1, none)] := by
  decide

theorem outerCatch_no_engine (env : Env) (sent : Bool) (doc : Option Nat) (msg : String) :
    (outerCatch env sent doc msg).all (fun e => !e.isEngineCall) = true := by
  unfold outerCatch
  cases sent <;> cases doc <;> cases env.dbError DbSite.findByIdAndUpdate <;> rfl

theorem intake_rejected_no_engine (env : Env) (sent : Bool) (doc : Option Nat) (msg : String)
    (l : List Event) (hl : l.all (fun e => !e.isEngineCall) = true) :
    ∀ e ∈ l ++ outerCatch env sent doc msg, e.isEngineCall = false := by
  intro e he
  rcases List.mem_append.mp he with h | h
  · simpa using List.all_eq_true.mp hl e h
  · simpa using List.all_eq_true.mp (outerCatch_no_engine env sent doc msg) e h

/-- Shape of the synchronous part: either no background processing starts and
no engine was called, or the steps are a lookup, a record write and the
response that acknowledges it. -/
theorem intake_shape (env : Env) (req : ProfessorRequest) (db : Store) :
    ((intake env req db).doc = none ∧
      ∀ e ∈ (intake env req db).events, e.isEngineCall = false) ∨
    ∃ q w r, (intake env req db).events = [Event.findOne q, w, r] ∧
      r.acknowledges w = true ∧ (intake env req db).doc.isSome = true := by
  cases hs : req.submission with
  | none => left; cases hm : req.multipart <;> simp [intake, hs, hm, Event.isEngineCall]
  | some s =>
    cases h1 : env.dbError DbSite.findOne with
    | some m =>
      left
      have hi : intake env req db =
          { events := [Event.dbFailed DbSite.findOne m] ++ outerCatch env false none m,
            doc := none } := by
        simp [intake, hs, h1]
      rw [hi]
      exact ⟨rfl, intake_rejected_no_engine env false none m _ rfl⟩
    | none =>
      cases hf : db.findOne s.query with
      | some r =>
        cases h2 : env.dbError DbSite.saveMerge with
        | some m =>
          left
          have hi : intake env req db =
              { events := [Event.findOne s.query, Event.dbFailed DbSite.saveMerge m] ++
                  outerCatch env false none m,
                doc := none } := by
            simp [intake, hs, h1, hf, h2]
          rw [hi]
          exact ⟨rfl, intake_rejected_no_engine env false none m _ rfl⟩
        | none =>
          right
          rw [intake_merge env req db s r hs hf h1 h2]
          exact ⟨_, _, _, rfl, by simp [Event.acknowledges], rfl⟩
      | none =>
        cases h2 : env.dbError DbSite.saveCreate with
        | some m =>
          left
          have hi : intake env req db =
              { events := [Event.findOne s.query, Event.dbFailed DbSite.saveCreate m] ++
                  outerCatch env false none m,
                doc := none } := by
            simp [intake, hs, h1, hf, h2]
          rw [hi]
          exact ⟨rfl, intake_rejected_no_engine env false none m _ rfl⟩
        | none =>
          cases hn : (newProfessorUpload env req.user s db.freshId).filter schemaValid with
          | none =>
            left
            have hi : intake env req db =
                { events :=
                    [Event.findOne s.query,
                     Event.dbFailed DbSite.saveCreate "ProfessorUpload validation failed"] ++
                    outerCatch env false none "ProfessorUpload validation failed",
                  doc := none } := by
              simp [intake, hs, h1, hf, h2, hn]
            rw [hi]
            exact ⟨rfl, intake_rejected_no_engine env false none _ _ rfl⟩
          | some d =>
            right
            have hi : intake env req db =
                { events :=
                    [Event.findOne s.query, Event.insert d,
                     Event.respond 201 "Upload received. Background processing started."
                       (some d.id)],
                  doc := some (s, d) } := by
              simp [intake, hs, h1, hf, h2, hn]
            rw [hi]
            exact ⟨_, _, _, rfl, by simp [Event.acknowledges], rfl⟩

/-- C4. In every run of the handler, for every invocation of an engine (the
parser or one of the two APIs) the steps before it begin with the lookup, the
record write and, right after it, the 200 (merge) or 201 (create) response
carrying the id of the written record; no engine is invoked before that
response. -/
theorem response_precedes_engines (env : Env) (sched : List Tid) (req : ProfessorRequest)
    (db : Store) (pre post : List Event) (e : Event)
    (h : professorUpload env sched req db = pre ++ e :: post)
    (he : e.isEngineCall = true) :
    ∃ q w r rest, pre = Event.findOne q :: w :: r :: rest ∧ r.acknowledges w = true ∧
      w.isEngineCall = false ∧ r.isEngineCall = false := by
  rcases intake_shape env req db with ⟨hdoc, hno⟩ | ⟨q, w, r, hev, hack, hdoc⟩
  · have hmem : e ∈ (intake env req db).events := by
      have : professorUpload env sched req db = (intake env req db).events := by
        simp [professorUpload, hdoc]
      rw [← this, h]
      simp
    rw [hno e hmem] at he
    cases he
  · have hw : w.isEngineCall = false := by
      cases w <;> cases r <;> simp [Event.acknowledges] at hack <;> rfl
    have hr : r.isEngineCall = false := by
      cases w <;> cases r <;> simp [Event.acknowledges] at hack <;> rfl
    cases hd : (intake env req db).doc with
    | none => simp [hd] at hdoc
    | some sd =>
      have htr : professorUpload env sched req db =
          Event.findOne q :: w :: r :: pipeline env sched sd.1 sd.2 := by
        simp [professorUpload, hd, hev]
      rw [htr] at h
      match pre, h with
      | [], h =>
        simp only [List.nil_append, List.cons.injEq] at h
        rw [← h.1] at he
        cases he
      | [a], h =>
        simp only [List.singleton_append, List.cons.injEq] at h
        rw [← h.2.1, hw] at he
        cases he
      | [a, b], h =>
        simp only [List.cons_append, List.nil_append, List.cons.injEq] at h
        rw [← h.2.2.1, hr] at he
        cases he
      | a :: b :: c :: rest, h =>
        simp only [List.cons_append, List.cons.injEq] at h
        exact ⟨q, w, r, rest, by rw [← h.1, ← h.2.1, ← h.2.2.1], hack, hw, hr⟩

/-- The theorem above at the start of the parser in the run of `sampleRequest`. -/
theorem response_precedes_engines_witness :
    ∃ q w r rest,
      (professorUpload sampleEnv [] sampleRequest []).take 4 = Event.findOne q :: w :: r :: rest ∧
      r.acknowledges w = true ∧ w.isEngineCall = false ∧ r.isEngineCall = false :=
  response_precedes_engines sampleEnv [] sampleRequest []
    ((professorUpload sampleEnv [] sampleRequest []).take 4)
    ((professorUpload sampleEnv [] sampleRequest []).drop 5)
    (Event.execParser "uploads/professor/questionPaper-1.pdf")
    (by decide) (by decide)

theorem interleave_nil_nil (sched : List Tid) (m : List Event) :
    interleave sched m [] [] = m := by
  induction sched generalizing m with
  | nil => simp [interleave]
  | cons t sched ih =>
    cases t with
    | main =>
      cases m with
      | nil => simp [interleave, ih]
      | cons x xs => simp [interleave, ih]
    | answerBook => simp [interleave, ih]
    | studentScript => simp [interleave, ih]

theorem haltAtExit_eq_self (l : List Event) (h : Event.processExit ∉ l) : haltAtExit l = l := by
  induction l with
  | nil => rfl
  | cons x xs ih =>
    have hx : x ≠ Event.processExit := fun e => h (e ▸ List.mem_cons_self _ _)
    have hxs : Event.processExit ∉ xs := fun e => h (List.mem_cons_of_mem _ e)
    simp [haltAtExit, hx, ih hxs]

/-- The synchronous part hands a document to the background processing in two
cases only: the merge of a found record, or the insertion of a valid new
document. -/
theorem intake_accepted {env : Env} {req : ProfessorRequest} {db : Store} {s : Submission}
    {doc : ProfessorUpload} (hdoc : (intake env req db).doc = some (s, doc)) :
    req.submission = some s ∧
    ((∃ r, db.findOne s.query = some r ∧ doc = (mergePatch s).apply r ∧
        (intake env req db).events =
          [Event.findOne s.query, Event.save DbSite.saveMerge r.id (mergePatch s),
           Event.respond 200
             "Student scripts added to existing upload. Background processing continues."
             (some r.id)]) ∨
     (db.findOne s.query = none ∧ newProfessorUpload env req.user s db.freshId = some doc ∧
        schemaValid doc = true ∧
        (intake env req db).events =
          [Event.findOne s.query, Event.insert doc,
           Event.respond 201 "Upload received. Background processing started."
             (some doc.id)])) := by
  cases hs : req.submission with
  | none => cases hm : req.multipart <;> simp [intake, hs, hm] at hdoc
  | some s0 =>
    cases h1 : env.dbError DbSite.findOne with
    | some m => simp [intake, hs, h1] at hdoc
    | none =>
      cases hf : db.findOne s0.query with
      | some r =>
        cases h2 : env.dbError DbSite.saveMerge with
        | some m => simp [intake, hs, h1, hf, h2] at hdoc
        | none =>
          have hi := intake_merge env req db s0 r hs hf h1 h2
          rw [hi] at hdoc ⊢
          simp only [Option.some.injEq, Prod.mk.injEq] at hdoc
          obtain ⟨hs0, hd⟩ := hdoc
          subst hs0
          exact ⟨rfl, Or.inl ⟨r, hf, hd.symm, rfl⟩⟩
      | none =>
        cases h2 : env.dbError DbSite.saveCreate with
        | some m => simp [intake, hs, h1, hf, h2] at hdoc
        | none =>
          cases hn : (newProfessorUpload env req.user s0 db.freshId).filter schemaValid with
          | none => simp [intake, hs, h1, hf, h2, hn] at hdoc
          | some d =>
            have hn2 : newProfessorUpload env req.user s0 db.freshId = some d ∧
                schemaValid d = true := by
              cases hnew : newProfessorUpload env req.user s0 db.freshId with
              | none => simp [hnew] at hn
              | some d0 =>
                rw [hnew] at hn
                simp only [Option.filter] at hn
                split at hn
                · simp only [Option.some.injEq] at hn
                  subst hn
                  exact ⟨rfl, by assumption⟩
                · simp at hn
            have hi := intake_create env req db s0 d hs hf h1 h2 hn2.1 hn2.2
            rw [hi] at hdoc ⊢
            simp only [Option.some.injEq, Prod.mk.injEq] at hdoc
            obtain ⟨hs0, hd⟩ := hdoc
            subst hs0
            subst hd
            exact ⟨rfl, Or.inr ⟨hf, hn2.1, hn2.2, rfl⟩⟩

theorem Store.findById_isSome_of_mem (db : Store) (r : ProfessorUpload) (hr : r ∈ db) :
    (db.findById r.id).isSome = true := by
  simp only [Store.findById, List.find?_isSome]
  exact ⟨r, hr, by simp⟩

/-- The record handed to the background processing is in the collection when
it starts, and at the end of the run it is that stored record with every
write of the background processing applied, in order. -/
theorem final_record {env : Env} {req : ProfessorRequest} {db : Store} {s : Submission}
    {doc : ProfessorUpload} (sched : List Tid)
    (hdoc : (intake env req db).doc = some (s, doc)) :
    ∃ r1, (applyTrace (intake env req db).events db).findById doc.id = some r1 ∧
      (applyTrace (professorUpload env sched req db) db).findById doc.id =
        some ((tracePatch doc.id (pipeline env sched s doc)).strict.apply r1) := by
  have hpipe := pipeline_stageWrite env sched s doc
  have hins : ∀ e ∈ pipeline env sched s doc, e.isInsert = false :=
    fun e he => Event.stageWrite_not_insert (hpipe e he)
  have htr : applyTrace (professorUpload env sched req db) db =
      applyTrace (pipeline env sched s doc) (applyTrace (intake env req db).events db) := by
    simp [professorUpload, hdoc, applyTrace_append]
  have hstored : ((applyTrace (intake env req db).events db).findById doc.id).isSome = true := by
    rcases (intake_accepted hdoc).2 with ⟨r, hf, hd, hev⟩ | ⟨hf, hn, hv, hev⟩
    · rw [hev, hd]
      have := Store.findById_isSome_of_mem db r (Store.findOne_mem hf)
      simp only [applyTrace, List.foldl_cons, List.foldl_nil, Event.apply, Patch.apply_id,
        Store.findById_update]
      cases hfb : db.findById r.id with
      | none => simp [hfb] at this
      | some x => simp
    · rw [hev]
      have := Store.findById_append_fresh db doc (newProfessorUpload_fields hn).1
      simp [applyTrace, Event.apply, this]
  cases hr1 : (applyTrace (intake env req db).events db).findById doc.id with
  | none => simp [hr1] at hstored
  | some r1 =>
    refine ⟨r1, rfl, ?_⟩
    rw [htr, applyTrace_findById _ hins, hr1]
    rfl

theorem background_parser_rejected (env : Env) (s : Submission) (doc : ProfessorUpload)
    (code : Option Int) (stdout stderr message : String)
    (h0 : env.dbError DbSite.saveParsingStarted = none)
    (hp : env.parser = ParserOutcome.rejected code stdout stderr message)
    (h1 : env.dbError DbSite.saveParsingFailed = none) :
    background env s doc =
      [Event.save DbSite.saveParsingStarted doc.id
         (Patch.setStatus Status.question_parsing_started),
       Event.execParser (env.relative s.questionPaperFilePath),
       Event.parserSettled (ParserOutcome.rejected code stdout stderr message),
       Event.save DbSite.saveParsingFailed doc.id
         (Patch.setFailure Status.question_parsing_failed
           (parserErrorDetails
             { code := code, stderr := some stderr, errorMessage := some message }))] := by
  simp [background, h0, hp, innerCatch, h1, Patch.none_merge]

theorem pipeline_parser_rejected (env : Env) (sched : List Tid) (s : Submission)
    (doc : ProfessorUpload) (code : Option Int) (stdout stderr message : String)
    (h0 : env.dbError DbSite.saveParsingStarted = none)
    (hp : env.parser = ParserOutcome.rejected code stdout stderr message)
    (h1 : env.dbError DbSite.saveParsingFailed = none) :
    pipeline env sched s doc = background env s doc := by
  have hb := background_parser_rejected env s doc code stdout stderr message h0 hp h1
  unfold pipeline
  rw [hb]
  simp [Event.isPostAnswerBook, Event.isPostStudentScripts, interleave_nil_nil, haltAtExit]

theorem newProfessorUpload_pipelineState {env : Env} {user : User} {s : Submission} {id : Nat}
    {d : ProfessorUpload} (h : newProfessorUpload env user s id = some d) :
    d.pipelineState = (none, none) := by
  unfold newProfessorUpload at h
  split at h
  · simp only [Option.some.injEq] at h
    subst h
    rfl
  · simp at h

/-- The synchronous part leaves `status` and `errorDetails` of every stored
record as they were, and a document it inserts has neither. -/
theorem intake_pipelineState (env : Env) (req : ProfessorRequest) (db : Store) :
    (applyTrace (intake env req db).events db).map ProfessorUpload.pipelineState =
        db.map ProfessorUpload.pipelineState ∨
      (applyTrace (intake env req db).events db).map ProfessorUpload.pipelineState =
        db.map ProfessorUpload.pipelineState ++ [(none, none)] := by
  cases hd : (intake env req db).doc with
  | none =>
    left
    apply applyTrace_pipelineState
    intro e he
    cases hs : req.submission with
    | none =>
      cases hm : req.multipart <;> simp [intake, hs, hm] at he <;> subst he <;> rfl
    | some s0 =>
      cases h1 : env.dbError DbSite.findOne with
      | some m =>
        simp [intake, hs, h1, outerCatch] at he
        rcases he with rfl | rfl <;> rfl
      | none =>
        cases hf : db.findOne s0.query with
        | some r =>
          cases h2 : env.dbError DbSite.saveMerge with
          | some m =>
            simp [intake, hs, h1, hf, h2, outerCatch] at he
            rcases he with rfl | rfl | rfl <;> rfl
          | none => simp [intake, hs, h1, hf, h2] at hd
        | none =>
          cases h2 : env.dbError DbSite.saveCreate with
          | some m =>
            simp [intake, hs, h1, hf, h2, outerCatch] at he
            rcases he with rfl | rfl | rfl <;> rfl
          | none =>
            cases hn : (newProfessorUpload env req.user s0 db.freshId).filter schemaValid with
            | none =>
              simp [intake, hs, h1, hf, h2, hn, outerCatch] at he
              rcases he with rfl | rfl | rfl <;> rfl
            | some d => simp [intake, hs, h1, hf, h2, hn] at hd
  | some sd =>
    obtain ⟨s, doc⟩ := sd
    rcases (intake_accepted hd).2 with ⟨r, _, _, hev⟩ | ⟨_, hn, _, hev⟩
    · left
      rw [hev]
      apply applyTrace_pipelineState
      intro e he
      simp only [List.mem_cons, List.mem_singleton, List.not_mem_nil, or_false] at he
      rcases he with rfl | rfl | rfl <;> rfl
    · right
      rw [hev]
      simp [applyTrace, Event.apply, newProfessorUpload_pipelineState hn]

/-- A run of the professor upload leaves `status` and `errorDetails` of every
stored record as they were, under every schedule and for every outcome of the
store and the engines; a document it inserts has neither, and still has
neither when the run has ended. -/
theorem professorUpload_pipelineState (env : Env) (sched : List Tid) (req : ProfessorRequest)
    (db : Store) :
    (applyTrace (professorUpload env sched req db) db).map ProfessorUpload.pipelineState =
        db.map ProfessorUpload.pipelineState ∨
      (applyTrace (professorUpload env sched req db) db).map ProfessorUpload.pipelineState =
        db.map ProfessorUpload.pipelineState ++ [(none, none)] := by
  cases hd : (intake env req db).doc with
  | none =>
    have : professorUpload env sched req db = (intake env req db).events := by
      simp [professorUpload, hd]
    rw [this]
    exact intake_pipelineState env req db
  | some sd =>
    obtain ⟨s, doc⟩ := sd
    have htr : applyTrace (professorUpload env sched req db) db =
        applyTrace (pipeline env sched s doc) (applyTrace (intake env req db).events db) := by
      simp [professorUpload, hd, applyTrace_append]
    have hins : ∀ e ∈ pipeline env sched s doc, e.isInsert = false :=
      fun e he => Event.stageWrite_not_insert (pipeline_stageWrite env sched s doc e he)
    rw [htr, applyTrace_pipelineState _ hins]
    exact intake_pipelineState env req db

/-- A parser failure in general. A run whose submission was accepted, in which
the parser was started and `executePythonScript` rejects (the store accepting
the save of the inner `catch`): the handler assigns `question_parsing_failed`
and the diagnostic of line 221 to its document and saves it, the save being
the last step of the run; no step of the run, under any schedule, is a POST to
the answer-book API or to the student-script API; and the stored record shows
the status and errorDetails it showed before the background processing
started. -/
theorem parser_failure_stops_pipeline (env : Env) (sched : List Tid) (req : ProfessorRequest)
    (db : Store) (s : Submission) (doc : ProfessorUpload)
    (code : Option Int) (stdout stderr message : String)
    (hdoc : (intake env req db).doc = some (s, doc))
    (h0 : env.dbError DbSite.saveParsingStarted = none)
    (hp : env.parser = ParserOutcome.rejected code stdout stderr message)
    (h1 : env.dbError DbSite.saveParsingFailed = none) :
    (professorUpload env sched req db).getLast? =
      some (Event.save DbSite.saveParsingFailed doc.id
        (Patch.setFailure Status.question_parsing_failed
          (parserErrorDetails
            { code := code, stderr := some stderr, errorMessage := some message }))) ∧
    (∃ r1, (applyTrace (intake env req db).events db).findById doc.id = some r1 ∧
      ((applyTrace (professorUpload env sched req db) db).findById doc.id).map
          ProfessorUpload.pipelineState = some r1.pipelineState) ∧
    ∀ e ∈ professorUpload env sched req db,
      e.isPostAnswerBook = false ∧ e.isPostStudentScripts = false := by
  have hpl := pipeline_parser_rejected env sched s doc code stdout stderr message h0 hp h1
  have hb := background_parser_rejected env s doc code stdout stderr message h0 hp h1
  have htr : professorUpload env sched req db =
      (intake env req db).events ++ pipeline env sched s doc := by
    simp [professorUpload, hdoc]
  refine ⟨?_, ?_, ?_⟩
  · rw [htr, hpl, hb]
    simp [List.getLast?_append]
  · obtain ⟨r1, hr1, hfin⟩ := final_record sched hdoc
    refine ⟨r1, hr1, ?_⟩
    rw [hfin]
    simp [ProfessorUpload.pipelineState, (Patch.strict_apply_status _ r1).1,
      (Patch.strict_apply_status _ r1).2]
  · intro e he
    rw [htr, hpl, hb] at he
    rcases List.mem_append.mp he with h | h
    · rcases (intake_accepted hdoc).2 with ⟨r, _, _, hev⟩ | ⟨_, _, _, hev⟩ <;>
        rw [hev] at h <;> simp at h <;> rcases h with h | h | h <;> subst h <;>
        exact ⟨rfl, rfl⟩
    · simp at h
      rcases h with h | h | h | h <;> subst h <;> exact ⟨rfl, rfl⟩

/-- C5, the code at the failing input. The first submission of an exam, on the
empty collection, with a question parser that exits with code 1. The handler
assigns `question_parsing_failed` and the diagnostic of line 221 to its
document and saves it, and issues no POST to either API: the steps listed are
the whole run. But neither `status` nor `errorDetails` is a path of the
schema, so the save stores neither: the record ends without a status and
without an errorDetails. The same holds for a submission merged into a stored
record. -/
theorem parser_failure_not_recorded :
    professorUpload parserFailsEnv [Tid.answerBook, Tid.main] sampleRequest [] =
      [Event.findOne sampleSubmission.query, Event.insert sampleCreated,
       Event.respond 201 "Upload received. Background processing started." (some 1),
       Event.save DbSite.saveParsingStarted 1 (Patch.setStatus Status.question_parsing_started),
       Event.execParser "uploads/professor/questionPaper-1.pdf",
       Event.parserSettled (ParserOutcome.rejected (some 1) "" "Traceback" "Command failed"),
       Event.save DbSite.saveParsingFailed 1
         (Patch.setFailure Status.question_parsing_failed
           "Python (question_parser.py) error. Exit code: 1. Stderr: Traceback")] ∧
    (applyTrace (professorUpload parserFailsEnv [Tid.answerBook, Tid.main] sampleRequest []) []).map
        (fun x => (x.id, x.status, x.errorDetails)) = [(1, none, none)] ∧
    (applyTrace (professorUpload parserFailsEnv [] sampleRequest [sampleRecord])
        [sampleRecord]).map (fun x => (x.id, x.status, x.errorDetails)) = [(1, none, none)] := by
  decide

theorem haltAtExit_append (l : List Event) : ∃ rest, l = haltAtExit l ++ rest := by
  induction l with
  | nil => exact ⟨[], rfl⟩
  | cons x xs ih =>
    unfold haltAtExit
    split
    · exact ⟨xs, rfl⟩
    · obtain ⟨rest, hrest⟩ := ih
      exact ⟨rest, by rw [List.cons_append, ← hrest]⟩

/-- Order of the main flow in an interleaving: a step that only the main flow
can take is preceded, in the interleaving, by everything the main flow does
before it. -/
theorem interleave_main_before (Q : Event → Bool) (sched : List Tid) (m a s : List Event)
    (ha : ∀ x ∈ a, Q x = false) (hs : ∀ x ∈ s, Q x = false)
    (pre post : List Event) (e : Event)
    (h : interleave sched m a s = pre ++ e :: post) (he : Q e = true) :
    ∃ m1 m2, m = m1 ++ e :: m2 ∧ m1.Sublist pre := by
  induction sched generalizing m a s pre with
  | nil =>
    simp only [interleave, List.append_assoc] at h
    rcases List.append_eq_append_iff.mp h with ⟨a', _, h2⟩ | ⟨c', h1, h2⟩
    · have hmem : e ∈ a ++ s := by rw [h2]; simp
      rcases List.mem_append.mp hmem with hm | hm
      · rw [ha e hm] at he; cases he
      · rw [hs e hm] at he; cases he
    · cases c' with
      | nil =>
        have hmem : e ∈ a ++ s := by
          simp only [List.nil_append] at h2
          rw [← h2]; simp
        rcases List.mem_append.mp hmem with hm | hm
        · rw [ha e hm] at he; cases he
        · rw [hs e hm] at he; cases he
      | cons c cs =>
        simp only [List.cons_append, List.cons.injEq] at h2
        exact ⟨pre, cs, by rw [h1, h2.1], List.Sublist.refl _⟩
  | cons t sched ih =>
    cases t with
    | main =>
      cases m with
      | nil =>
        simp only [interleave] at h
        obtain ⟨m1, m2, hm, _⟩ := ih [] a s ha hs pre h
        simp at hm
      | cons x xs =>
        simp only [interleave] at h
        cases pre with
        | nil =>
          simp only [List.nil_append, List.cons.injEq] at h
          exact ⟨[], xs, by simp [h.1], List.Sublist.refl _⟩
        | cons p ps =>
          simp only [List.cons_append, List.cons.injEq] at h
          obtain ⟨m1, m2, hm, hsub⟩ := ih xs a s ha hs ps h.2
          exact ⟨x :: m1, m2, by simp [hm], by rw [← h.1]; exact hsub.cons₂ x⟩
    | answerBook =>
      cases a with
      | nil =>
        simp only [interleave] at h
        exact ih m [] s ha hs pre h
      | cons y ys =>
        simp only [interleave] at h
        split at h
        · exact ih m (y :: ys) s ha hs pre h
        · cases pre with
          | nil =>
            simp only [List.nil_append, List.cons.injEq] at h
            rw [← h.1, ha y (List.mem_cons_self _ _)] at he
            cases he
          | cons p ps =>
            simp only [List.cons_append, List.cons.injEq] at h
            obtain ⟨m1, m2, hm, hsub⟩ :=
              ih m ys s (fun x hx => ha x (List.mem_cons_of_mem _ hx)) hs ps h.2
            exact ⟨m1, m2, hm, hsub.cons p⟩
    | studentScript =>
      cases s with
      | nil =>
        simp only [interleave] at h
        exact ih m a [] ha hs pre h
      | cons y ys =>
        simp only [interleave] at h
        split at h
        · exact ih m a (y :: ys) ha hs pre h
        · cases pre with
          | nil =>
            simp only [List.nil_append, List.cons.injEq] at h
            rw [← h.1, hs y (List.mem_cons_self _ _)] at he
            cases he
          | cons p ps =>
            simp only [List.cons_append, List.cons.injEq] at h
            obtain ⟨m1, m2, hm, hsub⟩ :=
              ih m a ys ha (fun x hx => hs x (List.mem_cons_of_mem _ hx)) ps h.2
            exact ⟨m1, m2, hm, hsub.cons p⟩

/-- A split of a list at an element with a property not met in a given
prefix lies behind that prefix. -/
theorem split_after_prefix (Q : Event → Bool) (p rest m1 m2 : List Event) (e : Event)
    (hp : ∀ x ∈ p, Q x = false) (he : Q e = true) (h : p ++ rest = m1 ++ e :: m2) :
    ∃ m1', m1 = p ++ m1' := by
  induction p generalizing m1 with
  | nil => exact ⟨m1, rfl⟩
  | cons x xs ih =>
    cases m1 with
    | nil =>
      simp only [List.cons_append, List.nil_append, List.cons.injEq] at h
      rw [← h.1, hp x (List.mem_cons_self _ _)] at he
      cases he
    | cons y ys =>
      simp only [List.cons_append, List.cons.injEq] at h
      obtain ⟨m1', hm⟩ := ih ys (fun z hz => hp z (List.mem_cons_of_mem _ hz)) h.2
      exact ⟨m1', by rw [h.1, hm]; rfl⟩

theorem outerCatch_no_fanout (env : Env) (sent : Bool) (doc : Option Nat) (msg : String) :
    (outerCatch env sent doc msg).any Event.isFanOutCall = false := by
  unfold outerCatch
  cases sent <;> cases doc <;> cases env.dbError DbSite.findByIdAndUpdate <;> rfl

theorem innerCatch_no_fanout (env : Env) (id : Nat) (p : Patch) (t : Thrown) :
    (innerCatch env id p t).any Event.isFanOutCall = false := by
  unfold innerCatch
  cases env.dbError DbSite.saveParsingFailed <;>
    simp [List.any_cons, Event.isFanOutCall, outerCatch_no_fanout]

theorem apiCatch_no_fanout (env : Env) (f g : DbSite) (st : Status) (script : String) (id : Nat)
    (msg : String) (data : Option String) :
    (apiCatch env f g st script id msg data).any Event.isFanOutCall = false := by
  unfold apiCatch
  cases env.dbError f <;> cases env.dbError g <;> rfl

theorem apiThen_no_fanout (env : Env) (f g f2 g2 : DbSite) (c st : Status) (script : String)
    (id : Nat) : (apiThen env f g f2 g2 c st script id).any Event.isFanOutCall = false := by
  unfold apiThen
  cases env.dbError f <;> cases env.dbError g <;>
    simp [List.any_cons, Event.isFanOutCall, apiCatch_no_fanout]

theorem not_of_any_eq_false {q : Event → Bool} {l : List Event} (h : l.any q = false) :
    ∀ e ∈ l, q e = false := by
  intro e he
  cases hq : q e with
  | false => rfl
  | true =>
    have : l.any q = true := List.any_eq_true.mpr ⟨e, he, hq⟩
    rw [h] at this
    cases this

theorem answerBookCallback_no_fanout (env : Env) (id : Nat) :
    ∀ e ∈ answerBookCallback env id, e.isFanOutCall = false := by
  apply not_of_any_eq_false
  unfold answerBookCallback
  cases env.answerBook <;>
    simp [List.any_cons, Event.isFanOutCall, apiCatch_no_fanout, apiThen_no_fanout]

theorem studentScriptCallback_no_fanout (env : Env) (id : Nat) :
    ∀ e ∈ studentScriptCallback env id, e.isFanOutCall = false := by
  apply not_of_any_eq_false
  unfold studentScriptCallback
  cases env.studentScripts <;>
    simp [List.any_cons, Event.isFanOutCall, apiCatch_no_fanout, apiThen_no_fanout]

/-- If the main flow issues a POST at all, the parser resolved with parseable
output and the main flow starts with the `question_parsing_started` write, the
parser run and the write of its output with `questions_extracted`. -/
theorem background_fanout (env : Env) (s : Submission) (doc : ProfessorUpload) (e : Event)
    (he : e ∈ background env s doc) (hq : e.isFanOutCall = true) :
    ∃ stdout data, env.parser = ParserOutcome.resolved stdout (some data) ∧
      background env s doc =
        [Event.save DbSite.saveParsingStarted doc.id
           (Patch.setStatus Status.question_parsing_started),
         Event.execParser (env.relative s.questionPaperFilePath),
         Event.parserSettled (ParserOutcome.resolved stdout (some data)),
         Event.save DbSite.saveQuestionsExtracted doc.id (questionsExtractedPatch data)] ++
        answerBookStage env s doc data := by
  have hcontra : ∀ l : List Event, l.any Event.isFanOutCall = false → e ∈ l → False := by
    intro l hl hmem
    rw [not_of_any_eq_false hl e hmem] at hq
    cases hq
  cases h0 : env.dbError DbSite.saveParsingStarted with
  | some m =>
    exfalso
    refine hcontra (background env s doc) ?_ he
    simp [background, h0, List.any_cons, Event.isFanOutCall, innerCatch_no_fanout]
  | none =>
    cases hp : env.parser with
    | rejected code so se msg =>
      exfalso
      refine hcontra (background env s doc) ?_ he
      simp [background, h0, hp, List.any_cons, Event.isFanOutCall, innerCatch_no_fanout]
    | resolved so parsed =>
      cases parsed with
      | none =>
        exfalso
        refine hcontra (background env s doc) ?_ he
        simp [background, h0, hp, List.any_cons, Event.isFanOutCall, innerCatch_no_fanout]
      | some data =>
        cases h1 : env.dbError DbSite.saveQuestionsExtracted with
        | some m =>
          exfalso
          refine hcontra (background env s doc) ?_ he
          simp [background, h0, hp, h1, List.any_cons, Event.isFanOutCall, innerCatch_no_fanout]
        | none =>
          exact ⟨so, data, rfl, by simp [background, h0, hp, h1]⟩

theorem innerCatch_postsPayload (env : Env) (id : Nat) (p : Patch) (t : Thrown)
    (pl : AnswerBookPayload) : (innerCatch env id p t).all (Event.postsPayload pl) = true := by
  unfold innerCatch outerCatch
  cases env.dbError DbSite.saveParsingFailed <;> cases env.dbError DbSite.findByIdAndUpdate <;>
    rfl

theorem answerBookStage_postsPayload (env : Env) (s : Submission) (doc : ProfessorUpload)
    (data : Json) :
    (answerBookStage env s doc data).all
      (Event.postsPayload (answerBookPayload env s doc data)) = true := by
  unfold answerBookStage studentScriptStage
  cases env.dbError DbSite.findByIdFlask1 <;> cases env.dbError DbSite.saveAnswerBookStarted <;>
    cases env.dbError DbSite.findByIdFlask2 <;>
    cases env.dbError DbSite.saveStudentScriptStarted <;>
    simp [List.all_cons, Event.postsPayload, innerCatch_postsPayload]

theorem patch_jsonOnly_merge (d : Json) (p q : Patch)
    (hp : p.processedJSON = none ∨ p.processedJSON = some d)
    (hq : q.processedJSON = none ∨ q.processedJSON = some d) :
    (p.merge q).processedJSON = none ∨ (p.merge q).processedJSON = some d := by
  simp only [Patch.merge]
  rcases hq with hq | hq <;> rcases hp with hp | hp <;> simp [hp, hq]

theorem outerCatch_writesJsonOnly (env : Env) (id : Nat) (msg : String) (d : Json) :
    (outerCatch env true (some id) msg).all (Event.writesJsonOnly d) = true := by
  unfold outerCatch
  cases env.dbError DbSite.findByIdAndUpdate <;> rfl

theorem innerCatch_writesJsonOnly (env : Env) (id : Nat) (p : Patch) (t : Thrown) (d : Json)
    (hp : p.processedJSON = none ∨ p.processedJSON = some d) :
    (innerCatch env id p t).all (Event.writesJsonOnly d) = true := by
  unfold innerCatch
  cases env.dbError DbSite.saveParsingFailed with
  | some m => simp [List.all_cons, Event.writesJsonOnly, outerCatch_writesJsonOnly]
  | none =>
    have := patch_jsonOnly_merge d p
      (Patch.setFailure Status.question_parsing_failed (parserErrorDetails t)) hp (Or.inl rfl)
    simpa [List.all_cons, Event.writesJsonOnly] using this

theorem answerBookStage_writesJsonOnly (env : Env) (s : Submission) (doc : ProfessorUpload)
    (data d : Json) : (answerBookStage env s doc data).all (Event.writesJsonOnly d) = true := by
  unfold answerBookStage studentScriptStage
  cases env.dbError DbSite.findByIdFlask1 <;> cases env.dbError DbSite.saveAnswerBookStarted <;>
    cases env.dbError DbSite.findByIdFlask2 <;>
    cases env.dbError DbSite.saveStudentScriptStarted <;>
    simp [List.all_cons, Event.writesJsonOnly, innerCatch_writesJsonOnly, Patch.none,
      Patch.setStatus]

theorem apiCatch_writesJsonOnly (env : Env) (f g : DbSite) (st : Status) (script : String)
    (id : Nat) (msg : String) (data : Option String) (d : Json) :
    (apiCatch env f g st script id msg data).all (Event.writesJsonOnly d) = true := by
  unfold apiCatch
  cases env.dbError f <;> cases env.dbError g <;> rfl

theorem apiThen_writesJsonOnly (env : Env) (f g f2 g2 : DbSite) (c st : Status)
    (script : String) (id : Nat) (d : Json) :
    (apiThen env f g f2 g2 c st script id).all (Event.writesJsonOnly d) = true := by
  unfold apiThen
  cases env.dbError f <;> cases env.dbError g <;>
    simp [List.all_cons, Event.writesJsonOnly, apiCatch_writesJsonOnly, Patch.none,
      Patch.setStatus]

theorem answerBookCallback_writesJsonOnly (env : Env) (id : Nat) (d : Json) :
    (answerBookCallback env id).all (Event.writesJsonOnly d) = true := by
  unfold answerBookCallback
  cases env.answerBook <;>
    simp [List.all_cons, Event.writesJsonOnly, apiCatch_writesJsonOnly, apiThen_writesJsonOnly]

theorem studentScriptCallback_writesJsonOnly (env : Env) (id : Nat) (d : Json) :
    (studentScriptCallback env id).all (Event.writesJsonOnly d) = true := by
  unfold studentScriptCallback
  cases env.studentScripts <;>
    simp [List.all_cons, Event.writesJsonOnly, apiCatch_writesJsonOnly, apiThen_writesJsonOnly]

theorem Event.writesJsonOnly_patchAt {d : Json} {e : Event} (h : e.writesJsonOnly d = true)
    (j : Nat) : (e.patchAt j).processedJSON = none ∨ (e.patchAt j).processedJSON = some d := by
  cases e <;> simp [Event.writesJsonOnly] at h <;> simp only [Event.patchAt] <;>
    first
      | exact Or.inl rfl
      | (split
         · exact h
         · exact Or.inl rfl)

theorem tracePatch_jsonOnly (d : Json) (j : Nat) (l : List Event)
    (h : ∀ e ∈ l, e.writesJsonOnly d = true) :
    (tracePatch j l).processedJSON = none ∨ (tracePatch j l).processedJSON = some d := by
  induction l with
  | nil => exact Or.inl rfl
  | cons x xs ih =>
    rw [tracePatch_cons]
    exact patch_jsonOnly_merge d _ _
      (Event.writesJsonOnly_patchAt (h x (List.mem_cons_self _ _)) j)
      (ih (fun e he => h e (List.mem_cons_of_mem _ he)))

/-- When every write of a trace leaves `processedJSON` alone or sets it to
`d`, and one write to document `j` sets it, the accumulated value is `d`. -/
theorem tracePatch_json_of_mem (d : Json) (j : Nat) (l : List Event)
    (h : ∀ e ∈ l, e.writesJsonOnly d = true)
    (x : Event) (hx : x ∈ l) (hxd : (x.patchAt j).processedJSON = some d) :
    (tracePatch j l).processedJSON = some d := by
  induction l with
  | nil => simp at hx
  | cons y ys ih =>
    rw [tracePatch_cons]
    have hys := tracePatch_jsonOnly d j ys (fun e he => h e (List.mem_cons_of_mem _ he))
    rcases List.mem_cons.mp hx with hxy | hxy
    · subst hxy
      rcases hys with hys | hys <;> simp [Patch.merge, hys, hxd]
    · have := ih (fun e he => h e (List.mem_cons_of_mem _ he)) hxy
      simp [Patch.merge, this]

theorem intake_events_no_fanout {env : Env} {req : ProfessorRequest} {db : Store}
    {s : Submission} {doc : ProfessorUpload} (hdoc : (intake env req db).doc = some (s, doc)) :
    ∀ x ∈ (intake env req db).events, x.isFanOutCall = false := by
  intro x hx
  rcases (intake_accepted hdoc).2 with ⟨r, _, _, hev⟩ | ⟨_, _, _, hev⟩ <;>
    rw [hev] at hx <;> simp at hx <;> rcases hx with hx | hx | hx <;> subst hx <;> rfl

theorem intake_stored {env : Env} {req : ProfessorRequest} {db : Store} {s : Submission}
    {doc : ProfessorUpload} (hdoc : (intake env req db).doc = some (s, doc)) :
    ∃ r1, (applyTrace (intake env req db).events db).findById doc.id = some r1 := by
  obtain ⟨r1, h, _⟩ := final_record [] hdoc
  exact ⟨r1, h⟩

/-- The order of the fan-out in general. In every run, under every schedule:
when a POST of the fan-out is issued, the steps before it contain, in this
order, the start of the parser, its successful return with parseable output
and the save on which the handler has assigned that output to `processedJSON`
and `questions_extracted` to `status`; the stored record holds that output in
`processedJSON` at the moment of the call; and the `parsedQuestionData` of a
POST to the answer-book API is that same value. -/
theorem fanout_after_questions_persisted (env : Env) (sched : List Tid)
    (req : ProfessorRequest) (db : Store) (s : Submission) (doc : ProfessorUpload)
    (pre post : List Event) (e : Event)
    (hdoc : (intake env req db).doc = some (s, doc))
    (h : professorUpload env sched req db = pre ++ e :: post)
    (he : e.isFanOutCall = true) :
    ∃ stdout data,
      env.parser = ParserOutcome.resolved stdout (some data) ∧
      [Event.execParser (env.relative s.questionPaperFilePath),
       Event.parserSettled (ParserOutcome.resolved stdout (some data)),
       Event.save DbSite.saveQuestionsExtracted doc.id (questionsExtractedPatch data)].Sublist
        pre ∧
      ((applyTrace pre db).findById doc.id).map (fun x => x.processedJSON) = some data ∧
      ∀ payload, e = Event.postAnswerBook payload → payload.parsedQuestionData = data := by
  have htr : professorUpload env sched req db =
      (intake env req db).events ++ pipeline env sched s doc := by
    simp [professorUpload, hdoc]
  rw [htr] at h
  obtain ⟨pre', hpre⟩ := split_after_prefix Event.isFanOutCall _ _ pre post e
    (intake_events_no_fanout hdoc) he h
  subst hpre
  rw [List.append_assoc] at h
  have hpl : pipeline env sched s doc = pre' ++ e :: post := List.append_cancel_left h
  obtain ⟨rest, hrest⟩ := haltAtExit_append
    (interleave sched (background env s doc)
      (if (background env s doc).any Event.isPostAnswerBook then answerBookCallback env doc.id
       else [])
      (if (background env s doc).any Event.isPostStudentScripts then
         studentScriptCallback env doc.id
       else []))
  have hpl2 : haltAtExit
      (interleave sched (background env s doc)
        (if (background env s doc).any Event.isPostAnswerBook then answerBookCallback env doc.id
         else [])
        (if (background env s doc).any Event.isPostStudentScripts then
           studentScriptCallback env doc.id
         else [])) = pre' ++ e :: post := hpl
  rw [hpl2, List.append_assoc, List.cons_append] at hrest
  have ha : ∀ x ∈ (if (background env s doc).any Event.isPostAnswerBook then
      answerBookCallback env doc.id else []), Event.isFanOutCall x = false := by
    intro x hx
    split at hx
    · exact answerBookCallback_no_fanout env doc.id x hx
    · simp at hx
  have hs : ∀ x ∈ (if (background env s doc).any Event.isPostStudentScripts then
      studentScriptCallback env doc.id else []), Event.isFanOutCall x = false := by
    intro x hx
    split at hx
    · exact studentScriptCallback_no_fanout env doc.id x hx
    · simp at hx
  obtain ⟨m1, m2, hm, hsub⟩ :=
    interleave_main_before Event.isFanOutCall sched _ _ _ ha hs pre' (post ++ rest) e hrest he
  have hem : e ∈ background env s doc := by rw [hm]; simp
  obtain ⟨stdout, data, hp, hb⟩ := background_fanout env s doc e hem he
  rw [hb] at hm
  obtain ⟨m1', hm1⟩ := split_after_prefix Event.isFanOutCall _ _ m1 m2 e
    (by
      intro x hx
      simp at hx
      rcases hx with hx | hx | hx | hx <;> subst hx <;> rfl)
    he hm
  have hsub4 : [Event.save DbSite.saveParsingStarted doc.id
           (Patch.setStatus Status.question_parsing_started),
         Event.execParser (env.relative s.questionPaperFilePath),
         Event.parserSettled (ParserOutcome.resolved stdout (some data)),
         Event.save DbSite.saveQuestionsExtracted doc.id (questionsExtractedPatch data)].Sublist
      pre' := by
    refine List.Sublist.trans ?_ hsub
    rw [hm1]
    exact List.sublist_append_left _ _
  have hsub3 : [Event.execParser (env.relative s.questionPaperFilePath),
       Event.parserSettled (ParserOutcome.resolved stdout (some data)),
       Event.save DbSite.saveQuestionsExtracted doc.id (questionsExtractedPatch data)].Sublist
      pre' := List.Sublist.trans (List.sublist_cons_self _ _) hsub4
  refine ⟨stdout, data, hp, List.Sublist.trans hsub3 (List.sublist_append_right _ _), ?_, ?_⟩
  · obtain ⟨r1, hr1⟩ := intake_stored hdoc
    have hmem : ∀ x ∈ pre', x ∈ pipeline env sched s doc := by
      intro x hx
      rw [hpl]
      simp [hx]
    have hins : ∀ x ∈ pre', x.isInsert = false :=
      fun x hx => Event.stageWrite_not_insert (pipeline_stageWrite env sched s doc x (hmem x hx))
    have hjson : ∀ x ∈ pre', x.writesJsonOnly data = true := by
      intro x hx
      refine pipeline_forall (fun x => x.writesJsonOnly data = true) env sched s doc ?_ ?_ ?_ x
        (hmem x hx)
      · intro y hy
        rw [hb] at hy
        rcases List.mem_append.mp hy with hy | hy
        · simp at hy
          rcases hy with hy | hy | hy | hy <;> subst hy <;>
            simp [Event.writesJsonOnly, Patch.setStatus, Patch.none, questionsExtractedPatch]
        · exact List.all_eq_true.mp (answerBookStage_writesJsonOnly env s doc data data) y hy
      · exact fun y hy =>
          List.all_eq_true.mp (answerBookCallback_writesJsonOnly env doc.id data) y hy
      · exact fun y hy =>
          List.all_eq_true.mp (studentScriptCallback_writesJsonOnly env doc.id data) y hy
    have hsave : Event.save DbSite.saveQuestionsExtracted doc.id (questionsExtractedPatch data) ∈
        pre' := hsub4.subset (by simp)
    have hjs := tracePatch_json_of_mem data doc.id pre' hjson _ hsave
      (by simp [Event.patchAt, questionsExtractedPatch])
    rw [applyTrace_append, applyTrace_findById _ hins, hr1]
    simp [Patch.strict_apply, hjs]
  · intro payload hpay
    subst hpay
    rw [hb] at hem
    rcases List.mem_append.mp hem with hy | hy
    · simp at hy
    · have := List.all_eq_true.mp (answerBookStage_postsPayload env s doc data) _ hy
      simp only [Event.postsPayload, beq_iff_eq] at this
      rw [this]
      rfl

/-- C6, the code at the failing input. The first submission of an exam, on the
empty collection, with a parser that prints the question list `[1]`. The ten
first steps of the run end with the POST to the answer-book API; before it the
parser was started and returned, and the save of line 129 was made, so that
the stored record holds `[1]` in `processedJSON` when the POST is issued, and
the POST carries `[1]` as `parsedQuestionData`. But the status
`questions_extracted` assigned before that save is not persisted: `status` is
no path of the schema, and the stored record has no status when the POST is
issued, nor when the second POST is issued. -/
theorem questions_extracted_not_persisted :
    (professorUpload sampleEnv [Tid.studentScript, Tid.answerBook] sampleRequest []).take 10 =
      [Event.findOne sampleSubmission.query, Event.insert sampleCreated,
       Event.respond 201 "Upload received. Background processing started." (some 1),
       Event.save DbSite.saveParsingStarted 1 (Patch.setStatus Status.question_parsing_started),
       Event.execParser "uploads/professor/questionPaper-1.pdf",
       Event.parserSettled (ParserOutcome.resolved "[1]\n" (some "[1]")),
       Event.save DbSite.saveQuestionsExtracted 1 (questionsExtractedPatch "[1]"),
       Event.findById DbSite.findByIdFlask1 1,
       Event.save DbSite.saveAnswerBookStarted 1
         (Patch.setStatus Status.answer_book_processing_started),
       Event.postAnswerBook (answerBookPayload sampleEnv sampleSubmission sampleCreated "[1]")] ∧
    (questionsExtractedPatch "[1]").status = some Status.questions_extracted ∧
    (answerBookPayload sampleEnv sampleSubmission sampleCreated "[1]").parsedQuestionData =
      "[1]" ∧
    (applyTrace
        ((professorUpload sampleEnv [Tid.studentScript, Tid.answerBook] sampleRequest []).take 9)
        []).map (fun x => (x.id, x.processedJSON, x.status)) = [(1, "[1]", none)] ∧
    (professorUpload sampleEnv [Tid.studentScript, Tid.answerBook] sampleRequest []).get? 12 =
      some (Event.postStudentScripts 1) ∧
    (applyTrace
        ((professorUpload sampleEnv [Tid.studentScript, Tid.answerBook] sampleRequest []).take
          12)
        []).map (fun x => (x.id, x.processedJSON, x.status)) = [(1, "[1]", none)] := by
  decide

theorem interleave_nil_left_a (sched : List Tid) (a : List Event) :
    interleave sched [] a [] = a := by
  induction sched generalizing a with
  | nil => simp [interleave]
  | cons t sched ih =>
    cases t with
    | main => simp [interleave, ih]
    | answerBook =>
      cases a with
      | nil => simp [interleave, ih]
      | cons y ys => simp [interleave, ih]
    | studentScript => simp [interleave, ih]

theorem interleave_nil_left_s (sched : List Tid) (s : List Event) :
    interleave sched [] [] s = s := by
  induction sched generalizing s with
  | nil => simp [interleave]
  | cons t sched ih =>
    cases t with
    | main => simp [interleave, ih]
    | answerBook => simp [interleave, ih]
    | studentScript =>
      cases s with
      | nil => simp [interleave, ih]
      | cons y ys => simp [interleave, ih]

theorem silent_filter (j : Nat) (l : List Event) (h : ∀ e ∈ l, e.isSilent j = true) :
    l.filter Event.isCallbackSave = [] := by
  rw [List.filter_eq_nil_iff]
  intro e he
  have := h e he
  simp [Event.isSilent] at this
  simp [this.1]

theorem silent_tracePatch (j : Nat) (l : List Event) (h : ∀ e ∈ l, e.isSilent j = true) :
    tracePatch j l = Patch.none := by
  induction l with
  | nil => rfl
  | cons x xs ih =>
    have hx := h x (List.mem_cons_self _ _)
    simp [Event.isSilent] at hx
    rw [tracePatch_cons, hx.2, ih (fun e he => h e (List.mem_cons_of_mem _ he)),
      Patch.none_merge]

theorem silent_append_loud (j : Nat) (l : List Event) (hl : ∀ e ∈ l, e.isSilent j = true)
    (z : Event) (hz : z.isCallbackSave = true) :
    (l ++ [z]).filter Event.isCallbackSave = [z] ∧ tracePatch j (l ++ [z]) = z.patchAt j := by
  constructor
  · rw [List.filter_append, silent_filter j l hl]
    simp [List.filter_cons, hz]
  · rw [tracePatch_append, silent_tracePatch j l hl, Patch.none_merge, tracePatch_cons,
      tracePatch_nil, Patch.merge_none]

/-- Two flows that run without the main flow, each ending in its only
callback save after silent steps: the two saves happen in one of the two
orders, and what the interleaving writes to document `j` is the first save
overridden by the second. -/
theorem merge_two_loud (j : Nat) (sched : List Tid) (a0 s0 : List Event) (x y : Event)
    (ha0 : ∀ e ∈ a0, e.isSilent j = true) (hs0 : ∀ e ∈ s0, e.isSilent j = true)
    (hx : x.isCallbackSave = true) (hy : y.isCallbackSave = true) :
    ((interleave sched [] (a0 ++ [x]) (s0 ++ [y])).filter Event.isCallbackSave = [x, y] ∧
      tracePatch j (interleave sched [] (a0 ++ [x]) (s0 ++ [y])) =
        (x.patchAt j).merge (y.patchAt j)) ∨
    ((interleave sched [] (a0 ++ [x]) (s0 ++ [y])).filter Event.isCallbackSave = [y, x] ∧
      tracePatch j (interleave sched [] (a0 ++ [x]) (s0 ++ [y])) =
        (y.patchAt j).merge (x.patchAt j)) := by
  have hfa : ∀ l : List Event, (∀ e ∈ l, e.isSilent j = true) → ∀ z, z.isCallbackSave = true →
      (l ++ [z]).filter Event.isCallbackSave = [z] ∧ tracePatch j (l ++ [z]) = z.patchAt j := by
    intro l hl z hz
    constructor
    · rw [List.filter_append, silent_filter j l hl]
      simp [List.filter_cons, hz]
    · rw [tracePatch_append, silent_tracePatch j l hl, Patch.none_merge, tracePatch_cons,
        tracePatch_nil, Patch.merge_none]
  induction sched generalizing a0 s0 with
  | nil =>
    left
    simp only [interleave, List.nil_append]
    obtain ⟨f1, t1⟩ := hfa a0 ha0 x hx
    obtain ⟨f2, t2⟩ := hfa s0 hs0 y hy
    constructor
    · rw [List.filter_append, f1, f2]; rfl
    · rw [tracePatch_append, t1, t2]
  | cons t sched ih =>
    cases t with
    | main =>
      simp only [interleave]
      exact ih a0 s0 ha0 hs0
    | answerBook =>
      cases a0 with
      | nil =>
        left
        simp only [List.nil_append, interleave, List.any_nil, Bool.false_eq_true, if_false,
          interleave_nil_left_s]
        obtain ⟨f2, t2⟩ := hfa s0 hs0 y hy
        constructor
        · rw [List.filter_cons, hx]; simp [f2]
        · rw [tracePatch_cons, t2]
      | cons z zs =>
        have hz := ha0 z (List.mem_cons_self _ _)
        have hzs : ∀ e ∈ zs, e.isSilent j = true := fun e he => ha0 e (List.mem_cons_of_mem _ he)
        simp only [List.cons_append, interleave, List.any_nil, Bool.false_eq_true, if_false]
        simp [Event.isSilent] at hz
        rw [List.filter_cons, tracePatch_cons, hz.2, Patch.none_merge]
        simp only [hz.1, Bool.false_eq_true, if_false]
        exact ih zs s0 hzs hs0
    | studentScript =>
      cases s0 with
      | nil =>
        right
        simp only [List.nil_append, interleave, List.any_nil, Bool.false_eq_true, if_false,
          interleave_nil_left_a]
        obtain ⟨f1, t1⟩ := hfa a0 ha0 x hx
        constructor
        · rw [List.filter_cons, hy]; simp [f1]
        · rw [tracePatch_cons, t1]
      | cons z zs =>
        have hz := hs0 z (List.mem_cons_self _ _)
        have hzs : ∀ e ∈ zs, e.isSilent j = true := fun e he => hs0 e (List.mem_cons_of_mem _ he)
        simp only [List.cons_append, interleave, List.any_nil, Bool.false_eq_true, if_false]
        simp [Event.isSilent] at hz
        rw [List.filter_cons, tracePatch_cons, hz.2, Patch.none_merge]
        simp only [hz.1, Bool.false_eq_true, if_false]
        exact ih a0 zs ha0 hzs

/-- While the main flow still has its second POST to issue as its last step,
the student-script callback cannot move: every interleaving consists of a
part `X` made of main-flow steps and a prefix `a1` of the answer-book
callback, the second POST, and an interleaving of the rest of the answer-book
callback with the whole student-script callback. -/
theorem interleave_split_at_last (sched : List Tid) (m0 a s : List Event) (p : Event)
    (hp : p.isPostStudentScripts = true) :
    ∃ sched' a1 a2 X, a = a1 ++ a2 ∧
      interleave sched (m0 ++ [p]) a s = X ++ p :: interleave sched' [] a2 s ∧
      (∀ P : Event → Bool, (∀ e ∈ m0, P e = false) → X.filter P = a1.filter P) ∧
      (∀ e ∈ X, e ∈ m0 ∨ e ∈ a1) := by
  induction sched generalizing m0 a with
  | nil =>
    refine ⟨[], [], a, m0, rfl, by simp [interleave], ?_, ?_⟩
    · intro P hP
      simp only [List.filter_nil, List.filter_eq_nil_iff]
      intro e he
      simp [hP e he]
    · intro e he; exact Or.inl he
  | cons t sched ih =>
    cases t with
    | main =>
      cases m0 with
      | nil =>
        exact ⟨sched, [], a, [], rfl, by simp [interleave], fun _ _ => rfl, by simp⟩
      | cons x xs =>
        obtain ⟨sched', a1, a2, X, ha, hL, hF, hM⟩ := ih xs a
        refine ⟨sched', a1, a2, x :: X, ha, by simp [interleave, hL], ?_, ?_⟩
        · intro P hP
          rw [List.filter_cons]
          simp only [hP x (List.mem_cons_self _ _), Bool.false_eq_true, if_false]
          exact hF P (fun e he => hP e (List.mem_cons_of_mem _ he))
        · intro e he
          rcases List.mem_cons.mp he with h | h
          · exact Or.inl (h ▸ List.mem_cons_self _ _)
          · rcases hM e h with h | h
            · exact Or.inl (List.mem_cons_of_mem _ h)
            · exact Or.inr h
    | answerBook =>
      cases a with
      | nil =>
        obtain ⟨sched', a1, a2, X, ha, hL, hF, hM⟩ := ih m0 []
        exact ⟨sched', a1, a2, X, ha, by simp [interleave, hL], hF, hM⟩
      | cons y ys =>
        by_cases hg : (m0 ++ [p]).any Event.isPostAnswerBook = true
        · obtain ⟨sched', a1, a2, X, ha, hL, hF, hM⟩ := ih m0 (y :: ys)
          exact ⟨sched', a1, a2, X, ha, by simp only [interleave, hg, if_true]; exact hL, hF, hM⟩
        · obtain ⟨sched', a1, a2, X, ha, hL, hF, hM⟩ := ih m0 ys
          refine ⟨sched', y :: a1, a2, y :: X, by simp [ha], ?_, ?_, ?_⟩
          · simp [interleave, hg, hL]
          · intro P hP
            rw [List.filter_cons, List.filter_cons, hF P hP]
          · intro e he
            rcases List.mem_cons.mp he with h | h
            · exact Or.inr (h ▸ List.mem_cons_self _ _)
            · rcases hM e h with h | h
              · exact Or.inl h
              · exact Or.inr (List.mem_cons_of_mem _ h)
    | studentScript =>
      cases s with
      | nil =>
        obtain ⟨sched', a1, a2, X, ha, hL, hF, hM⟩ := ih m0 a
        exact ⟨sched', a1, a2, X, ha, by simp [interleave, hL], hF, hM⟩
      | cons y ys =>
        have hg : (m0 ++ [p]).any Event.isPostStudentScripts = true := by
          simp [List.any_append, hp]
        obtain ⟨sched', a1, a2, X, ha, hL, hF, hM⟩ := ih m0 a
        exact ⟨sched', a1, a2, X, ha, by simp only [interleave, hg, if_true]; exact hL, hF, hM⟩

theorem background_ok (env : Env) (s : Submission) (doc : ProfessorUpload) (stdout : String)
    (data : Json) (hdb : ∀ site, env.dbError site = none)
    (hp : env.parser = ParserOutcome.resolved stdout (some data)) :
    background env s doc =
      mainBeforeSecondPost env s doc stdout data ++ [Event.postStudentScripts doc.id] := by
  simp [background, answerBookStage, studentScriptStage, hdb, hp, mainBeforeSecondPost]

theorem answerBookCallback_ok (env : Env) (id : Nat) (hdb : ∀ site, env.dbError site = none) :
    answerBookCallback env id =
      [Event.apiSettled Engine.answerBook env.answerBook,
       Event.findById (answerBookFindSite env.answerBook) id] ++
      [answerBookTerminalWrite id env.answerBook] := by
  unfold answerBookCallback
  cases env.answerBook <;>
    simp [apiThen, apiCatch, hdb, answerBookFindSite, answerBookTerminalWrite]

theorem studentScriptCallback_ok (env : Env) (id : Nat) (hdb : ∀ site, env.dbError site = none) :
    studentScriptCallback env id =
      [Event.apiSettled Engine.studentScripts env.studentScripts,
       Event.findById (studentScriptFindSite env.studentScripts) id] ++
      [studentScriptTerminalWrite id env.studentScripts] := by
  unfold studentScriptCallback
  cases env.studentScripts <;>
    simp [apiThen, apiCatch, hdb, studentScriptFindSite, studentScriptTerminalWrite]

theorem answerBookTerminalWrite_facts (id : Nat) (o : ApiOutcome) :
    (answerBookTerminalWrite id o).isCallbackSave = true ∧
    ((answerBookTerminalWrite id o).patchAt id).status = some (answerBookTerminalStatus o) := by
  cases o <;> simp [answerBookTerminalWrite, Event.isCallbackSave, Event.patchAt,
    answerBookTerminalStatus, Patch.setStatus, Patch.setFailure, Patch.none]

theorem studentScriptTerminalWrite_facts (id : Nat) (o : ApiOutcome) :
    (studentScriptTerminalWrite id o).isCallbackSave = true ∧
    ((studentScriptTerminalWrite id o).patchAt id).status =
      some (studentScriptTerminalStatus o) := by
  cases o <;> simp [studentScriptTerminalWrite, Event.isCallbackSave, Event.patchAt,
    studentScriptTerminalStatus, Patch.setStatus, Patch.setFailure, Patch.none]

theorem Patch.merge_status_some (p q : Patch) (t : Status) (h : q.status = some t) :
    (p.merge q).status = some t := by
  simp [Patch.merge, h]

/-- Without store errors and with a parsed question paper, under every
schedule: both callbacks make their terminal write exactly once, in one of the
two orders, and the status last assigned in the background processing is the
one assigned by the later of the two. -/
theorem pipeline_fanout_order (env : Env) (sched : List Tid) (s : Submission)
    (doc : ProfessorUpload) (stdout : String) (data : Json)
    (hdb : ∀ site, env.dbError site = none)
    (hp : env.parser = ParserOutcome.resolved stdout (some data)) :
    ((pipeline env sched s doc).filter Event.isCallbackSave =
        [answerBookTerminalWrite doc.id env.answerBook,
         studentScriptTerminalWrite doc.id env.studentScripts] ∧
      (tracePatch doc.id (pipeline env sched s doc)).status =
        some (studentScriptTerminalStatus env.studentScripts)) ∨
    ((pipeline env sched s doc).filter Event.isCallbackSave =
        [studentScriptTerminalWrite doc.id env.studentScripts,
         answerBookTerminalWrite doc.id env.answerBook] ∧
      (tracePatch doc.id (pipeline env sched s doc)).status =
        some (answerBookTerminalStatus env.answerBook)) := by
  have hb := background_ok env s doc stdout data hdb hp
  have hca := answerBookCallback_ok env doc.id hdb
  have hcs := studentScriptCallback_ok env doc.id hdb
  obtain ⟨hxc, hxs⟩ := answerBookTerminalWrite_facts doc.id env.answerBook
  obtain ⟨hyc, hys⟩ := studentScriptTerminalWrite_facts doc.id env.studentScripts
  have hany1 : (background env s doc).any Event.isPostAnswerBook = true := by
    rw [hb]; simp [mainBeforeSecondPost, Event.isPostAnswerBook]
  have hany2 : (background env s doc).any Event.isPostStudentScripts = true := by
    rw [hb]; simp [Event.isPostStudentScripts]
  have hm0 : ∀ e ∈ mainBeforeSecondPost env s doc stdout data, e.isCallbackSave = false := by
    intro e he
    simp [mainBeforeSecondPost] at he
    rcases he with h | h | h | h | h | h | h | h | h <;> subst h <;> rfl
  have hxne : answerBookTerminalWrite doc.id env.answerBook ≠ Event.processExit := by
    cases env.answerBook <;> simp [answerBookTerminalWrite]
  have hyne : studentScriptTerminalWrite doc.id env.studentScripts ≠ Event.processExit := by
    cases env.studentScripts <;> simp [studentScriptTerminalWrite]
  have hexit : Event.processExit ∉
      interleave sched (background env s doc) (answerBookCallback env doc.id)
        (studentScriptCallback env doc.id) := by
    intro hmem
    rcases mem_interleave _ _ _ _ hmem with h | h | h
    · rw [hb] at h
      simp [mainBeforeSecondPost] at h
    · rw [hca] at h
      simp at h
      exact hxne h.symm
    · rw [hcs] at h
      simp at h
      exact hyne h.symm
  have hpl : pipeline env sched s doc =
      interleave sched (background env s doc) (answerBookCallback env doc.id)
        (studentScriptCallback env doc.id) := by
    unfold pipeline
    simp only [hany1, hany2, if_true]
    exact haltAtExit_eq_self _ hexit
  rw [hpl, hb]
  obtain ⟨sched', a1, a2, X, ha, hL, hF, _⟩ :=
    interleave_split_at_last sched (mainBeforeSecondPost env s doc stdout data)
      (answerBookCallback env doc.id) (studentScriptCallback env doc.id)
      (Event.postStudentScripts doc.id) rfl
  rw [hL]
  have hXf := hF Event.isCallbackSave hm0
  have hsil1 : ∀ e ∈ [Event.apiSettled Engine.studentScripts env.studentScripts,
      Event.findById (studentScriptFindSite env.studentScripts) doc.id],
      e.isSilent doc.id = true := by
    intro e he
    simp at he
    rcases he with h | h <;> subst h <;> rfl
  have hfilter : ∀ Y : List Event,
      (X ++ Event.postStudentScripts doc.id :: Y).filter Event.isCallbackSave =
        a1.filter Event.isCallbackSave ++ Y.filter Event.isCallbackSave := by
    intro Y
    rw [List.filter_append, hXf, List.filter_cons]
    simp [Event.isCallbackSave]
  have hstatus : ∀ (Y : List Event) (t : Status), (tracePatch doc.id Y).status = some t →
      (tracePatch doc.id (X ++ Event.postStudentScripts doc.id :: Y)).status = some t := by
    intro Y t hY
    rw [tracePatch_append, tracePatch_cons]
    exact Patch.merge_status_some _ _ _ (Patch.merge_status_some _ _ _ hY)
  rw [hca] at ha
  rw [hcs]
  have hcases : (a1 = [Event.apiSettled Engine.answerBook env.answerBook,
        Event.findById (answerBookFindSite env.answerBook) doc.id,
        answerBookTerminalWrite doc.id env.answerBook] ∧ a2 = []) ∨
      ∃ a0 : List Event, (∀ e ∈ a0, e.isSilent doc.id = true) ∧
        a1.filter Event.isCallbackSave = [] ∧
        a2 = a0 ++ [answerBookTerminalWrite doc.id env.answerBook] := by
    match a1, ha with
    | [], ha =>
      simp only [List.nil_append] at ha
      exact Or.inr ⟨_, by intro e he; simp at he; rcases he with h | h <;> subst h <;> rfl, rfl,
        ha.symm⟩
    | [b1], ha =>
      simp only [List.cons_append, List.nil_append, List.cons.injEq] at ha
      exact Or.inr ⟨[Event.findById (answerBookFindSite env.answerBook) doc.id],
        by intro e he; simp at he; subst he; rfl, by rw [← ha.1]; rfl, by rw [← ha.2]; rfl⟩
    | [b1, b2], ha =>
      simp only [List.cons_append, List.nil_append, List.cons.injEq] at ha
      exact Or.inr ⟨[], by simp, by rw [← ha.1, ← ha.2.1]; rfl, by rw [← ha.2.2]; rfl⟩
    | [b1, b2, b3], ha =>
      simp only [List.cons_append, List.nil_append, List.cons.injEq] at ha
      obtain ⟨h1, h2, h3, h4⟩ := ha
      exact Or.inl ⟨by rw [← h1, ← h2, ← h3], h4.symm⟩
    | b1 :: b2 :: b3 :: b4 :: bs, ha =>
      have := congrArg List.length ha
      simp at this
  rcases hcases with ⟨h1, h2⟩ | ⟨a0, ha0, ha1, ha2⟩
  · left
    rw [h2, interleave_nil_left_s, hfilter, h1]
    constructor
    · have hfa := (silent_append_loud doc.id
        [Event.apiSettled Engine.answerBook env.answerBook,
         Event.findById (answerBookFindSite env.answerBook) doc.id]
        (by intro e he; simp at he; rcases he with h | h <;> subst h <;> rfl) _ hxc).1
      have hfs := (silent_append_loud doc.id _ hsil1 _ hyc).1
      simp only [List.cons_append, List.nil_append] at hfa
      rw [hfa, hfs]
      rfl
    · apply hstatus
      rw [tracePatch_append, silent_tracePatch doc.id _ hsil1, Patch.none_merge, tracePatch_cons,
        tracePatch_nil, Patch.merge_none]
      exact hys
  · rw [ha2]
    rcases merge_two_loud doc.id sched' a0 _ _ _ ha0 hsil1 hxc hyc with ⟨hf, ht⟩ | ⟨hf, ht⟩
    · left
      refine ⟨by rw [hfilter, ha1, hf]; rfl, hstatus _ _ ?_⟩
      rw [ht]
      exact Patch.merge_status_some _ _ _ hys
    · right
      refine ⟨by rw [hfilter, ha1, hf]; rfl, hstatus _ _ ?_⟩
      rw [ht]
      exact Patch.merge_status_some _ _ _ hxs

/-- For a field of a patch for which a later assignment overrides an earlier
one: when every write of a trace to document `j` leaves the field alone or
sets it to `d`, and one write sets it, the accumulated value is `d`. -/
theorem tracePatch_field_of_mem {α : Type} (f : Patch → Option α)
    (hf : ∀ p q, f (p.merge q) = (f q).orElse (fun _ => f p)) (hn : f Patch.none = none)
    (d : α) (j : Nat) (l : List Event)
    (h : ∀ e ∈ l, f (e.patchAt j) = none ∨ f (e.patchAt j) = some d)
    (x : Event) (hx : x ∈ l) (hxd : f (x.patchAt j) = some d) :
    f (tracePatch j l) = some d := by
  have hall : ∀ l : List Event, (∀ e ∈ l, f (e.patchAt j) = none ∨ f (e.patchAt j) = some d) →
      f (tracePatch j l) = none ∨ f (tracePatch j l) = some d := by
    intro l hl
    induction l with
    | nil => exact Or.inl hn
    | cons y ys ih =>
      rw [tracePatch_cons, hf]
      rcases ih (fun e he => hl e (List.mem_cons_of_mem _ he)) with h1 | h1
      · rw [h1]
        rcases hl y (List.mem_cons_self _ _) with h2 | h2 <;> simp [h2]
      · rw [h1]; simp
  induction l with
  | nil => simp at hx
  | cons y ys ih =>
    rw [tracePatch_cons, hf]
    rcases List.mem_cons.mp hx with hxy | hxy
    · subst hxy
      rcases hall ys (fun e he => h e (List.mem_cons_of_mem _ he)) with h1 | h1
      · simp [h1, hxd]
      · simp [h1]
    · rw [ih (fun e he => h e (List.mem_cons_of_mem _ he)) hxy]
      simp

theorem Patch.merge_errorDetails (p q : Patch) :
    (p.merge q).errorDetails = q.errorDetails.orElse (fun _ => p.errorDetails) := rfl

theorem intake_no_callback_save {env : Env} {req : ProfessorRequest} {db : Store}
    {s : Submission} {doc : ProfessorUpload} (hdoc : (intake env req db).doc = some (s, doc)) :
    (intake env req db).events.filter Event.isCallbackSave = [] := by
  rcases (intake_accepted hdoc).2 with ⟨r, _, _, hev⟩ | ⟨_, _, _, hev⟩ <;> rw [hev] <;> rfl

/-- Without store errors and with a parsed question paper, every step of the
background processing leaves `errorDetails` alone, except the terminal write
of a callback whose POST failed, which writes that engine's diagnostic. -/
theorem pipeline_details (env : Env) (sched : List Tid) (s : Submission)
    (doc : ProfessorUpload) (stdout : String) (data : Json) (d : String)
    (hdb : ∀ site, env.dbError site = none)
    (hp : env.parser = ParserOutcome.resolved stdout (some data))
    (ha : (answerBookTerminalWrite doc.id env.answerBook).writesDetailsOnly doc.id d = true)
    (hs : (studentScriptTerminalWrite doc.id env.studentScripts).writesDetailsOnly doc.id d =
      true) :
    ∀ e ∈ pipeline env sched s doc, e.writesDetailsOnly doc.id d = true := by
  apply pipeline_forall
  · intro e he
    rw [background_ok env s doc stdout data hdb hp] at he
    simp [mainBeforeSecondPost] at he
    rcases he with h | h | h | h | h | h | h | h | h | h <;> subst h <;>
      simp [Event.writesDetailsOnly, Event.patchAt, Patch.setStatus, Patch.none,
        questionsExtractedPatch]
  · intro e he
    rw [answerBookCallback_ok env doc.id hdb] at he
    simp at he
    rcases he with h | h | h <;> subst h
    · rfl
    · rfl
    · exact ha
  · intro e he
    rw [studentScriptCallback_ok env doc.id hdb] at he
    simp at he
    rcases he with h | h | h <;> subst h
    · rfl
    · rfl
    · exact hs

theorem pipeline_details_of_failure (env : Env) (sched : List Tid) (s : Submission)
    (doc : ProfessorUpload) (stdout : String) (data : Json) (d : String) (x : Event)
    (hdb : ∀ site, env.dbError site = none)
    (hp : env.parser = ParserOutcome.resolved stdout (some data))
    (ha : (answerBookTerminalWrite doc.id env.answerBook).writesDetailsOnly doc.id d = true)
    (hs : (studentScriptTerminalWrite doc.id env.studentScripts).writesDetailsOnly doc.id d =
      true)
    (hx : x ∈ pipeline env sched s doc) (hxd : (x.patchAt doc.id).errorDetails = some d) :
    (tracePatch doc.id (pipeline env sched s doc)).errorDetails = some d := by
  refine tracePatch_field_of_mem (fun p => p.errorDetails) Patch.merge_errorDetails rfl d doc.id
    _ ?_ x hx hxd
  intro e he
  have := pipeline_details env sched s doc stdout data d hdb hp ha hs e he
  simpa [Event.writesDetailsOnly] using this

/-- The terminal writes of the fan-out in general. A run whose submission was
accepted, without store errors and with a parsed question paper, under every
schedule and for every outcome of the two POSTs: each callback makes its
terminal save exactly once, in one of the two orders; both saves assign the
one property `status` of the document the callback has fetched; and the stored
record shows, when the run has ended, the status and the errorDetails it
showed before the background processing started. -/
theorem fanout_terminal_writes (env : Env) (sched : List Tid) (req : ProfessorRequest)
    (db : Store) (s : Submission) (doc : ProfessorUpload) (stdout : String) (data : Json)
    (hdoc : (intake env req db).doc = some (s, doc))
    (hdb : ∀ site, env.dbError site = none)
    (hp : env.parser = ParserOutcome.resolved stdout (some data)) :
    ((professorUpload env sched req db).filter Event.isCallbackSave =
        [answerBookTerminalWrite doc.id env.answerBook,
         studentScriptTerminalWrite doc.id env.studentScripts] ∨
      (professorUpload env sched req db).filter Event.isCallbackSave =
        [studentScriptTerminalWrite doc.id env.studentScripts,
         answerBookTerminalWrite doc.id env.answerBook]) ∧
    ((answerBookTerminalWrite doc.id env.answerBook).patchAt doc.id).status =
      some (answerBookTerminalStatus env.answerBook) ∧
    ((studentScriptTerminalWrite doc.id env.studentScripts).patchAt doc.id).status =
      some (studentScriptTerminalStatus env.studentScripts) ∧
    ∃ r1, (applyTrace (intake env req db).events db).findById doc.id = some r1 ∧
      ((applyTrace (professorUpload env sched req db) db).findById doc.id).map
          ProfessorUpload.pipelineState = some r1.pipelineState := by
  obtain ⟨r1, hr1, hfin⟩ := final_record sched hdoc
  have htr : professorUpload env sched req db =
      (intake env req db).events ++ pipeline env sched s doc := by
    simp [professorUpload, hdoc]
  have hfilter : (professorUpload env sched req db).filter Event.isCallbackSave =
      (pipeline env sched s doc).filter Event.isCallbackSave := by
    rw [htr, List.filter_append, intake_no_callback_save hdoc, List.nil_append]
  have hord := pipeline_fanout_order env sched s doc stdout data hdb hp
  refine ⟨?_, ?_, ?_, r1, hr1, ?_⟩
  · rw [hfilter]
    rcases hord with ⟨h, _⟩ | ⟨h, _⟩
    · exact Or.inl h
    · exact Or.inr h
  · cases env.answerBook <;>
      simp [answerBookTerminalWrite, answerBookTerminalStatus, Event.patchAt, Patch.setStatus,
        Patch.setFailure, Patch.none]
  · cases env.studentScripts <;>
      simp [studentScriptTerminalWrite, studentScriptTerminalStatus, Event.patchAt,
        Patch.setStatus, Patch.setFailure, Patch.none]
  · rw [hfin]
    simp [ProfessorUpload.pipelineState, (Patch.strict_apply_status _ r1).1,
      (Patch.strict_apply_status _ r1).2]

/-- C7, the code at the failing input. A first submission whose question paper
is parsed, whose answer-book POST is refused and whose student-script POST
succeeds, with no store error, in both completion orders. Each callback
fetches the record, assigns its terminal status (and the failed one its
diagnostic) and saves. But `status` and `errorDetails` are no paths of the
schema, so neither save stores anything: the record ends without a status and
without an errorDetails in both orders, and neither the failure of the one
branch nor the completion of the other can be read from it. -/
theorem fanout_outcomes_not_recorded :
    (professorUpload sampleEnv [] sampleRequest []).filter Event.isCallbackSave =
      [Event.save DbSite.answerBookCatchSave 1
         (Patch.setFailure Status.answer_book_processing_failed
           "Flask API (Answer_from_book.py) error: connect ECONNREFUSED. "),
       Event.save DbSite.studentScriptThenSave 1
         (Patch.setStatus Status.student_script_api_processing_completed)] ∧
    (applyTrace (professorUpload sampleEnv [] sampleRequest []) []).map
        (fun x => (x.id, x.status, x.errorDetails)) = [(1, none, none)] ∧
    (professorUpload sampleEnv scriptsFirst sampleRequest []).filter Event.isCallbackSave =
      [Event.save DbSite.studentScriptThenSave 1
         (Patch.setStatus Status.student_script_api_processing_completed),
       Event.save DbSite.answerBookCatchSave 1
         (Patch.setFailure Status.answer_book_processing_failed
           "Flask API (Answer_from_book.py) error: connect ECONNREFUSED. ")] ∧
    (applyTrace (professorUpload sampleEnv scriptsFirst sampleRequest []) []).map
        (fun x => (x.id, x.status, x.errorDetails)) = [(1, none, none)] := by
  decide

/-- The state of the bucket variables and the storage steps taken by the
guard of lines 326-332 when it lets the request through. -/
theorem download_of_ready (env : DownloadEnv) (store : BlobStore) (b : Buckets) (id : String)
    (hready : bucketsReady env b = true) :
    ∃ b' init, (init = [] ∨ init = [DownloadEvent.initAttempt]) ∧
      download env store b id = lookupAndServe env store b' init id := by
  unfold download
  by_cases h : (b.individualResultsBucket && b.classAggregateBucket) = true
  · exact ⟨b, [], Or.inl rfl, by simp [h]⟩
  · have h2 : ((initializeGridFSBuckets env b).individualResultsBucket &&
        (initializeGridFSBuckets env b).classAggregateBucket) = true := by
      simp only [bucketsReady, Bool.or_eq_true] at hready
      rcases hready with hr | hr
      · exact absurd hr h
      · exact hr
    exact ⟨initializeGridFSBuckets env b, [DownloadEvent.initAttempt], Or.inr rfl,
      by simp [h, h2]⟩

/-- C8. A download of a well-formed id that passes the storage guard, with no
error raised by a lookup: the per-student bucket `results_marksheets` is
looked up first, and `class_aggregate_reports` is looked up if and only if the
first lookup returned nothing; a file found in the per-student bucket is
streamed from it, whether or not the aggregate bucket holds the id too; a file
found only in the aggregate bucket is streamed from that bucket; the status is
404 exactly when both buckets lack the id. -/
theorem download_lookup_order (env : DownloadEnv) (store : BlobStore) (b : Buckets)
    (id : String) (hready : bucketsReady env b = true) (hv : env.isValid id = true)
    (h1 : env.findError BucketName.results_marksheets = none)
    (h2 : env.findError BucketName.class_aggregate_reports = none) :
    ((download env store b id).events.filter DownloadEvent.isFind).head? =
      some (DownloadEvent.find BucketName.results_marksheets (env.objectId id)) ∧
    (DownloadEvent.find BucketName.class_aggregate_reports (env.objectId id) ∈
        (download env store b id).events ↔
      store.find BucketName.results_marksheets (env.objectId id) = none) ∧
    (∀ f, store.find BucketName.results_marksheets (env.objectId id) = some f →
      DownloadEvent.openDownloadStream BucketName.results_marksheets (env.objectId id) ∈
        (download env store b id).events ∧
      DownloadEvent.openDownloadStream BucketName.class_aggregate_reports (env.objectId id) ∉
        (download env store b id).events ∧
      (env.stream = StreamOutcome.finished →
        (download env store b id).response =
          DownloadResponse.file BucketName.results_marksheets (env.objectId id)
            (contentTypeHeader f) ("inline; filename=\"" ++ cleanFilename id f ++ "\"") true)) ∧
    (∀ f, store.find BucketName.results_marksheets (env.objectId id) = none →
      store.find BucketName.class_aggregate_reports (env.objectId id) = some f →
      DownloadEvent.openDownloadStream BucketName.class_aggregate_reports (env.objectId id) ∈
        (download env store b id).events ∧
      DownloadEvent.openDownloadStream BucketName.results_marksheets (env.objectId id) ∉
        (download env store b id).events ∧
      (env.stream = StreamOutcome.finished →
        (download env store b id).response =
          DownloadResponse.file BucketName.class_aggregate_reports (env.objectId id)
            (contentTypeHeader f) ("inline; filename=\"" ++ cleanFilename id f ++ "\"") true)) ∧
    ((download env store b id).response.code = 404 ↔
      store.find BucketName.results_marksheets (env.objectId id) = none ∧
      store.find BucketName.class_aggregate_reports (env.objectId id) = none) := by
  obtain ⟨b', init, hinit, hd⟩ := download_of_ready env store b id hready
  rw [hd]
  cases hf1 : store.find BucketName.results_marksheets (env.objectId id) with
  | some f =>
    rcases hinit with hi | hi <;> subst hi <;> cases hs : env.stream <;>
      simp [lookupAndServe, serve, hv, h1, hf1, hs, DownloadEvent.isFind,
        DownloadResponse.code, List.filter_cons]
  | none =>
    cases hf2 : store.find BucketName.class_aggregate_reports (env.objectId id) with
    | some f =>
      rcases hinit with hi | hi <;> subst hi <;> cases hs : env.stream <;>
        simp [lookupAndServe, serve, hv, h1, h2, hf1, hf2, hs, DownloadEvent.isFind,
          DownloadResponse.code, List.filter_cons]
    | none =>
      rcases hinit with hi | hi <;> subst hi <;>
        simp [lookupAndServe, hv, h1, h2, hf1, hf2, DownloadEvent.isFind,
          DownloadResponse.code, List.filter_cons]

/-- The theorem above at an id held by both buckets. -/
theorem download_lookup_order_witness :
    (download sampleDownloadEnv sampleBlobs bothSet "65A000000000000000000001").response =
      DownloadResponse.file BucketName.results_marksheets
        (sampleDownloadEnv.objectId "65A000000000000000000001")
        (contentTypeHeader sampleMarksheet)
        ("inline; filename=\"" ++ cleanFilename "65A000000000000000000001" sampleMarksheet ++
          "\"") true :=
  ((download_lookup_order sampleDownloadEnv sampleBlobs bothSet "65A000000000000000000001"
    (by decide) (by decide) rfl rfl).2.2.1 sampleMarksheet (by decide)).2.2 rfl

/-- C9, as amended. A download whose id is not well-formed makes no lookup in
either bucket and opens no stream, whatever the blob stores hold; it is
answered 400 when the storage guard lets it through (both bucket variables
set, or set by the initialisation attempt), and 503 by the guard otherwise. -/
theorem malformed_id_rejected (env : DownloadEnv) (store : BlobStore) (b : Buckets)
    (id : String) (hv : env.isValid id = false) :
    (∀ e ∈ (download env store b id).events, e = DownloadEvent.initAttempt) ∧
    (bucketsReady env b = true →
      (download env store b id).response =
        DownloadResponse.status 400 "Invalid file ID format provided.") ∧
    (bucketsReady env b = false →
      (download env store b id).response =
        DownloadResponse.status 503
          "Server error: File storage system is not ready. Please try again later.") := by
  unfold download bucketsReady
  by_cases h : (b.individualResultsBucket && b.classAggregateBucket) = true
  · simp [h, lookupAndServe, hv]
  · by_cases h2 : ((initializeGridFSBuckets env b).individualResultsBucket &&
        (initializeGridFSBuckets env b).classAggregateBucket) = true
    · simp [h, h2, lookupAndServe, hv]
    · simp [h, h2]

/-- The theorem above at a malformed id with both buckets set. -/
theorem malformed_id_rejected_witness :
    (∀ e ∈ (download sampleDownloadEnv sampleBlobs bothSet "not-an-id").events,
      e = DownloadEvent.initAttempt) ∧
    (bucketsReady sampleDownloadEnv bothSet = true →
      (download sampleDownloadEnv sampleBlobs bothSet "not-an-id").response =
        DownloadResponse.status 400 "Invalid file ID format provided.") ∧
    (bucketsReady sampleDownloadEnv bothSet = false →
      (download sampleDownloadEnv sampleBlobs bothSet "not-an-id").response =
        DownloadResponse.status 503
          "Server error: File storage system is not ready. Please try again later.") :=
  malformed_id_rejected sampleDownloadEnv sampleBlobs bothSet "not-an-id" (by decide)

/-- C9, the claim as stated fails: with the connection not ready and both
bucket variables unset, a request with the malformed id `"not-an-id"` is
answered 503, not 400. -/
theorem malformed_id_storage_not_ready :
    notReadyEnv.isValid "not-an-id" = false ∧
    (download notReadyEnv sampleBlobs noneSet "not-an-id").response =
      DownloadResponse.status 503
        "Server error: File storage system is not ready. Please try again later." ∧
    (download notReadyEnv sampleBlobs noneSet "not-an-id").response.code ≠ 400 := by
  decide

theorem initializeGridFSBuckets_not_ready (env : DownloadEnv) (b : Buckets)
    (h : env.readyState ≠ 1) : initializeGridFSBuckets env b = b := by
  simp [initializeGridFSBuckets, h]

/-- C10. A download arriving while a bucket variable is unset: the handler
calls `initializeGridFSBuckets` exactly once and keeps the variables as that
call leaves them. If a variable is still unset afterwards, which is always so
when the connection is not ready, and also when a constructor throws, the
answer is 503 and the initialisation is the only storage step (no lookup, no
stream). If both are set afterwards, the response is the one the handler
gives when started with both variables set, and the storage steps are the
initialisation followed by the steps of that run. The handler returns a
response on every path. -/
theorem lazy_initialisation (env : DownloadEnv) (store : BlobStore) (b : Buckets) (id : String)
    (hb : (b.individualResultsBucket && b.classAggregateBucket) = false) :
    (download env store b id).events.count DownloadEvent.initAttempt = 1 ∧
    (download env store b id).buckets = initializeGridFSBuckets env b ∧
    (env.readyState ≠ 1 → bucketsReady env b = false) ∧
    (bucketsReady env b = false →
      (download env store b id).response =
        DownloadResponse.status 503
          "Server error: File storage system is not ready. Please try again later." ∧
      (download env store b id).events = [DownloadEvent.initAttempt]) ∧
    (bucketsReady env b = true →
      initializeGridFSBuckets env b = bothSet ∧
      (download env store b id).response = (download env store bothSet id).response ∧
      (download env store b id).events =
        DownloadEvent.initAttempt :: (download env store bothSet id).events ∧
      (download env store b id).buckets = (download env store bothSet id).buckets) := by
  have hlook : ∀ (bb : Buckets) (evs : List DownloadEvent),
      (lookupAndServe env store bb evs id).buckets = bb ∧
      (lookupAndServe env store bb evs id).response =
        (lookupAndServe env store bothSet [] id).response ∧
      (lookupAndServe env store bb evs id).events =
        evs ++ (lookupAndServe env store bothSet [] id).events := by
    intro bb evs
    cases hv : env.isValid id <;> cases h1 : env.findError BucketName.results_marksheets <;>
      cases h2 : env.findError BucketName.class_aggregate_reports <;>
      cases f1 : store.find BucketName.results_marksheets (env.objectId id) <;>
      cases f2 : store.find BucketName.class_aggregate_reports (env.objectId id) <;>
      simp [lookupAndServe, serve, hv, h1, h2, f1, f2]
  have hbs : download env store bothSet id = lookupAndServe env store bothSet [] id := by
    simp [download, bothSet]
  have hnot : ∀ e ∈ (lookupAndServe env store bothSet [] id).events,
      e ≠ DownloadEvent.initAttempt := by
    intro e he hinit
    subst hinit
    revert he
    cases hv : env.isValid id <;> cases h1 : env.findError BucketName.results_marksheets <;>
      cases h2 : env.findError BucketName.class_aggregate_reports <;>
      cases f1 : store.find BucketName.results_marksheets (env.objectId id) <;>
      cases f2 : store.find BucketName.class_aggregate_reports (env.objectId id) <;>
      simp [lookupAndServe, serve, hv, h1, h2, f1, f2]
  by_cases h2 : ((initializeGridFSBuckets env b).individualResultsBucket &&
      (initializeGridFSBuckets env b).classAggregateBucket) = true
  · have hboth : initializeGridFSBuckets env b = bothSet := by
      cases hi : initializeGridFSBuckets env b with
      | mk x y =>
        rw [hi] at h2
        simp at h2
        simp [bothSet, h2.1, h2.2]
    have hready : bucketsReady env b = true := by simp [bucketsReady, h2]
    have hd : download env store b id =
        lookupAndServe env store (initializeGridFSBuckets env b) [DownloadEvent.initAttempt]
          id := by
      simp [download, hb, h2]
    obtain ⟨l1, l2, l3⟩ := hlook (initializeGridFSBuckets env b) [DownloadEvent.initAttempt]
    obtain ⟨k1, _, _⟩ := hlook bothSet []
    refine ⟨?_, by rw [hd, l1], ?_, by simp [hready], ?_⟩
    · rw [hd, l3]
      simp only [List.singleton_append, List.count_cons_self]
      rw [List.count_eq_zero.mpr]
      intro hmem
      exact hnot _ hmem rfl
    · intro hne
      rw [initializeGridFSBuckets_not_ready env b hne] at h2
      rw [hb] at h2
      cases h2
    · intro _
      refine ⟨hboth, by rw [hd, hbs, l2], by rw [hd, hbs, l3]; rfl, ?_⟩
      rw [hd, hbs, l1, k1, hboth]
  · have hready : bucketsReady env b = false := by
      simp only [bucketsReady, hb, Bool.false_or]
      simpa using h2
    have hd : download env store b id =
        { buckets := initializeGridFSBuckets env b, events := [DownloadEvent.initAttempt],
          response := DownloadResponse.status 503
            "Server error: File storage system is not ready. Please try again later." } := by
      simp [download, hb, h2]
    refine ⟨by rw [hd]; rfl, by rw [hd], fun _ => hready, fun _ => by rw [hd]; exact ⟨rfl, rfl⟩,
      ?_⟩
    intro hr
    rw [hready] at hr
    cases hr

/-- The theorem above with both variables unset, once with the connection ready and once not. -/
theorem lazy_initialisation_witness :
    (download sampleDownloadEnv sampleBlobs noneSet "65a000000000000000000002").response =
      (download sampleDownloadEnv sampleBlobs bothSet "65a000000000000000000002").response ∧
    (download notReadyEnv sampleBlobs noneSet "65a000000000000000000002").events =
      [DownloadEvent.initAttempt] :=
  ⟨((lazy_initialisation sampleDownloadEnv sampleBlobs noneSet "65a000000000000000000002"
      rfl).2.2.2.2 (by decide)).2.1,
   ((lazy_initialisation notReadyEnv sampleBlobs noneSet "65a000000000000000000002"
      rfl).2.2.2.1 (by decide)).2⟩

theorem Event.apply_examKeys (e : Event) (h : e.isInsert = false) (db : Store) :
    (e.apply db).map ProfessorUpload.examKey = db.map ProfessorUpload.examKey := by
  cases e <;> simp [Event.isInsert] at h <;> simp [Event.apply, Store.update_examKeys]

theorem applyTrace_examKeys (trace : List Event) (h : ∀ e ∈ trace, e.isInsert = false)
    (db : Store) :
    (applyTrace trace db).map ProfessorUpload.examKey = db.map ProfessorUpload.examKey := by
  induction trace generalizing db with
  | nil => rfl
  | cons e es ih =>
    rw [applyTrace_cons, ih (fun x hx => h x (List.mem_cons_of_mem _ hx)),
      Event.apply_examKeys e (h e (List.mem_cons_self _ _))]

theorem ProfessorRequest.submission_key_fields {req : ProfessorRequest} {s : Submission}
    (h : req.submission = some s) :
    req.course = some s.course ∧ req.subject = some s.subject ∧
    req.subjectCode = some s.subjectCode := by
  unfold ProfessorRequest.submission at h
  split at h
  · rename_i h1 h2 h3 h4 h5 h6 h7 h8 h9
    split at h
    · simp at h
      rw [← h]
      simp [h3, h4, h5]
    · simp at h
  · simp at h

/-- One run of the handler keeps the stored exam keys pairwise distinct: the
lookup compares the stored values with the conditions after the `trim` setter,
which are exactly the values that a new document would store. -/
theorem professorUpload_keeps_keys_distinct (env : Env) (sched : List Tid)
    (req : ProfessorRequest) (db : Store)
    (hdb : (db.map ProfessorUpload.examKey).Nodup) :
    ((applyTrace (professorUpload env sched req db) db).map ProfessorUpload.examKey).Nodup := by
  cases hd : (intake env req db).doc with
  | none =>
    have htr : professorUpload env sched req db = (intake env req db).events := by
      simp [professorUpload, hd]
    have hins : ∀ e ∈ (intake env req db).events, e.isInsert = false := by
      intro e he
      cases hs : req.submission with
      | none =>
        cases hm : req.multipart <;> simp [intake, hs, hm] at he <;> subst he <;> rfl
      | some s =>
        cases h1 : env.dbError DbSite.findOne with
        | some m =>
          simp [intake, hs, h1, outerCatch] at he
          rcases he with he | he <;> subst he <;> rfl
        | none =>
          cases hf : db.findOne s.query with
          | some r =>
            cases h2 : env.dbError DbSite.saveMerge with
            | some m =>
              simp [intake, hs, h1, hf, h2, outerCatch] at he
              rcases he with he | he | he <;> subst he <;> rfl
            | none => simp [intake, hs, h1, hf, h2] at hd
          | none =>
            cases h2 : env.dbError DbSite.saveCreate with
            | some m =>
              simp [intake, hs, h1, hf, h2, outerCatch] at he
              rcases he with he | he | he <;> subst he <;> rfl
            | none =>
              cases hn : (newProfessorUpload env req.user s db.freshId).filter schemaValid with
              | none =>
                simp [intake, hs, h1, hf, h2, hn, outerCatch] at he
                rcases he with he | he | he <;> subst he <;> rfl
              | some d => simp [intake, hs, h1, hf, h2, hn] at hd
    rw [htr, applyTrace_examKeys _ hins]
    exact hdb
  | some sd =>
    obtain ⟨s, doc⟩ := sd
    have hpipe : ∀ e ∈ pipeline env sched s doc, e.isInsert = false :=
      fun e he => Event.stageWrite_not_insert (pipeline_stageWrite env sched s doc e he)
    have htr : applyTrace (professorUpload env sched req db) db =
        applyTrace (pipeline env sched s doc) (applyTrace (intake env req db).events db) := by
      simp [professorUpload, hd, applyTrace_append]
    rw [htr, applyTrace_examKeys _ hpipe]
    obtain ⟨hs, hcase⟩ := intake_accepted hd
    rcases hcase with ⟨r, _, _, hev⟩ | ⟨hf, hn, _, hev⟩
    · rw [hev]
      simp only [applyTrace, List.foldl_cons, List.foldl_nil, Event.apply, Store.update_examKeys]
      exact hdb
    · rw [hev]
      simp only [applyTrace, List.foldl_cons, List.foldl_nil, Event.apply, List.map_append,
        List.map_cons, List.map_nil]
      refine List.Nodup.append hdb (List.nodup_singleton _) ?_
      rw [List.disjoint_singleton]
      intro hmem
      obtain ⟨r, hr, hkey⟩ := List.mem_map.mp hmem
      have hnot : s.query.matches r = false := by
        have := List.find?_eq_none.mp hf r hr
        simpa using this
      have hfld := newProfessorUpload_fields hn
      have hk : ∀ {a b : ExamKey}, a = b → a.course = b.course ∧ a.subject = b.subject ∧
          a.subjectCode = b.subjectCode ∧ a.semester = b.semester ∧ a.year = b.year ∧
          a.examType = b.examType ∧ a.sectionType = b.sectionType := by
        intro a b hab
        subst hab
        simp
      obtain ⟨k1, k2, k3, k4, k5, k6, k7⟩ := hk hkey
      have e1 : r.course = jsTrim s.course := k1.trans hfld.2.2.2.2.2.2.1
      have e2 : r.subject = jsTrim s.subject := k2.trans hfld.2.2.2.2.2.2.2.1
      have e3 : r.subjectCode = jsTrim s.subjectCode := k3.trans hfld.2.2.2.2.2.2.2.2.1
      have e4 : some r.semester = parseInt s.semester := by
        rw [← hfld.2.2.2.2.2.2.2.2.2.1]
        exact congrArg some k4
      have e5 : some r.year = parseInt s.year := by
        rw [← hfld.2.2.2.2.2.2.2.2.2.2.1]
        exact congrArg some k5
      have e6 : r.examType = s.examType := k6.trans hfld.2.2.2.2.2.2.2.2.2.2.2.1
      have e7 : r.sectionType = s.sectionType := k7.trans hfld.2.2.2.2.2.2.2.2.2.2.2.2
      have hyes : s.query.matches r = true := by
        simp only [ExamQuery.matches, Submission.query, Bool.and_eq_true, beq_iff_eq]
        exact ⟨⟨⟨⟨⟨⟨e1, e2⟩, e3⟩, e4⟩, e5⟩, e6⟩, e7⟩
      rw [hnot] at hyes
      cases hyes

theorem submitAll_keys_distinct (runs : List (Env × List Tid × ProfessorRequest)) (db : Store)
    (hdb : (db.map ProfessorUpload.examKey).Nodup) :
    ((submitAll runs db).map ProfessorUpload.examKey).Nodup := by
  induction runs generalizing db with
  | nil => exact hdb
  | cons run rest ih =>
    obtain ⟨env, sched, req⟩ := run
    simp only [submitAll]
    exact ih _ (professorUpload_keeps_keys_distinct env sched req db hdb)

/-- C3. Starting from the empty store, after any sequence of professor
submissions handled one after the other, each with its own outcomes of the
store and the engines and its own schedule, no two stored records have the
same exam key as stored. This holds also when `course`, `subject` or
`subjectCode` is submitted with leading or trailing white space: the setter
`trim` runs on the conditions of the lookup as it runs on the new document, so
the second of two submissions with `course` equal to `" BTech"` finds the
record stored under `"BTech"` and is merged into it. -/
theorem stored_keys_distinct :
    (∀ runs : List (Env × List Tid × ProfessorRequest),
      ((submitAll runs []).map ProfessorUpload.examKey).Nodup) ∧
    (submitAll [(sampleEnv, [], paddedCourseRequest), (sampleEnv, [], paddedCourseRequest)]
        []).map ProfessorUpload.examKey = [sampleRecord.examKey] ∧
    responseCodes (professorUpload sampleEnv [] paddedCourseRequest []) = [201] ∧
    responseCodes (professorUpload sampleEnv [] paddedCourseRequest
      (submitAll [(sampleEnv, [], paddedCourseRequest)] [])) = [200] :=
  ⟨fun runs => submitAll_keys_distinct runs [] (by simp), by decide, by decide, by decide⟩


/-- A character of the safe set is no separator, quote, space or control
character. -/
theorem isSafeChar_excludes (c : Char) (h : isSafeChar c = true) :
    c ≠ '/' ∧ c.toNat ≠ 92 ∧ c.toNat ≠ 34 ∧ c ≠ ' ' ∧ 32 ≤ c.toNat ∧ c.toNat ≠ 127 := by
  refine ⟨?_, ?_, ?_, ?_, ?_, ?_⟩
  · rintro rfl; revert h; decide
  · simp [isSafeChar] at h; omega
  · simp [isSafeChar] at h; omega
  · rintro rfl; revert h; decide
  · simp [isSafeChar] at h; omega
  · simp [isSafeChar] at h; omega

/-- Every character the replacement produces is in the safe set. -/
theorem replaceUnsafe_safe (c d : Char) (h : d ∈ replaceUnsafe c) : isSafeChar d = true := by
  unfold replaceUnsafe at h
  split at h
  · simp at h; subst h; assumption
  · split at h
    · simp at h; subst h; decide
    · simp at h; subst h; decide

/-- Every character of the cleaned filename is in the safe set. -/
theorem cleanFilename_safe (fileIdString : String) (fileInfo : GridFile) (c : Char)
    (h : c ∈ (cleanFilename fileIdString fileInfo).data) : isSafeChar c = true := by
  unfold cleanFilename at h
  simp only [List.mem_flatten, List.mem_map] at h
  obtain ⟨l, ⟨c0, _, rfl⟩, hc⟩ := h
  exact replaceUnsafe_safe c0 c hc

/-- A file response of the streaming step carries the headers computed from
the blob it was given. -/
theorem serve_file (env : DownloadEnv) (b : Buckets) (events : List DownloadEvent)
    (bucket0 : BucketName) (fileIdString fileId0 : String) (fileInfo : GridFile)
    (bucket : BucketName) (fileId contentType disposition : String) (complete : Bool)
    (h : (serve env b events bucket0 fileIdString fileId0 fileInfo).response =
      DownloadResponse.file bucket fileId contentType disposition complete) :
    bucket = bucket0 ∧ fileId = fileId0 ∧ contentType = contentTypeHeader fileInfo ∧
      disposition = "inline; filename=\"" ++ cleanFilename fileIdString fileInfo ++ "\"" := by
  unfold serve at h
  cases hs : env.stream <;> simp [hs] at h
  · obtain ⟨h1, h2, h3, h4, _⟩ := h
    exact ⟨h1.symm, h2.symm, h3.symm, h4.symm⟩
  · obtain ⟨h1, h2, h3, h4, _⟩ := h
    exact ⟨h1.symm, h2.symm, h3.symm, h4.symm⟩

/-- A file response of the lookup comes from a blob found under the id in the
bucket named in the response. -/
theorem lookupAndServe_file (env : DownloadEnv) (store : BlobStore) (b : Buckets)
    (events : List DownloadEvent) (fileIdString : String)
    (bucket : BucketName) (fileId contentType disposition : String) (complete : Bool)
    (h : (lookupAndServe env store b events fileIdString).response =
      DownloadResponse.file bucket fileId contentType disposition complete) :
    ∃ fileInfo, store.find bucket fileId = some fileInfo ∧
      contentType = contentTypeHeader fileInfo ∧
      disposition = "inline; filename=\"" ++ cleanFilename fileIdString fileInfo ++ "\"" := by
  unfold lookupAndServe at h
  by_cases hv : env.isValid fileIdString = true
  · cases h1 : env.findError BucketName.results_marksheets with
    | some m => simp [hv, h1] at h
    | none =>
      cases f1 : store.find BucketName.results_marksheets (env.objectId fileIdString) with
      | some fileInfo =>
        simp only [hv, h1, f1, if_true] at h
        obtain ⟨rfl, rfl, h3, h4⟩ := serve_file _ _ _ _ _ _ _ _ _ _ _ _ h
        exact ⟨fileInfo, f1, h3, h4⟩
      | none =>
        cases h2 : env.findError BucketName.class_aggregate_reports with
        | some m => simp [hv, h1, f1, h2] at h
        | none =>
          cases f2 : store.find BucketName.class_aggregate_reports
              (env.objectId fileIdString) with
          | some fileInfo =>
            simp only [hv, h1, f1, h2, f2, if_true] at h
            obtain ⟨rfl, rfl, h3, h4⟩ := serve_file _ _ _ _ _ _ _ _ _ _ _ _ h
            exact ⟨fileInfo, f2, h3, h4⟩
          | none => simp [hv, h1, f1, h2, f2] at h
  · simp [hv] at h

/-- A file response of the download handler comes from a blob found under the
id in the bucket named in the response. -/
theorem download_file (env : DownloadEnv) (store : BlobStore) (b : Buckets)
    (fileIdString : String)
    (bucket : BucketName) (fileId contentType disposition : String) (complete : Bool)
    (h : (download env store b fileIdString).response =
      DownloadResponse.file bucket fileId contentType disposition complete) :
    ∃ fileInfo, store.find bucket fileId = some fileInfo ∧
      contentType = contentTypeHeader fileInfo ∧
      disposition = "inline; filename=\"" ++ cleanFilename fileIdString fileInfo ++ "\"" := by
  unfold download at h
  split at h
  · exact lookupAndServe_file _ _ _ _ _ _ _ _ _ _ h
  · dsimp only at h
    split at h
    · exact lookupAndServe_file _ _ _ _ _ _ _ _ _ _ h
    · simp at h

/-- C11, counterexample. An aggregate report is stored with the content type
`text/csv`. The download handler finds it and passes that type to `res.set`,
and the header that goes out is `text/csv; charset=utf-8`, which is not the
stored content type. A stored `application/pdf` goes out unchanged, and so
does a textual type that names its charset. -/
theorem csv_content_type_gets_charset :
    csvBlobs.find BucketName.class_aggregate_reports "65a000000000000000000003" =
      some csvReport ∧
    csvReport.contentType = some "text/csv" ∧
    (download sampleDownloadEnv csvBlobs bothSet "65a000000000000000000003").response =
      DownloadResponse.file BucketName.class_aggregate_reports "65a000000000000000000003"
        "text/csv; charset=utf-8" "inline; filename=\"class.csv\"" true ∧
    "text/csv; charset=utf-8" ≠ "text/csv" ∧
    contentTypeHeader sampleMarksheet = "application/pdf" ∧
    contentTypeHeader { csvReport with contentType := some "text/csv; charset=latin1" } =
      "text/csv; charset=latin1" ∧
    contentTypeHeader { csvReport with contentType := some "application/json" } =
      "application/json; charset=utf-8" := by
  decide

/-- C11, amended. For every blob the download handler finds, in either bucket,
the response carries the header `inline; filename="<name>"` where every
character of the name is a letter, a digit, `.`, `_` or `-` (so it is no
slash, no backslash (code 92), no double quote (code 34), no space and no
control character), the name being the base name of the stored filename with
each other character replaced by underscores; and the `Content-Type` header
is the stored content type, `application/octet-stream` when none is stored or
the stored one is the empty string, as Express writes it: unchanged when the
value names a charset or its type does not begin with `text/`,
`application/javascript` or `application/json`, and followed by
`; charset=utf-8` otherwise. -/
theorem download_headers_sanitised (env : DownloadEnv) (store : BlobStore) (b : Buckets)
    (fileIdString : String) (bucket : BucketName) (fileId contentType disposition : String)
    (complete : Bool)
    (h : (download env store b fileIdString).response =
      DownloadResponse.file bucket fileId contentType disposition complete) :
    ∃ fileInfo, store.find bucket fileId = some fileInfo ∧
      disposition = "inline; filename=\"" ++ cleanFilename fileIdString fileInfo ++ "\"" ∧
      (∀ c ∈ (cleanFilename fileIdString fileInfo).data,
        isSafeChar c = true ∧ c ≠ '/' ∧ c.toNat ≠ 92 ∧ c.toNat ≠ 34 ∧ c ≠ ' ' ∧ 32 ≤ c.toNat ∧
          c.toNat ≠ 127) ∧
      (∀ name, fileInfo.filename = some name → name ≠ "" →
        cleanFilename fileIdString fileInfo =
          String.mk ((basename name).data.map replaceUnsafe).flatten) ∧
      (∀ c, isSafeChar c = false → replaceUnsafe c = ['_'] ∨ replaceUnsafe c = ['_', '_']) ∧
      (∀ c, isSafeChar c = true → replaceUnsafe c = [c]) ∧
      contentType = contentTypeHeader fileInfo ∧
      (∀ t, fileInfo.contentType = some t → t ≠ "" → storedContentType fileInfo = t) ∧
      (fileInfo.contentType = none ∨ fileInfo.contentType = some "" →
        storedContentType fileInfo = "application/octet-stream" ∧
        contentType = "application/octet-stream") ∧
      (hasCharsetParam (storedContentType fileInfo) = true ∨
          textualType (storedContentType fileInfo) = false →
        contentType = storedContentType fileInfo) ∧
      (hasCharsetParam (storedContentType fileInfo) = false →
        textualType (storedContentType fileInfo) = true →
        contentType = storedContentType fileInfo ++ "; charset=utf-8") ∧
      (∀ v : String, textualType v = true ↔
        ("text/".data.isPrefixOf (v.data.takeWhile (fun c => c != ';')) = true ∨
          "application/javascript".data.isPrefixOf (v.data.takeWhile (fun c => c != ';')) =
            true ∨
          "application/json".data.isPrefixOf (v.data.takeWhile (fun c => c != ';')) = true)) := by
  obtain ⟨fileInfo, hf, hct, hcd⟩ := download_file env store b fileIdString _ _ _ _ _ h
  refine ⟨fileInfo, hf, hcd, ?_, ?_, ?_, ?_, hct, ?_, ?_, ?_, ?_, ?_⟩
  · intro c hc
    have hs := cleanFilename_safe fileIdString fileInfo c hc
    exact ⟨hs, isSafeChar_excludes c hs⟩
  · intro name hn hne
    simp [cleanFilename, hn, hne]
  · intro c hc
    by_cases hb : 65536 ≤ c.toNat <;> simp [replaceUnsafe, hc, hb]
  · intro c hc
    simp [replaceUnsafe, hc]
  · intro t ht hne
    simp [storedContentType, ht, hne]
  · intro hnone
    have hst : storedContentType fileInfo = "application/octet-stream" := by
      rcases hnone with h0 | h0 <;> simp [storedContentType, h0]
    refine ⟨hst, ?_⟩
    rw [hct, contentTypeHeader, hst]
    decide
  · intro hcases
    rw [hct, contentTypeHeader]
    rcases hcases with h0 | h0 <;> simp [h0]
  · intro h0 h1
    rw [hct, contentTypeHeader]
    simp [h0, h1]
  · intro v
    simp [textualType, or_assoc]

/-- Witness for the amended C11: the aggregate report stored as
`reports/class report.pdf` without a content type goes out as
`class_report.pdf` with the type `application/octet-stream`. -/
theorem download_headers_sanitised_witness :
    (download sampleDownloadEnv sampleBlobs bothSet "65a000000000000000000002").response =
      DownloadResponse.file BucketName.class_aggregate_reports "65a000000000000000000002"
        "application/octet-stream" "inline; filename=\"class_report.pdf\"" true ∧
    ∃ fileInfo, sampleBlobs.find BucketName.class_aggregate_reports
        "65a000000000000000000002" = some fileInfo ∧
      "inline; filename=\"class_report.pdf\"" =
        "inline; filename=\"" ++ cleanFilename "65a000000000000000000002" fileInfo ++ "\"" ∧
      "application/octet-stream" = contentTypeHeader fileInfo := by
  have hresp : (download sampleDownloadEnv sampleBlobs bothSet
      "65a000000000000000000002").response =
      DownloadResponse.file BucketName.class_aggregate_reports "65a000000000000000000002"
        "application/octet-stream" "inline; filename=\"class_report.pdf\"" true := by decide
  obtain ⟨fileInfo, h1, h2, _, _, _, _, h3, _⟩ :=
    download_headers_sanitised sampleDownloadEnv sampleBlobs bothSet "65a000000000000000000002"
      BucketName.class_aggregate_reports "65a000000000000000000002" "application/octet-stream"
      "inline; filename=\"class_report.pdf\"" true hresp
  exact ⟨hresp, fileInfo, h1, h2, h3⟩


/-- The response of the student-result handler to a request for which it
launched the engine is the one computed from the settlement. -/
theorem studentResult_of_launched (env : MarksheetEnv) (req : ResultRequest) (code : Nat)
    (body : JsonValue) (hset : marksheetSettled env = ResultsEvent.respond code body)
    (hl : launches (studentResult env req) ≠ []) :
    responses (studentResult env req) = [(code, body)] := by
  unfold studentResult at hl ⊢
  by_cases h1 : (!truthy req.rollNo) = true
  · simp [h1, launches] at hl
  · by_cases h2 : (!truthy req.subjectCode || !truthy req.examType || !truthy req.year ||
        !truthy req.semester || !truthy req.course || !truthy req.sectionType) = true
    · rw [if_neg h1, if_pos h2] at hl
      simp [launches] at hl
    · rw [if_neg h1, if_neg h2] at hl ⊢
      cases hy : parseInt (req.year.getD "") with
      | none => simp [hy, launches] at hl
      | some y =>
        cases hs : parseInt (req.semester.getD "") with
        | none => simp [hy, hs, launches] at hl
        | some sem => simp [responses, hset]

/-- The `catch` of the student-result handler answers 500. -/
theorem studentResultCatch_code (e : ResultError) :
    ∃ body, studentResultCatch e = ResultsEvent.respond 500 body :=
  ⟨_, rfl⟩

/-- The response for a parsed payload, by the form of its `status`. -/
theorem marksheetResponse_code (env : MarksheetEnv) (payload : JsonValue) :
    ∃ code body, marksheetResponse env payload = ResultsEvent.respond code body ∧
      (∀ s, payload.field "status" = some (JsonValue.string s) →
        startsWith s "success" = true → code = 200 ∧ body = payload) ∧
      (∀ s, payload.field "status" = some (JsonValue.string s) →
        startsWith s "success" = false →
        code = nonSuccessCode (some (JsonValue.string s))) ∧
      ((∀ s, payload.field "status" ≠ some (JsonValue.string s)) → code = 500) := by
  cases payload with
  | null => exact ⟨500, _, rfl, by simp [JsonValue.field], by simp [JsonValue.field], fun _ => rfl⟩
  | bool b => exact ⟨_, _, rfl, by simp [JsonValue.field], by simp [JsonValue.field], fun _ => rfl⟩
  | number m e =>
    exact ⟨_, _, rfl, by simp [JsonValue.field], by simp [JsonValue.field], fun _ => rfl⟩
  | string t =>
    exact ⟨_, _, rfl, by simp [JsonValue.field], by simp [JsonValue.field], fun _ => rfl⟩
  | array items =>
    exact ⟨_, _, rfl, by simp [JsonValue.field], by simp [JsonValue.field], fun _ => rfl⟩
  | object fields =>
    cases hst : fields.lookup "status" with
    | none =>
      have hb : ∃ body, marksheetResponse env (JsonValue.object fields) =
          ResultsEvent.respond 500 body := by
        simp only [marksheetResponse, JsonValue.field, hst, nonSuccessCode]
        exact ⟨_, rfl⟩
      obtain ⟨body, hb⟩ := hb
      exact ⟨500, body, hb, by simp [JsonValue.field, hst], by simp [JsonValue.field, hst],
        fun _ => rfl⟩
    | some st =>
      by_cases hstr : ∃ s, st = JsonValue.string s
      · obtain ⟨s, rfl⟩ := hstr
        by_cases hp : startsWith s "success" = true
        · have hne : s ≠ "" := by
            rintro rfl
            revert hp
            decide
          refine ⟨200, JsonValue.object fields, ?_, ?_, ?_, ?_⟩
          · simp only [marksheetResponse, JsonValue.field, hst, JsonValue.truthy]
            simp [hne, hp]
          · intro s2 h2 _
            exact ⟨rfl, rfl⟩
          · intro s2 h2 hf
            simp [JsonValue.field, hst] at h2
            subst h2
            simp [hp] at hf
          · intro h
            exact absurd (by simp [JsonValue.field, hst]) (h s)
        · have hb : ∃ body, marksheetResponse env (JsonValue.object fields) =
              ResultsEvent.respond (nonSuccessCode (some (JsonValue.string s))) body := by
            simp only [marksheetResponse, JsonValue.field, hst, JsonValue.truthy]
            by_cases hne : s = "" <;> simp [hne, hp]
          obtain ⟨body, hb⟩ := hb
          refine ⟨_, body, hb, ?_, ?_, ?_⟩
          · intro s2 h2 hs2
            simp [JsonValue.field, hst] at h2
            subst h2
            exact absurd hs2 hp
          · intro s2 h2 _
            simp [JsonValue.field, hst] at h2
            subst h2
            rfl
          · intro h
            exact absurd (by simp [JsonValue.field, hst]) (h s)
      · have hb : ∃ body, marksheetResponse env (JsonValue.object fields) =
            ResultsEvent.respond 500 body := by
          simp only [marksheetResponse, JsonValue.field, hst, nonSuccessCode]
          cases st with
          | string s => exact absurd ⟨s, rfl⟩ hstr
          | null => exact ⟨_, rfl⟩
          | bool b => cases b <;> exact ⟨_, rfl⟩
          | number m e =>
            by_cases hm : m = 0 <;> simp [JsonValue.truthy, hm, studentResultCatch]
          | array items => exact ⟨_, rfl⟩
          | object fs => exact ⟨_, rfl⟩
        obtain ⟨body, hb⟩ := hb
        refine ⟨500, body, hb, ?_, ?_, fun _ => rfl⟩
        · intro s hs
          simp [JsonValue.field, hst] at hs
          exact absurd ⟨s, hs⟩ hstr
        · intro s hs
          simp [JsonValue.field, hst] at hs
          exact absurd ⟨s, hs⟩ hstr


/-- The settlement step when the process exits cleanly with output that
parses. -/
theorem marksheetSettled_parsed (env : MarksheetEnv) (stdout stderr : String)
    (payload : JsonValue) (hrun : env.script = ExecOutcome.ok stdout stderr)
    (hout : jsTrim stdout ≠ "") (hparse : env.jsonParse (jsTrim stdout) = some payload) :
    marksheetSettled env = marksheetResponse env payload := by
  have hne : stdout ≠ "" := by
    rintro rfl
    exact hout (by decide)
  simp [marksheetSettled, hrun, hne, hout, hparse]

/-- C12. When the marksheet process exits cleanly and its output parses to a
payload, the student-result handler answers every request for which it
launched the engine with one response whose HTTP code is 200 if the payload's
status is a string starting with `success`; 404 if it is
error_professor_data_missing or error_student_data_missing; 422 if it is
error_student_extraction_incomplete, error_scoring_failed,
error_pdf_generation_failed or error_cli_value; and 500 in every other case
(no status, a status that is no string, any other string). -/
theorem student_result_code_mapping (env : MarksheetEnv) (stdout stderr : String)
    (payload : JsonValue) (hrun : env.script = ExecOutcome.ok stdout stderr)
    (hout : jsTrim stdout ≠ "") (hparse : env.jsonParse (jsTrim stdout) = some payload) :
    ∃ code body, marksheetSettled env = ResultsEvent.respond code body ∧
      (∀ req, launches (studentResult env req) ≠ [] →
        responses (studentResult env req) = [(code, body)]) ∧
      (∀ s, payload.field "status" = some (JsonValue.string s) →
        startsWith s "success" = true → code = 200) ∧
      (payload.field "status" = some (JsonValue.string "error_professor_data_missing") →
        code = 404) ∧
      (payload.field "status" = some (JsonValue.string "error_student_data_missing") →
        code = 404) ∧
      (payload.field "status" = some (JsonValue.string "error_student_extraction_incomplete") →
        code = 422) ∧
      (payload.field "status" = some (JsonValue.string "error_scoring_failed") → code = 422) ∧
      (payload.field "status" = some (JsonValue.string "error_pdf_generation_failed") →
        code = 422) ∧
      (payload.field "status" = some (JsonValue.string "error_cli_value") → code = 422) ∧
      ((∀ s, payload.field "status" = some (JsonValue.string s) →
          startsWith s "success" = false ∧ s ≠ "error_professor_data_missing" ∧
          s ≠ "error_student_data_missing" ∧ s ≠ "error_student_extraction_incomplete" ∧
          s ≠ "error_scoring_failed" ∧ s ≠ "error_pdf_generation_failed" ∧
          s ≠ "error_cli_value") → code = 500) := by
  obtain ⟨code, body, hresp, hsucc, hfail, hother⟩ := marksheetResponse_code env payload
  have hset := marksheetSettled_parsed env stdout stderr payload hrun hout hparse
  rw [← hset] at hresp
  refine ⟨code, body, hresp, fun req hl => studentResult_of_launched env req code body hresp hl,
    fun s hs hp => (hsucc s hs hp).1, ?_, ?_, ?_, ?_, ?_, ?_, ?_⟩
  · intro h; rw [hfail _ h (by decide)]; rfl
  · intro h; rw [hfail _ h (by decide)]; rfl
  · intro h; rw [hfail _ h (by decide)]; rfl
  · intro h; rw [hfail _ h (by decide)]; rfl
  · intro h; rw [hfail _ h (by decide)]; rfl
  · intro h; rw [hfail _ h (by decide)]; rfl
  · intro h
    by_cases hstr : ∃ s, payload.field "status" = some (JsonValue.string s)
    · obtain ⟨s, hs⟩ := hstr
      obtain ⟨h0, h1, h2, h3, h4, h5, h6⟩ := h s hs
      rw [hfail s hs h0]
      simp [nonSuccessCode, h1, h2, h3, h4, h5, h6]
    · exact hother (fun s hs => hstr ⟨s, hs⟩)


/-- Witness for C12: a payload with status error_scoring_failed is answered
with 422. -/
theorem student_result_code_mapping_witness :
    jsTrim (scoringFailedText ++ "\n") ≠ "" ∧
    ∃ body, responses (studentResult scoringFailedEnv sampleResultRequest) = [(422, body)] := by
  obtain ⟨code, body, _, hreq, _, _, _, _, h422, _⟩ :=
    student_result_code_mapping scoringFailedEnv (scoringFailedText ++ "\n") ""
      scoringFailedPayload rfl (by decide)
      (by
        show (if (jsTrim (scoringFailedText ++ "\n") == scoringFailedText) = true
          then some scoringFailedPayload else none) = some scoringFailedPayload
        exact if_pos (by decide))
  have hc : code = 422 := h422 rfl
  subst hc
  exact ⟨by decide, body, hreq sampleResultRequest (by decide)⟩


/-- The response for a parsed payload that is not `null` and whose status is
absent, falsy, or a string that does not start with `success`: a new object
with a message and the details. -/
theorem marksheetResponse_nonSuccess (env : MarksheetEnv) (payload : JsonValue)
    (hnull : payload ≠ JsonValue.null)
    (hst : ∀ v, payload.field "status" = some v →
      v.truthy = false ∨ ∃ s, v = JsonValue.string s ∧ startsWith s "success" = false) :
    marksheetResponse env payload =
      ResultsEvent.respond (nonSuccessCode (payload.field "status"))
        (JsonValue.object
          [("message", JsonValue.orElse (payload.field "message")
              (JsonValue.string "Marksheet_Generator.py script reported an error.")),
           ("details", JsonValue.orElse (payload.field "details") payload)]) := by
  cases hf : payload.field "status" with
  | none =>
    cases payload <;> first
      | exact absurd rfl hnull
      | simp [marksheetResponse, hf, jsonObject]
  | some v =>
    rcases hst v hf with hv | ⟨s, rfl, hs⟩
    · cases payload <;> first
        | exact absurd rfl hnull
        | simp [marksheetResponse, hf, hv, jsonObject]
    · cases payload <;> first
        | exact absurd rfl hnull
        | (by_cases hv : (JsonValue.string s).truthy = true <;>
            simp [marksheetResponse, hf, hv, hs, jsonObject])

/-- The response for a parsed payload that is `null` or whose status is truthy
and no string: the 500 of the `catch`, for the `TypeError` raised by the test
of line 167. -/
theorem marksheetResponse_typeError (env : MarksheetEnv) (payload : JsonValue)
    (h : payload = JsonValue.null ∨ ∃ v, payload.field "status" = some v ∧ v.truthy = true ∧
      ∀ s, v ≠ JsonValue.string s) :
    marksheetResponse env payload = studentResultCatch (typeErrorThrown env) := by
  rcases h with rfl | ⟨v, hf, hv, hs⟩
  · rfl
  · cases payload with
    | null => rfl
    | object fields =>
      cases v with
      | string s => exact absurd rfl (hs s)
      | _ => simp_all [marksheetResponse, JsonValue.truthy]
    | _ => simp [JsonValue.field] at hf

/-- C13, counterexample. The engine reports a scoring failure with its own
message and details; the body the handler sends is a two-field object holding
only that message and those details, which is not the engine's payload. -/
theorem student_result_body_rewritten :
    marksheetSettled scoringFailedEnv =
      ResultsEvent.respond 422
        (JsonValue.object
          [("message", JsonValue.string "Scoring failed"),
           ("details", JsonValue.string "no rubric")]) ∧
    responses (studentResult scoringFailedEnv sampleResultRequest) =
      [(422, JsonValue.object
          [("message", JsonValue.string "Scoring failed"),
           ("details", JsonValue.string "no rubric")])] ∧
    JsonValue.object
        [("message", JsonValue.string "Scoring failed"),
         ("details", JsonValue.string "no rubric")] ≠ scoringFailedPayload := by
  refine ⟨rfl, rfl, ?_⟩
  simp [scoringFailedPayload]

/-- C13, amended. When the marksheet process exits cleanly and its output
parses to a payload, the handler answers a request for which it launched the
engine as follows. If the status is a string starting with `success`, the body
is the payload unaltered, with code 200. If the payload is not `null` and its
status is absent, falsy or a string not starting with `success`, the body is a
new object with two fields: `message`, the payload's message when truthy and
a fixed text otherwise, and `details`, the payload's details when truthy and
the whole payload otherwise. If the payload is `null` or its status is truthy
and no string, the response is the 500 of the handler's error path. -/
theorem student_result_body (env : MarksheetEnv) (stdout stderr : String)
    (payload : JsonValue) (hrun : env.script = ExecOutcome.ok stdout stderr)
    (hout : jsTrim stdout ≠ "") (hparse : env.jsonParse (jsTrim stdout) = some payload)
    (req : ResultRequest) (hl : launches (studentResult env req) ≠ []) :
    (∀ s, payload.field "status" = some (JsonValue.string s) → startsWith s "success" = true →
      responses (studentResult env req) = [(200, payload)]) ∧
    (payload ≠ JsonValue.null →
      (∀ v, payload.field "status" = some v →
        v.truthy = false ∨ ∃ s, v = JsonValue.string s ∧ startsWith s "success" = false) →
      responses (studentResult env req) =
        [(nonSuccessCode (payload.field "status"),
          JsonValue.object
            [("message", JsonValue.orElse (payload.field "message")
                (JsonValue.string "Marksheet_Generator.py script reported an error.")),
             ("details", JsonValue.orElse (payload.field "details") payload)])]) ∧
    ((payload = JsonValue.null ∨ ∃ v, payload.field "status" = some v ∧ v.truthy = true ∧
        ∀ s, v ≠ JsonValue.string s) →
      responses (studentResult env req) = responses [studentResultCatch (typeErrorThrown env)] ∧
      ∃ body, studentResultCatch (typeErrorThrown env) = ResultsEvent.respond 500 body) := by
  have hset := marksheetSettled_parsed env stdout stderr payload hrun hout hparse
  refine ⟨?_, ?_, ?_⟩
  · intro s hs hp
    obtain ⟨code, body, hresp, hsucc, _, _⟩ := marksheetResponse_code env payload
    obtain ⟨rfl, rfl⟩ := hsucc s hs hp
    exact studentResult_of_launched env req _ _ (hset.trans hresp) hl
  · intro hnull hst
    exact studentResult_of_launched env req _ _
      (hset.trans (marksheetResponse_nonSuccess env payload hnull hst)) hl
  · intro h
    have h2 := hset.trans (marksheetResponse_typeError env payload h)
    exact ⟨studentResult_of_launched env req _ _ h2 hl, _, rfl⟩

/-- Witness for the amended C13: the scoring failure of the sample world is
answered with the two-field object. -/
theorem student_result_body_witness :
    responses (studentResult scoringFailedEnv sampleResultRequest) =
      [(nonSuccessCode (scoringFailedPayload.field "status"),
        JsonValue.object
          [("message", JsonValue.orElse (scoringFailedPayload.field "message")
              (JsonValue.string "Marksheet_Generator.py script reported an error.")),
           ("details",
              JsonValue.orElse (scoringFailedPayload.field "details") scoringFailedPayload)])] :=
  (student_result_body scoringFailedEnv (scoringFailedText ++ "\n") ""
    scoringFailedPayload rfl (by decide)
    (by
      show (if (jsTrim (scoringFailedText ++ "\n") == scoringFailedText) = true
        then some scoringFailedPayload else none) = some scoringFailedPayload
      exact if_pos (by decide))
    sampleResultRequest (by decide)).2.1 (by simp [scoringFailedPayload])
    (by
      intro v hv
      refine Or.inr ⟨"error_scoring_failed", ?_, by decide⟩
      have h : scoringFailedPayload.field "status" =
          some (JsonValue.string "error_scoring_failed") := rfl
      rw [h] at hv
      exact (Option.some.inj hv).symm)


/-- The callback of `exec` sends no response. -/
theorem combinedCallback_no_response (env : CombinedEnv) (id : Nat) :
    responses (combinedCallback env id) = [] := by
  unfold combinedCallback
  cases env.script with
  | none => rfl
  | some o =>
    cases o with
    | ok stdout stderr => rfl
    | error message code stdout stderr =>
      cases env.updateError <;> rfl

/-- The callback of `exec` launches nothing. -/
theorem combinedCallback_no_launch (env : CombinedEnv) (id : Nat) :
    launches (combinedCallback env id) = [] := by
  unfold combinedCallback
  cases env.script with
  | none => rfl
  | some o =>
    cases o with
    | ok stdout stderr => rfl
    | error message code stdout stderr =>
      cases env.updateError <;> rfl

/-- The steps of the combined-class-result handler for a request that passed
validation, when the lookup raises no error. -/
theorem combinedClassResult_valid (env : CombinedEnv) (req : CombinedRequest) (db : Store)
    (q : CriteriaQuery)
    (hreq : truthy req.subjectCode = true ∧ truthy req.examType = true ∧
      truthy req.year = true ∧ truthy req.semester = true ∧ truthy req.course = true ∧
      truthy req.sectionType = true)
    (hq : req.criteria = some q) (hfind : env.findError = none) :
    combinedClassResult env req db =
      match db.findOneByCriteria q with
      | none =>
        [ResultsEvent.findOne q,
         ResultsEvent.respond 404 (messageBody ("No matching professor upload found for " ++
           "these criteria. Please ensure files were submitted first and all criteria " ++
           "match an existing record."))]
      | some profUploadDoc =>
        match env.launchError with
        | some m =>
          [ResultsEvent.findOne q,
           ResultsEvent.respond 500
             (JsonValue.object
               [("message", JsonValue.string ("Failed to initiate combined result " ++
                  "generation due to a server-side setup error.")),
                ("errorDetails", JsonValue.string (orString (some m) "Unknown server error."))])]
        | none =>
          [ResultsEvent.findOne q,
           ResultsEvent.exec "Combined_Results.py" (combinedArgs q) combinedOptions,
           ResultsEvent.respond 202 (acceptedBody (env.idText profUploadDoc.id))] ++
          combinedCallback env profUploadDoc.id := by
  obtain ⟨h1, h2, h3, h4, h5, h6⟩ := hreq
  simp only [combinedClassResult, h1, h2, h3, h4, h5, h6, hq, hfind]
  simp

/-- C14. For every combined-class-result request with all six criteria present
and numeric year and semester, when the lookup raises no error and the call
that launches the process does not throw: the lookup is made with the trimmed
course, subjectCode, examType and sectionType and the parsed year and
semester, and a record matches when it is equal to them in these six fields;
if some record matches, the handler launches the report engine once and
answers 202 with a body of two fields, the fixed message and
`professorUploadId`, the text of the id of a matching record, the response
standing before every step of the engine's callback and being sent even when
the process never ends; if no record matches, the handler answers 404 and
launches nothing. -/
theorem combined_result_accepted_or_not_found (env : CombinedEnv) (req : CombinedRequest)
    (db : Store) (q : CriteriaQuery)
    (hreq : truthy req.subjectCode = true ∧ truthy req.examType = true ∧
      truthy req.year = true ∧ truthy req.semester = true ∧ truthy req.course = true ∧
      truthy req.sectionType = true)
    (hq : req.criteria = some q) (hfind : env.findError = none)
    (hlaunch : env.launchError = none) :
    (q.course = jsTrim (req.course.getD "") ∧ q.subjectCode = jsTrim (req.subjectCode.getD "") ∧
      q.examType = jsTrim (req.examType.getD "") ∧
      q.sectionType = jsTrim (req.sectionType.getD "") ∧
      parseInt (req.year.getD "") = some q.year ∧
      parseInt (req.semester.getD "") = some q.semester) ∧
    (∀ r : ProfessorUpload, q.matches r = true ↔
      (r.course = jsTrim (req.course.getD "") ∧
        r.subjectCode = jsTrim (req.subjectCode.getD "") ∧
        r.examType = jsTrim (req.examType.getD "") ∧
        r.sectionType = jsTrim (req.sectionType.getD "") ∧
        some r.year = parseInt (req.year.getD "") ∧
        some r.semester = parseInt (req.semester.getD ""))) ∧
    ((∃ r ∈ db, q.matches r = true) →
      ∃ doc ∈ db, q.matches doc = true ∧
        combinedClassResult env req db =
          [ResultsEvent.findOne q,
           ResultsEvent.exec "Combined_Results.py" (combinedArgs q) combinedOptions,
           ResultsEvent.respond 202 (acceptedBody (env.idText doc.id))] ++
          combinedCallback env doc.id ∧
        responses (combinedClassResult env req db) =
          [(202, JsonValue.object
            [("message",
                JsonValue.string
                  "Combined class result generation initiated. Polling for status will begin."),
             ("professorUploadId", JsonValue.string (env.idText doc.id))])] ∧
        launches (combinedClassResult env req db) = ["Combined_Results.py"] ∧
        (env.script = none →
          combinedClassResult env req db =
            [ResultsEvent.findOne q,
             ResultsEvent.exec "Combined_Results.py" (combinedArgs q) combinedOptions,
             ResultsEvent.respond 202 (acceptedBody (env.idText doc.id))])) ∧
    ((∀ r ∈ db, q.matches r = false) →
      (∃ body, responses (combinedClassResult env req db) = [(404, body)]) ∧
      launches (combinedClassResult env req db) = [] ∧
      applyResults (combinedClassResult env req db) db = db) := by
  have hv := combinedClassResult_valid env req db q hreq hq hfind
  have hfields : q.course = jsTrim (req.course.getD "") ∧
      q.subjectCode = jsTrim (req.subjectCode.getD "") ∧
      q.examType = jsTrim (req.examType.getD "") ∧
      q.sectionType = jsTrim (req.sectionType.getD "") ∧
      parseInt (req.year.getD "") = some q.year ∧
      parseInt (req.semester.getD "") = some q.semester := by
    unfold CombinedRequest.criteria at hq
    cases hy : parseInt (req.year.getD "") with
    | none => simp [hy] at hq
    | some y =>
      cases hs : parseInt (req.semester.getD "") with
      | none => simp [hy, hs] at hq
      | some sem =>
        simp [hy, hs] at hq
        subst hq
        simp
  refine ⟨hfields, ?_, ?_, ?_⟩
  · intro r
    obtain ⟨f1, f2, f3, f4, f5, f6⟩ := hfields
    simp only [CriteriaQuery.matches, Bool.and_eq_true, beq_iff_eq, f5, f6, ← f1, ← f2, ← f3,
      ← f4, Option.some.injEq]
    tauto
  · rintro ⟨r, hr, hm⟩
    cases hf : db.findOneByCriteria q with
    | none =>
      unfold Store.findOneByCriteria at hf
      rw [List.find?_eq_none] at hf
      exact absurd hm (hf r hr)
    | some doc =>
      have hmem : doc ∈ db := List.mem_of_find?_eq_some hf
      have hmatch : q.matches doc = true := List.find?_some hf
      rw [hf, hlaunch] at hv
      simp only at hv
      refine ⟨doc, hmem, hmatch, hv, ?_, ?_, ?_⟩
      · rw [hv]
        simp [responses, combinedCallback_no_response]
        rfl
      · rw [hv]
        simp [launches, combinedCallback_no_launch]
      · intro hnone
        rw [hv]
        simp [combinedCallback, hnone]
  · intro hno
    have hf : db.findOneByCriteria q = none := by
      unfold Store.findOneByCriteria
      rw [List.find?_eq_none]
      intro r hr
      simp [hno r hr]
    rw [hf] at hv
    simp only at hv
    rw [hv]
    exact ⟨⟨_, rfl⟩, rfl, rfl⟩


/-- Witness for C14: with `sampleRecord` stored, the request for its exam is
answered 202 with the id of that record, here in a world where the process
later exits with an error. -/
theorem combined_result_accepted_or_not_found_witness :
    sampleCombinedRequest.criteria = some sampleCriteria ∧
    responses (combinedClassResult failedReportEnv sampleCombinedRequest [sampleRecord]) =
      [(202, JsonValue.object
        [("message",
            JsonValue.string
              "Combined class result generation initiated. Polling for status will begin."),
         ("professorUploadId", JsonValue.string (failedReportEnv.idText sampleRecord.id))])] := by
  have h := combined_result_accepted_or_not_found failedReportEnv sampleCombinedRequest
    [sampleRecord] sampleCriteria (by decide) (by decide) rfl rfl
  obtain ⟨doc, hmem, _, _, hresp, _⟩ := h.2.2.1 ⟨sampleRecord, by simp, by decide⟩
  simp only [List.mem_singleton] at hmem
  subst hmem
  exact ⟨by decide, hresp⟩


/-- The fields of the body built by the status handler. -/
theorem statusBody_fields (r : ProfessorUpload) :
    (statusBody r).field "status" =
      some (JsonValue.string (orString r.combinedResultGenerationStatus "pending")) ∧
    (statusBody r).field "message" =
      some (JsonValue.string
        (orString r.combinedResultErrorMessage "Status fetched successfully.")) ∧
    (statusBody r).field "pdfId" = r.combinedClassResultPdfGridFsId.map JsonValue.string ∧
    (statusBody r).field "csvId" = r.combinedClassResultCsvGridFsId.map JsonValue.string ∧
    (statusBody r).field "studentsProcessed" =
      r.combinedResultStudentProcessedCount.map (fun n => JsonValue.number n 0) ∧
    (statusBody r).field "studentsFailed" =
      r.combinedResultStudentFailedOrSkippedCount.map (fun n => JsonValue.number n 0) ∧
    (statusBody r).field "examDetails" =
      some (JsonValue.object
        [("subject", JsonValue.string r.subject), ("examType", JsonValue.string r.examType),
         ("uploadedAt", JsonValue.number r.uploadedAt 0)]) := by
  unfold statusBody
  generalize r.combinedClassResultPdfGridFsId = pdf
  generalize r.combinedClassResultCsvGridFsId = csv
  generalize r.combinedResultStudentProcessedCount = processed
  generalize r.combinedResultStudentFailedOrSkippedCount = failed
  cases pdf <;> cases csv <;> cases processed <;> cases failed <;>
    exact ⟨rfl, rfl, rfl, rfl, rfl, rfl, rfl⟩

/-- C15. For every well-formed record id, when the lookup raises no error, the
combined-class-status handler answers 404 if no record has that id, and
otherwise 200 with a body whose `status` is the record's combined-report
status, `pending` standing in when none is stored or the stored one is the
empty text; whose `message` is the stored error message, `Status fetched
successfully.` standing in likewise; whose `pdfId` and `csvId` are the two
stored artifact ids and absent when unset; whose `studentsProcessed` and
`studentsFailed` are the two stored counts; and whose `examDetails` holds the
record's subject, examType and uploadedAt. -/
theorem combined_status_projection (env : StatusEnv) (db : Store) (profUploadId : String)
    (hvalid : env.isValid profUploadId = true) (hfind : env.findError = none) :
    (db.findById (env.objectId profUploadId) = none →
      responses (combinedClassStatus env db profUploadId) =
        [(404, messageBody "Professor upload record not found.")]) ∧
    (∀ r, db.findById (env.objectId profUploadId) = some r →
      ∃ body, responses (combinedClassStatus env db profUploadId) = [(200, body)] ∧
        (∀ s, r.combinedResultGenerationStatus = some s → s ≠ "" →
          body.field "status" = some (JsonValue.string s)) ∧
        (r.combinedResultGenerationStatus = none ∨ r.combinedResultGenerationStatus = some "" →
          body.field "status" = some (JsonValue.string "pending")) ∧
        (∀ s, r.combinedResultErrorMessage = some s → s ≠ "" →
          body.field "message" = some (JsonValue.string s)) ∧
        (r.combinedResultErrorMessage = none ∨ r.combinedResultErrorMessage = some "" →
          body.field "message" = some (JsonValue.string "Status fetched successfully.")) ∧
        body.field "pdfId" = r.combinedClassResultPdfGridFsId.map JsonValue.string ∧
        body.field "csvId" = r.combinedClassResultCsvGridFsId.map JsonValue.string ∧
        body.field "studentsProcessed" =
          r.combinedResultStudentProcessedCount.map (fun n => JsonValue.number n 0) ∧
        body.field "studentsFailed" =
          r.combinedResultStudentFailedOrSkippedCount.map (fun n => JsonValue.number n 0) ∧
        body.field "examDetails" =
          some (JsonValue.object
            [("subject", JsonValue.string r.subject),
             ("examType", JsonValue.string r.examType),
             ("uploadedAt", JsonValue.number r.uploadedAt 0)])) := by
  refine ⟨?_, ?_⟩
  · intro hnone
    simp [combinedClassStatus, hvalid, hfind, hnone, responses]
  · intro r hr
    obtain ⟨h1, h2, h3, h4, h5, h6, h7⟩ := statusBody_fields r
    refine ⟨statusBody r, ?_, ?_, ?_, ?_, ?_, h3, h4, h5, h6, h7⟩
    · simp [combinedClassStatus, hvalid, hfind, hr, responses]
    · intro s hs hne
      rw [h1, hs]
      simp [orString, hne]
    · rintro (hs | hs) <;> rw [h1, hs] <;> simp [orString]
    · intro s hs hne
      rw [h2, hs]
      simp [orString, hne]
    · rintro (hs | hs) <;> rw [h2, hs] <;> simp [orString]

/-- Witness for C15: the status of `sampleRecord`, on which no combined report
has run, is `pending`. -/
theorem combined_status_projection_witness :
    sampleStatusEnv.isValid "1" = true ∧
    ∃ body, responses (combinedClassStatus sampleStatusEnv [sampleRecord] "1") = [(200, body)] ∧
      body.field "status" = some (JsonValue.string "pending") ∧
      body.field "pdfId" = none := by
  obtain ⟨body, hresp, _, hpending, _, _, hpdf, _⟩ :=
    (combined_status_projection sampleStatusEnv [sampleRecord] "1" (by decide) rfl).2
      sampleRecord (by decide)
  exact ⟨by decide, body, hresp, hpending (Or.inl rfl), hpdf⟩

/-- C16. For every request to the combined-class-status handler, every store
state and every outcome of the id test and of the lookup, the store after the
request equals the store before it, and no step of the handler is a write. -/
theorem combined_status_never_writes (env : StatusEnv) (db : Store) (profUploadId : String) :
    applyResults (combinedClassStatus env db profUploadId) db = db ∧
    ∀ e ∈ combinedClassStatus env db profUploadId, ∀ other : Store, e.apply other = other := by
  unfold combinedClassStatus
  cases env.isValid profUploadId <;> cases env.findError <;>
    cases db.findById (env.objectId profUploadId) <;>
    simp [applyResults, ResultsEvent.apply]


theorem Patch.apply_of_keepsCombined {p : Patch} (h : p.keepsCombined = true)
    (r : ProfessorUpload) : (p.apply r).combinedReport = r.combinedReport := by
  cases p with
  | mk ps pe pj pp pa pb pc =>
    simp [Patch.keepsCombined] at h
    obtain ⟨⟨ha, hb⟩, hc⟩ := h
    subst ha hb hc
    simp [Patch.apply, ProfessorUpload.combinedReport]

theorem Patch.apply_of_combinedOnly {p : Patch} (h : p.combinedOnly = true)
    (r : ProfessorUpload) :
    ∃ a b c, p.apply r =
      { r with
        combinedResultGenerationStatus := a
        combinedResultErrorMessage := b
        combinedResultProcessedAt := c } := by
  cases p with
  | mk ps pe pj pp pa pb pc =>
    simp [Patch.combinedOnly] at h
    obtain ⟨⟨⟨ha, hb⟩, hc⟩, hd⟩ := h
    subst ha hb hc hd
    exact ⟨pa.orElse (fun _ => r.combinedResultGenerationStatus),
      pb.orElse (fun _ => r.combinedResultErrorMessage),
      pc.orElse (fun _ => r.combinedResultProcessedAt), by simp [Patch.apply]⟩

theorem Patch.strict_keepsCombined (p : Patch) : p.strict.keepsCombined = true := rfl

theorem Patch.strict_combinedOnly {p : Patch} (h : p.combinedOnly = true) :
    p.strict.combinedOnly = true := by
  cases p with
  | mk ps pe pj pp pa pb pc =>
    simp [Patch.combinedOnly] at h
    obtain ⟨⟨⟨ha, hb⟩, hc⟩, hd⟩ := h
    subst ha hb hc hd
    rfl

theorem Store.findById_append_of_some (db : Store) (d r : ProfessorUpload) (j : Nat)
    (h : db.findById j = some r) : (db ++ [d]).findById j = some r := by
  simp only [Store.findById] at h ⊢
  simp [List.find?_append, h]

/-- A step that assigns no combined-report field leaves the combined-report
fields of every stored record as they were. -/
theorem Event.keepsCombined_apply {e : Event} (h : e.keepsCombined = true) (db : Store)
    (j : Nat) (r : ProfessorUpload) (hj : db.findById j = some r) :
    ∃ r1, (e.apply db).findById j = some r1 ∧ r1.combinedReport = r.combinedReport := by
  cases e with
  | insert doc => exact ⟨r, Store.findById_append_of_some db doc r j hj, rfl⟩
  | save site id p =>
    simp only [Event.apply, Store.findById_update, hj, Option.map_some']
    by_cases hij : id = j
    · simp only [hij, if_true]
      exact ⟨_, rfl, Patch.apply_of_keepsCombined (Patch.strict_keepsCombined p) r⟩
    · simp only [hij, if_false]
      exact ⟨_, rfl, rfl⟩
  | findByIdAndUpdate id p =>
    simp only [Event.apply, Store.findById_update, hj, Option.map_some']
    by_cases hij : id = j
    · simp only [hij, if_true]
      exact ⟨_, rfl, Patch.apply_of_keepsCombined (Patch.strict_keepsCombined p) r⟩
    · simp only [hij, if_false]
      exact ⟨_, rfl, rfl⟩
  | _ => exact ⟨r, hj, rfl⟩

theorem applyTrace_keepsCombined (trace : List Event)
    (h : ∀ e ∈ trace, e.keepsCombined = true) (db : Store) (j : Nat) (r : ProfessorUpload)
    (hj : db.findById j = some r) :
    ∃ r1, (applyTrace trace db).findById j = some r1 ∧
      r1.combinedReport = r.combinedReport := by
  induction trace generalizing db r with
  | nil => exact ⟨r, hj, rfl⟩
  | cons e es ih =>
    obtain ⟨r1, h1, e1⟩ :=
      Event.keepsCombined_apply (h e (List.mem_cons_self _ _)) db j r hj
    obtain ⟨r2, h2, e2⟩ :=
      ih (fun x hx => h x (List.mem_cons_of_mem _ hx)) (e.apply db) r1 h1
    exact ⟨r2, by rw [applyTrace_cons]; exact h2, e2.trans e1⟩

theorem Event.stageWrite_keepsCombined {e : Event} (h : e.stageWrite = true) :
    e.keepsCombined = true := by
  cases e <;> simp [Event.stageWrite, Patch.stageOnly] at h <;>
    simp [Event.keepsCombined, Patch.keepsCombined, h]

theorem outerCatch_keepsCombined (env : Env) (sent : Bool) (doc : Option Nat) (msg : String) :
    (outerCatch env sent doc msg).all Event.keepsCombined = true := by
  unfold outerCatch
  cases sent <;> cases doc <;> try cases env.dbError DbSite.findByIdAndUpdate
  all_goals simp [Event.keepsCombined, Patch.keepsCombined, Patch.setFailure, Patch.none]

theorem intake_keepsCombined (env : Env) (req : ProfessorRequest) (db : Store) :
    ∀ e ∈ (intake env req db).events, e.keepsCombined = true := by
  have hoc := outerCatch_keepsCombined env
  intro e he
  unfold intake at he
  repeat' split at he
  all_goals
    simp only [List.mem_cons, List.mem_append, List.mem_singleton, List.not_mem_nil,
      or_false] at he
  all_goals
    first
      | (rcases he with rfl | rfl | rfl <;> rfl)
      | (rcases he with rfl | h
         · rfl
         · exact List.all_eq_true.mp (hoc _ _ _) e h)
      | (rcases he with (rfl | rfl) | h
         · rfl
         · rfl
         · exact List.all_eq_true.mp (hoc _ _ _) e h)

/-- No step of a run of the professor upload assigns a combined-report
field. -/
theorem professorUpload_keepsCombined (env : Env) (sched : List Tid) (req : ProfessorRequest)
    (db : Store) : ∀ e ∈ professorUpload env sched req db, e.keepsCombined = true := by
  intro e he
  unfold professorUpload at he
  cases hd : (intake env req db).doc with
  | none =>
    simp only [hd] at he
    exact intake_keepsCombined env req db e he
  | some sd =>
    obtain ⟨s, doc⟩ := sd
    simp only [hd, List.mem_append] at he
    rcases he with h | h
    · exact intake_keepsCombined env req db e h
    · exact Event.stageWrite_keepsCombined (pipeline_stageWrite env sched s doc e h)


theorem combinedCallback_combinedOnly (env : CombinedEnv) (id : Nat) :
    (combinedCallback env id).all ResultsEvent.combinedOnly = true := by
  unfold combinedCallback
  cases env.script with
  | none => rfl
  | some o =>
    cases o with
    | ok stdout stderr => rfl
    | error message code stdout stderr =>
      cases env.updateError <;> rfl

theorem combinedClassResult_combinedOnly (env : CombinedEnv) (req : CombinedRequest)
    (db : Store) : (combinedClassResult env req db).all ResultsEvent.combinedOnly = true := by
  unfold combinedClassResult
  split
  · rfl
  · cases hq : req.criteria with
    | none => rfl
    | some q =>
      cases hf : env.findError with
      | some m => rfl
      | none =>
        cases hd : db.findOneByCriteria q with
        | none => simp only [hd]; rfl
        | some doc =>
          cases hl : env.launchError with
          | some m => simp only [hd, hl]; rfl
          | none =>
            simp only [hd, hl, List.all_append, combinedCallback_combinedOnly, Bool.and_true]
            rfl

/-- A step that assigns combined-report fields only changes, in every stored
record, at most the combined-report status, error message and time. -/
theorem ResultsEvent.combinedOnly_apply {e : ResultsEvent} (h : e.combinedOnly = true)
    (db : Store) (j : Nat) (r : ProfessorUpload) (hj : db.findById j = some r) :
    ∃ a b c, (e.apply db).findById j =
      some { r with
        combinedResultGenerationStatus := a
        combinedResultErrorMessage := b
        combinedResultProcessedAt := c } := by
  cases e with
  | findByIdAndUpdate id p =>
    simp only [ResultsEvent.apply, Store.findById_update, hj, Option.map_some']
    by_cases hij : id = j
    · simp only [hij, if_true]
      obtain ⟨a, b, c, habc⟩ := Patch.apply_of_combinedOnly (Patch.strict_combinedOnly h) r
      exact ⟨a, b, c, by rw [habc]⟩
    · simp only [hij, if_false]
      exact ⟨_, _, _, rfl⟩
  | _ => exact ⟨_, _, _, hj⟩

theorem applyResults_combinedOnly (trace : List ResultsEvent)
    (h : ∀ e ∈ trace, e.combinedOnly = true) (db : Store) (j : Nat) (r : ProfessorUpload)
    (hj : db.findById j = some r) :
    ∃ a b c, (applyResults trace db).findById j =
      some { r with
        combinedResultGenerationStatus := a
        combinedResultErrorMessage := b
        combinedResultProcessedAt := c } := by
  induction trace generalizing db r with
  | nil => exact ⟨_, _, _, hj⟩
  | cons e es ih =>
    obtain ⟨a, b, c, h1⟩ :=
      ResultsEvent.combinedOnly_apply (h e (List.mem_cons_self _ _)) db j r hj
    obtain ⟨a2, b2, c2, h2⟩ :=
      ih (fun x hx => h x (List.mem_cons_of_mem _ hx)) (e.apply db) _ h1
    exact ⟨a2, b2, c2, h2⟩

/-- C17. The two status machines do not disturb each other. The update made
when the combined-report process fails sets combinedResultGenerationStatus,
combinedResultErrorMessage and combinedResultProcessedAt and nothing else; a
run of the combined-class-result handler leaves every record of the store as
it was up to those three fields, so its pipeline status, errorDetails and all
other fields are unchanged; no step of a run of the professor upload assigns a
combined-report field; and after such a run every record that was in the
store holds the combined-report status, error message, time, artifact ids and
counts it held before. -/
theorem status_machines_independent :
    (∀ (now : Nat) (message stderr : String) (r : ProfessorUpload),
      (combinedFailurePatch now message stderr).apply r =
        { r with
          combinedResultGenerationStatus := some "error_script_execution"
          combinedResultErrorMessage :=
            some ("Python script execution failed: " ++ message ++ ". Stderr: " ++
              substring0 stderr 500)
          combinedResultProcessedAt := some now }) ∧
    (∀ (env : CombinedEnv) (req : CombinedRequest) (db : Store) (j : Nat) (r : ProfessorUpload),
      db.findById j = some r →
      ∃ a b c, (applyResults (combinedClassResult env req db) db).findById j =
        some { r with
          combinedResultGenerationStatus := a
          combinedResultErrorMessage := b
          combinedResultProcessedAt := c }) ∧
    (∀ (env : Env) (sched : List Tid) (req : ProfessorRequest) (db : Store),
      ∀ e ∈ professorUpload env sched req db, e.keepsCombined = true) ∧
    (∀ (env : Env) (sched : List Tid) (req : ProfessorRequest) (db : Store) (j : Nat)
      (r : ProfessorUpload),
      db.findById j = some r →
      ∃ r1, (applyTrace (professorUpload env sched req db) db).findById j = some r1 ∧
        r1.combinedResultGenerationStatus = r.combinedResultGenerationStatus ∧
        r1.combinedResultErrorMessage = r.combinedResultErrorMessage ∧
        r1.combinedResultProcessedAt = r.combinedResultProcessedAt ∧
        r1.combinedClassResultPdfGridFsId = r.combinedClassResultPdfGridFsId ∧
        r1.combinedClassResultCsvGridFsId = r.combinedClassResultCsvGridFsId ∧
        r1.combinedResultStudentProcessedCount = r.combinedResultStudentProcessedCount ∧
        r1.combinedResultStudentFailedOrSkippedCount =
          r.combinedResultStudentFailedOrSkippedCount) := by
  refine ⟨?_, ?_, professorUpload_keepsCombined, ?_⟩
  · intro now message stderr r
    simp [combinedFailurePatch, Patch.apply, Patch.none]
  · intro env req db j r hj
    exact applyResults_combinedOnly _
      (fun e he => List.all_eq_true.mp (combinedClassResult_combinedOnly env req db) e he)
      db j r hj
  · intro env sched req db j r hj
    obtain ⟨r1, h1, e1⟩ := applyTrace_keepsCombined _
      (professorUpload_keepsCombined env sched req db) db j r hj
    simp only [ProfessorUpload.combinedReport, Prod.mk.injEq] at e1
    obtain ⟨a, b, c, d, e, f, g⟩ := e1
    exact ⟨r1, h1, a, b, c, d, e, f, g⟩

/-- Witness for C17: the report process fails for the exam of `sampleRecord`;
afterwards the record is what it was up to the three fields of the update. -/
theorem status_machines_independent_witness :
    ∃ a b c,
      (applyResults (combinedClassResult failedReportEnv sampleCombinedRequest [sampleRecord])
        [sampleRecord]).findById 1 =
        some { sampleRecord with
          combinedResultGenerationStatus := a
          combinedResultErrorMessage := b
          combinedResultProcessedAt := c } :=
  status_machines_independent.2.1 failedReportEnv sampleCombinedRequest [sampleRecord] 1
    sampleRecord (by decide)


theorem outerCatch_detailsWithFailure (env : Env) (sent : Bool) (doc : Option Nat)
    (msg : String) : (outerCatch env sent doc msg).all Event.detailsWithFailure = true := by
  unfold outerCatch
  cases sent <;> cases doc <;> try cases env.dbError DbSite.findByIdAndUpdate
  all_goals rfl

theorem innerCatch_detailsWithFailure (env : Env) (id : Nat) (p : Patch) (t : Thrown) :
    (innerCatch env id p t).all Event.detailsWithFailure = true := by
  unfold innerCatch
  cases env.dbError DbSite.saveParsingFailed with
  | some m => simp [List.all_cons, Event.detailsWithFailure, outerCatch_detailsWithFailure]
  | none =>
    simp [List.all_cons, Event.detailsWithFailure, Patch.detailsWithFailure, Patch.merge,
      Patch.setFailure, Patch.none, Status.isFailure]

theorem studentScriptStage_detailsWithFailure (env : Env) (doc : ProfessorUpload) :
    (studentScriptStage env doc).all Event.detailsWithFailure = true := by
  unfold studentScriptStage
  cases env.dbError DbSite.findByIdFlask2 <;>
    cases env.dbError DbSite.saveStudentScriptStarted <;>
    simp [List.all_cons, Event.detailsWithFailure, innerCatch_detailsWithFailure,
      Patch.detailsWithFailure, Patch.none, Patch.setStatus]

theorem answerBookStage_detailsWithFailure (env : Env) (s : Submission) (doc : ProfessorUpload)
    (d : Json) : (answerBookStage env s doc d).all Event.detailsWithFailure = true := by
  unfold answerBookStage
  cases env.dbError DbSite.findByIdFlask1 <;> cases env.dbError DbSite.saveAnswerBookStarted <;>
    simp [List.all_cons, Event.detailsWithFailure, innerCatch_detailsWithFailure,
      studentScriptStage_detailsWithFailure, Patch.detailsWithFailure, Patch.none,
      Patch.setStatus]

theorem background_detailsWithFailure (env : Env) (s : Submission) (doc : ProfessorUpload) :
    (background env s doc).all Event.detailsWithFailure = true := by
  unfold background
  cases env.dbError DbSite.saveParsingStarted <;>
    cases env.dbError DbSite.saveQuestionsExtracted <;>
    rcases env.parser with ⟨c, so, se, msg⟩ | ⟨so, _ | d⟩ <;>
    simp [List.all_cons, Event.detailsWithFailure, innerCatch_detailsWithFailure,
      answerBookStage_detailsWithFailure, Patch.detailsWithFailure, Patch.none,
      Patch.setStatus, questionsExtractedPatch]

theorem apiCatch_detailsWithFailure (env : Env) (f g : DbSite) (st : Status)
    (hst : st.isFailure = true) (script : String) (id : Nat) (msg : String)
    (data : Option String) :
    (apiCatch env f g st script id msg data).all Event.detailsWithFailure = true := by
  unfold apiCatch
  cases env.dbError f <;> cases env.dbError g <;>
    simp [List.all_cons, Event.detailsWithFailure, Patch.detailsWithFailure, Patch.none,
      Patch.setFailure, hst]

theorem apiThen_detailsWithFailure (env : Env) (f g f2 g2 : DbSite) (c st : Status)
    (hst : st.isFailure = true) (script : String) (id : Nat) :
    (apiThen env f g f2 g2 c st script id).all Event.detailsWithFailure = true := by
  unfold apiThen
  cases env.dbError f <;> cases env.dbError g <;>
    simp [List.all_cons, Event.detailsWithFailure, Patch.detailsWithFailure, Patch.none,
      Patch.setStatus, apiCatch_detailsWithFailure, hst]

theorem answerBookCallback_detailsWithFailure (env : Env) (id : Nat) :
    (answerBookCallback env id).all Event.detailsWithFailure = true := by
  unfold answerBookCallback
  cases env.answerBook <;>
    simp [List.all_cons, Event.detailsWithFailure, apiCatch_detailsWithFailure,
      apiThen_detailsWithFailure, Status.isFailure]

theorem studentScriptCallback_detailsWithFailure (env : Env) (id : Nat) :
    (studentScriptCallback env id).all Event.detailsWithFailure = true := by
  unfold studentScriptCallback
  cases env.studentScripts <;>
    simp [List.all_cons, Event.detailsWithFailure, apiCatch_detailsWithFailure,
      apiThen_detailsWithFailure, Status.isFailure]

theorem intake_detailsWithFailure (env : Env) (req : ProfessorRequest) (db : Store) :
    ∀ e ∈ (intake env req db).events, e.detailsWithFailure = true := by
  have hoc := outerCatch_detailsWithFailure env
  intro e he
  unfold intake at he
  repeat' split at he
  all_goals
    simp only [List.mem_cons, List.mem_append, List.mem_singleton, List.not_mem_nil,
      or_false] at he
  all_goals
    first
      | (rcases he with rfl | rfl | rfl <;> rfl)
      | (rcases he with rfl | h
         · rfl
         · exact List.all_eq_true.mp (hoc _ _ _) e h)
      | (rcases he with (rfl | rfl) | h
         · rfl
         · rfl
         · exact List.all_eq_true.mp (hoc _ _ _) e h)

/-- Every write of a run of the professor upload that assigns `errorDetails`
assigns a failure status with it. -/
theorem professorUpload_detailsWithFailure (env : Env) (sched : List Tid)
    (req : ProfessorRequest) (db : Store) :
    ∀ e ∈ professorUpload env sched req db, e.detailsWithFailure = true := by
  intro e he
  unfold professorUpload at he
  cases hd : (intake env req db).doc with
  | none =>
    simp only [hd] at he
    exact intake_detailsWithFailure env req db e he
  | some sd =>
    obtain ⟨s, doc⟩ := sd
    simp only [hd, List.mem_append] at he
    rcases he with h | h
    · exact intake_detailsWithFailure env req db e h
    · revert e
      apply pipeline_forall
      · exact fun e he => List.all_eq_true.mp (background_detailsWithFailure env s doc) e he
      · exact fun e he =>
          List.all_eq_true.mp (answerBookCallback_detailsWithFailure env doc.id) e he
      · exact fun e he =>
          List.all_eq_true.mp (studentScriptCallback_detailsWithFailure env doc.id) e he

theorem submitAll_pipelineState (runs : List (Env × List Tid × ProfessorRequest)) (db : Store)
    (h : ∀ r ∈ db, r.pipelineState = (none, none)) :
    ∀ r ∈ submitAll runs db, r.pipelineState = (none, none) := by
  induction runs generalizing db with
  | nil => exact h
  | cons run rest ih =>
    obtain ⟨env, sched, req⟩ := run
    apply ih
    intro r hr
    have hmem : r.pipelineState ∈
        (applyTrace (professorUpload env sched req db) db).map ProfessorUpload.pipelineState :=
      List.mem_map_of_mem _ hr
    rcases professorUpload_pipelineState env sched req db with h1 | h1
    · rw [h1] at hmem
      obtain ⟨r0, hr0, e0⟩ := List.mem_map.mp hmem
      rw [← e0]
      exact h r0 hr0
    · rw [h1] at hmem
      rcases List.mem_append.mp hmem with hm | hm
      · obtain ⟨r0, hr0, e0⟩ := List.mem_map.mp hm
        rw [← e0]
        exact h r0 hr0
      · simpa using hm

/-- C18. On every record reachable through the upload route, errorDetails is
set only while the pipeline status is a failure state. First, the invariant
is kept by every run, under every schedule and for every outcome of the store
and the engines: if every stored record that has an errorDetails has a
failure status, so has every record after the run (a run changes neither
field of a stored record, and a record it creates has no errorDetails).
Second, in a store built from the empty collection by any sequence of runs no
record has an errorDetails at all, so a record in a started or completed state
carries none, also after one branch failed and the other succeeded and after a
re-submission. Third, on the documents the handler holds, an errorDetails is
assigned only together with a failure status, in the same write. -/
theorem errorDetails_only_with_failure :
    (∀ (env : Env) (sched : List Tid) (req : ProfessorRequest) (db : Store),
      (∀ r ∈ db, r.errorDetails.isSome = true →
        ∃ st, r.status = some st ∧ st.isFailure = true) →
      ∀ r ∈ applyTrace (professorUpload env sched req db) db, r.errorDetails.isSome = true →
        ∃ st, r.status = some st ∧ st.isFailure = true) ∧
    (∀ (runs : List (Env × List Tid × ProfessorRequest)), ∀ r ∈ submitAll runs [],
      r.errorDetails = none ∧
      (r.errorDetails.isSome = true → ∃ st, r.status = some st ∧ st.isFailure = true)) ∧
    (∀ (env : Env) (sched : List Tid) (req : ProfessorRequest) (db : Store),
      ∀ e ∈ professorUpload env sched req db, ∀ site id p d,
        (e = Event.save site id p ∨ e = Event.findByIdAndUpdate id p) →
        p.errorDetails = some d → ∃ s, p.status = some s ∧ s.isFailure = true) := by
  refine ⟨?_, ?_, ?_⟩
  · intro env sched req db hinv r hr hsome
    have hmem : r.pipelineState ∈
        (applyTrace (professorUpload env sched req db) db).map ProfessorUpload.pipelineState :=
      List.mem_map_of_mem _ hr
    have hold : r.pipelineState ∈ db.map ProfessorUpload.pipelineState ∨
        r.pipelineState = (none, none) := by
      rcases professorUpload_pipelineState env sched req db with h1 | h1
      · rw [h1] at hmem
        exact Or.inl hmem
      · rw [h1] at hmem
        rcases List.mem_append.mp hmem with hm | hm
        · exact Or.inl hm
        · exact Or.inr (by simpa using hm)
    rcases hold with hm | hm
    · obtain ⟨r0, hr0, e0⟩ := List.mem_map.mp hm
      simp only [ProfessorUpload.pipelineState, Prod.mk.injEq] at e0
      have := hinv r0 hr0 (by rw [e0.2]; exact hsome)
      rw [e0.1] at this
      exact this
    · simp only [ProfessorUpload.pipelineState, Prod.mk.injEq] at hm
      rw [hm.2] at hsome
      cases hsome
  · intro runs r hr
    have := submitAll_pipelineState runs [] (by simp) r hr
    simp only [ProfessorUpload.pipelineState, Prod.mk.injEq] at this
    refine ⟨this.2, ?_⟩
    intro hsome
    rw [this.2] at hsome
    cases hsome
  · intro env sched req db e he site id p d hshape hd
    have h := professorUpload_detailsWithFailure env sched req db e he
    have hp : p.detailsWithFailure = true := by
      rcases hshape with rfl | rfl <;> exact h
    simp only [Patch.detailsWithFailure, hd] at hp
    cases hs : p.status with
    | none => simp [hs] at hp
    | some s =>
      simp [hs] at hp
      exact ⟨s, rfl, hp⟩

/-- Witness for C18: a record left with a failure status and a diagnostic is
re-submitted and every engine succeeds; the record of the store afterwards
that has an errorDetails still has its failure status. -/
theorem errorDetails_only_with_failure_witness :
    (∀ r ∈ [failedRecord], r.errorDetails.isSome = true →
      ∃ st, r.status = some st ∧ st.isFailure = true) ∧
    ∀ r ∈ applyTrace (professorUpload allSucceedEnv [] sampleRequest [failedRecord])
        [failedRecord],
      r.errorDetails.isSome = true → ∃ st, r.status = some st ∧ st.isFailure = true :=
  ⟨by decide,
    errorDetails_only_with_failure.1 allSucceedEnv [] sampleRequest [failedRecord] (by decide)⟩

/-- C19, the code at the failing inputs. The store rejects one save of the
background processing of a new submission, after the record was created (the
save of `question_parsing_started`, of `questions_extracted`, or of
`answer_book_processing_started`): the error is caught by the inner `catch`,
which assigns `question_parsing_failed` and the diagnostic of a parser failure
without exit code and saves; `processing_error_db` is assigned nowhere in the
run, and no update naming the store error is issued. The record ends without a
status and without an errorDetails, since the schema declares neither path.
And when the store rejects the save of the merge branch, on a record that was
found, the caller receives a 500, no update is attempted and the record is
left as it was. -/
theorem store_error_handled_as_parser_failure :
    professorUpload startedSaveFailsEnv [] sampleRequest [] =
      [Event.findOne sampleSubmission.query, Event.insert sampleCreated,
       Event.respond 201 "Upload received. Background processing started." (some 1),
       Event.dbFailed DbSite.saveParsingStarted "connection lost",
       Event.save DbSite.saveParsingFailed 1
         (Patch.setFailure Status.question_parsing_failed
           "Python (question_parser.py) error. Exit code: N/A. Stderr: Unknown Python error")] ∧
    statusesAssigned (professorUpload extractedSaveFailsEnv [] sampleRequest []) =
      [Status.question_parsing_started, Status.question_parsing_failed] ∧
    statusesAssigned (professorUpload answerBookStartedSaveFailsEnv [] sampleRequest []) =
      [Status.question_parsing_started, Status.questions_extracted,
       Status.question_parsing_failed] ∧
    (applyTrace (professorUpload startedSaveFailsEnv [] sampleRequest []) []).map
        (fun x => (x.id, x.status, x.errorDetails)) = [(1, none, none)] ∧
    (applyTrace (professorUpload extractedSaveFailsEnv [] sampleRequest []) []).map
        (fun x => (x.id, x.status, x.errorDetails)) = [(1, none, none)] ∧
    (applyTrace (professorUpload answerBookStartedSaveFailsEnv [] sampleRequest []) []).map
        (fun x => (x.id, x.status, x.errorDetails)) = [(1, none, none)] ∧
    professorUpload mergeSaveFailsEnv [] sampleRequest [sampleRecord] =
      [Event.findOne sampleSubmission.query,
       Event.dbFailed DbSite.saveMerge "connection lost",
       Event.respond 500 "Server error during initial database operation." none] ∧
    applyTrace (professorUpload mergeSaveFailsEnv [] sampleRequest [sampleRecord])
      [sampleRecord] = [sampleRecord] := by
  decide

/-- A store error at the lookup or at the save of a new record, that is
before any record of the submission exists: the caller receives a 500 and the
store is left as it was. -/
theorem store_error_before_record (env : Env) (sched : List Tid) (req : ProfessorRequest)
    (db : Store) (s : Submission) (hs : req.submission = some s)
    (h : (∃ m, env.dbError DbSite.findOne = some m) ∨
      (env.dbError DbSite.findOne = none ∧ db.findOne s.query = none ∧
        ∃ m, env.dbError DbSite.saveCreate = some m)) :
    responseCodes (professorUpload env sched req db) = [500] ∧
    applyTrace (professorUpload env sched req db) db = db := by
  rcases h with ⟨m, h1⟩ | ⟨h1, hf, m, h2⟩
  · simp [professorUpload, intake, hs, h1, outerCatch, responseCodes, applyTrace, Event.apply]
  · simp [professorUpload, intake, hs, h1, hf, h2, outerCatch, responseCodes, applyTrace,
      Event.apply]


theorem Patch.onlyFailure_eq {p : Patch} (h : p.onlyFailure = true) :
    ∃ st d, st.isFailure = true ∧ p = Patch.setFailure st d := by
  cases p with
  | mk ps pe pj pp pa pb pc =>
    cases ps with
    | none => simp [Patch.onlyFailure] at h
    | some st =>
      cases pe with
      | none => simp [Patch.onlyFailure] at h
      | some d =>
        simp [Patch.onlyFailure] at h
        obtain ⟨⟨⟨⟨⟨hj, hp⟩, ha⟩, hb⟩, hc⟩, hst⟩ := h
        subst hj hp ha hb hc
        exact ⟨st, d, hst, rfl⟩

theorem Patch.setFailure_apply (st : Status) (d : String) (r : ProfessorUpload) :
    (Patch.setFailure st d).apply r = { r with status := some st, errorDetails := some d } := by
  simp [Patch.setFailure, Patch.apply, Patch.none]

theorem outerCatch_failureWriteFramed (b : Bool) (env : Env) (sent : Bool) (doc : Option Nat)
    (msg : String) : (outerCatch env sent doc msg).all (Event.failureWriteFramed b) = true := by
  unfold outerCatch
  cases sent <;> cases doc <;> try cases env.dbError DbSite.findByIdAndUpdate
  all_goals rfl

theorem innerCatch_failureWriteFramed (b : Bool) (env : Env) (id : Nat) (p : Patch)
    (hp : b = false ∨ (p.processedJSON = Option.none ∧ p.stageOnly = true)) (t : Thrown) :
    (innerCatch env id p t).all (Event.failureWriteFramed b) = true := by
  unfold innerCatch
  cases env.dbError DbSite.saveParsingFailed with
  | some m =>
    simp [List.all_cons, Event.failureWriteFramed, outerCatch_failureWriteFramed]
  | none =>
    rcases hp with rfl | ⟨hj, hs⟩
    · simp [List.all_cons, Event.failureWriteFramed, DbSite.recordsEngineFailure]
    · simp only [Patch.stageOnly, Bool.and_eq_true, beq_iff_eq] at hs
      obtain ⟨⟨⟨h1, h2⟩, h3⟩, h4⟩ := hs
      simp [List.all_cons, Event.failureWriteFramed, Patch.onlyFailure, Patch.merge,
        Patch.setFailure, Patch.none, Status.isFailure, hj, h1, h2, h3, h4]

theorem studentScriptStage_failureWriteFramed (b : Bool) (env : Env) (doc : ProfessorUpload) :
    (studentScriptStage env doc).all (Event.failureWriteFramed b) = true := by
  unfold studentScriptStage
  have hi := fun t => innerCatch_failureWriteFramed b env doc.id Patch.none (Or.inr ⟨rfl, rfl⟩) t
  cases env.dbError DbSite.findByIdFlask2 <;>
    cases env.dbError DbSite.saveStudentScriptStarted <;>
    simp [List.all_cons, Event.failureWriteFramed, hi, DbSite.recordsEngineFailure]

theorem answerBookStage_failureWriteFramed (b : Bool) (env : Env) (s : Submission)
    (doc : ProfessorUpload) (d : Json) :
    (answerBookStage env s doc d).all (Event.failureWriteFramed b) = true := by
  unfold answerBookStage
  have hi := fun t => innerCatch_failureWriteFramed b env doc.id Patch.none (Or.inr ⟨rfl, rfl⟩) t
  cases env.dbError DbSite.findByIdFlask1 <;> cases env.dbError DbSite.saveAnswerBookStarted <;>
    simp [List.all_cons, Event.failureWriteFramed, hi, studentScriptStage_failureWriteFramed,
      DbSite.recordsEngineFailure]

theorem background_failureWriteFramed (env : Env) (s : Submission) (doc : ProfessorUpload) :
    (background env s doc).all (Event.failureWriteFramed env.parser.failed) = true := by
  unfold background
  have hi := fun t => innerCatch_failureWriteFramed env.parser.failed env doc.id Patch.none
    (Or.inr ⟨rfl, rfl⟩) t
  have hst := fun t => innerCatch_failureWriteFramed env.parser.failed env doc.id
    (Patch.setStatus Status.question_parsing_started) (Or.inr ⟨rfl, rfl⟩) t
  cases hp : env.parser with
  | rejected c so se msg =>
    rw [hp] at hi hst
    cases env.dbError DbSite.saveParsingStarted <;>
      simp [List.all_cons, Event.failureWriteFramed, hi, hst, DbSite.recordsEngineFailure]
  | resolved so parsed =>
    cases parsed with
    | none =>
      rw [hp] at hi hst
      cases env.dbError DbSite.saveParsingStarted <;>
        simp [List.all_cons, Event.failureWriteFramed, hi, hst, DbSite.recordsEngineFailure]
    | some d =>
      have hq := fun t => innerCatch_failureWriteFramed false env doc.id
        (questionsExtractedPatch d) (Or.inl rfl) t
      have hst2 := fun t => innerCatch_failureWriteFramed false env doc.id
        (Patch.setStatus Status.question_parsing_started) (Or.inl rfl) t
      cases env.dbError DbSite.saveParsingStarted <;>
        cases env.dbError DbSite.saveQuestionsExtracted <;>
        simp [List.all_cons, Event.failureWriteFramed, hq, hst2, ParserOutcome.failed,
          answerBookStage_failureWriteFramed, DbSite.recordsEngineFailure]

theorem apiCatch_failureWriteFramed (b : Bool) (env : Env) (f g : DbSite) (st : Status)
    (hst : st.isFailure = true) (script : String) (id : Nat) (msg : String)
    (data : Option String) :
    (apiCatch env f g st script id msg data).all (Event.failureWriteFramed b) = true := by
  unfold apiCatch
  cases env.dbError f <;> cases env.dbError g <;>
    simp [List.all_cons, Event.failureWriteFramed, Patch.onlyFailure, Patch.none,
      Patch.setFailure, hst]

theorem apiThen_failureWriteFramed (b : Bool) (env : Env) (f g f2 g2 : DbSite) (c st : Status)
    (hst : st.isFailure = true) (script : String) (id : Nat)
    (hg : g.recordsEngineFailure b = false) :
    (apiThen env f g f2 g2 c st script id).all (Event.failureWriteFramed b) = true := by
  unfold apiThen
  cases env.dbError f <;> cases env.dbError g <;>
    simp [List.all_cons, Event.failureWriteFramed, apiCatch_failureWriteFramed, hst, hg]

theorem answerBookCallback_failureWriteFramed (b : Bool) (env : Env) (id : Nat) :
    (answerBookCallback env id).all (Event.failureWriteFramed b) = true := by
  unfold answerBookCallback
  cases env.answerBook <;>
    simp [List.all_cons, Event.failureWriteFramed, apiCatch_failureWriteFramed,
      apiThen_failureWriteFramed, Status.isFailure, DbSite.recordsEngineFailure]

theorem studentScriptCallback_failureWriteFramed (b : Bool) (env : Env) (id : Nat) :
    (studentScriptCallback env id).all (Event.failureWriteFramed b) = true := by
  unfold studentScriptCallback
  cases env.studentScripts <;>
    simp [List.all_cons, Event.failureWriteFramed, apiCatch_failureWriteFramed,
      apiThen_failureWriteFramed, Status.isFailure, DbSite.recordsEngineFailure]

theorem intake_failureWriteFramed (b : Bool) (env : Env) (req : ProfessorRequest) (db : Store) :
    ∀ e ∈ (intake env req db).events, e.failureWriteFramed b = true := by
  have hoc := outerCatch_failureWriteFramed b env
  intro e he
  unfold intake at he
  repeat' split at he
  all_goals
    simp only [List.mem_cons, List.mem_append, List.mem_singleton, List.not_mem_nil,
      or_false] at he
  all_goals
    first
      | (rcases he with rfl | rfl | rfl <;>
          simp [Event.failureWriteFramed, DbSite.recordsEngineFailure])
      | (rcases he with rfl | h
         · rfl
         · exact List.all_eq_true.mp (hoc _ _ _) e h)
      | (rcases he with (rfl | rfl) | h
         · rfl
         · rfl
         · exact List.all_eq_true.mp (hoc _ _ _) e h)

/-- In every run of the professor upload, a save that records an engine
failure assigns a failure status and an `errorDetails` and nothing else. -/
theorem professorUpload_failureWriteFramed (env : Env) (sched : List Tid)
    (req : ProfessorRequest) (db : Store) :
    ∀ e ∈ professorUpload env sched req db,
      e.failureWriteFramed env.parser.failed = true := by
  intro e he
  unfold professorUpload at he
  cases hd : (intake env req db).doc with
  | none =>
    simp only [hd] at he
    exact intake_failureWriteFramed _ env req db e he
  | some sd =>
    obtain ⟨s, doc⟩ := sd
    simp only [hd, List.mem_append] at he
    rcases he with h | h
    · exact intake_failureWriteFramed _ env req db e h
    · revert e
      apply pipeline_forall
      · exact fun e he => List.all_eq_true.mp (background_failureWriteFramed env s doc) e he
      · exact fun e he =>
          List.all_eq_true.mp (answerBookCallback_failureWriteFramed _ env doc.id) e he
      · exact fun e he =>
          List.all_eq_true.mp (studentScriptCallback_failureWriteFramed _ env doc.id) e he


/-- C20. In every run of the professor upload, under every schedule and for
every outcome of the store and the engines, the save that records an engine
failure (the save of the `.catch` callback of the answer-book or of the
student-script POST, or the save of the inner `catch` when the parser was
rejected or printed unparseable output) writes a failure status and an
`errorDetails` and nothing else: in whatever store it is applied, every record
comes out with the same processedJSON, studentScriptPaths, questionPaper,
bookAnswer, username and exam key, and equal to what it was up to `status` and
`errorDetails`. -/
theorem engine_failure_write_frame (env : Env) (sched : List Tid) (req : ProfessorRequest)
    (db : Store) (site : DbSite) (id : Nat) (p : Patch)
    (he : Event.save site id p ∈ professorUpload env sched req db)
    (hsite : site = DbSite.answerBookCatchSave ∨ site = DbSite.studentScriptCatchSave ∨
      (site = DbSite.saveParsingFailed ∧ env.parser.failed = true)) :
    (∃ st d, st.isFailure = true ∧ p = Patch.setFailure st d) ∧
    ∀ (store : Store) (j : Nat) (r : ProfessorUpload), store.findById j = some r →
      ∃ r1, ((Event.save site id p).apply store).findById j = some r1 ∧
        r1 = { r with status := r1.status, errorDetails := r1.errorDetails } ∧
        r1.processedJSON = r.processedJSON ∧ r1.studentScriptPaths = r.studentScriptPaths ∧
        r1.questionPaper = r.questionPaper ∧ r1.bookAnswer = r.bookAnswer ∧
        r1.username = r.username ∧ r1.examKey = r.examKey := by
  have h := professorUpload_failureWriteFramed env sched req db _ he
  have hrec : site.recordsEngineFailure env.parser.failed = true := by
    rcases hsite with rfl | rfl | ⟨rfl, hp⟩
    · rfl
    · rfl
    · simp [DbSite.recordsEngineFailure, hp]
  simp only [Event.failureWriteFramed, hrec, Bool.not_true, Bool.false_or] at h
  obtain ⟨st, d, hst, rfl⟩ := Patch.onlyFailure_eq h
  refine ⟨⟨st, d, hst, rfl⟩, ?_⟩
  intro store j r hj
  simp only [Event.apply, Store.findById_update, hj, Option.map_some']
  by_cases hij : id = j
  · have hstrict : (Patch.setFailure st d).strict = Patch.none := rfl
    simp only [hij, if_true, hstrict, Patch.none_apply]
    exact ⟨r, rfl, rfl, rfl, rfl, rfl, rfl, rfl, rfl⟩
  · simp only [hij, if_false]
    exact ⟨r, rfl, rfl, rfl, rfl, rfl, rfl, rfl, rfl⟩

/-- Witness for C20: in the sample world the answer-book POST is refused; the
save of its `.catch` callback is in the run and writes the failure status and
the diagnostic only. -/
theorem engine_failure_write_frame_witness :
    ∃ st d, st.isFailure = true ∧
      Patch.setFailure Status.answer_book_processing_failed
        (apiErrorDetails "Answer_from_book.py" "connect ECONNREFUSED" none) =
        Patch.setFailure st d :=
  (engine_failure_write_frame sampleEnv [] sampleRequest [] DbSite.answerBookCatchSave 1
    (Patch.setFailure Status.answer_book_processing_failed
      (apiErrorDetails "Answer_from_book.py" "connect ECONNREFUSED" none))
    (by decide) (Or.inl rfl)).1


/-- Steps that only the main flow takes come out of an interleaving in the
order of the main flow. -/
theorem interleave_filter_main (Q : Event → Bool) (sched : List Tid) (m a s : List Event)
    (ha : a.filter Q = []) (hs : s.filter Q = []) :
    (interleave sched m a s).filter Q = m.filter Q := by
  induction sched generalizing m a s with
  | nil => simp [interleave, List.filter_append, ha, hs]
  | cons t sched ih =>
    cases t with
    | main =>
      cases m with
      | nil => simpa [interleave] using ih [] a s ha hs
      | cons x xs =>
        simp only [interleave, List.filter_cons]
        rw [ih xs a s ha hs]
    | answerBook =>
      cases a with
      | nil => simpa [interleave] using ih m [] s ha hs
      | cons x xs =>
        have hx : Q x = false := by
          by_contra hq
          simp [List.filter_cons, hq] at ha
        have hxs : xs.filter Q = [] := by simpa [List.filter_cons, hx] using ha
        simp only [interleave]
        split
        · exact ih m (x :: xs) s ha hs
        · simp only [List.filter_cons, hx]
          exact ih m xs s hxs hs
    | studentScript =>
      cases s with
      | nil => simpa [interleave] using ih m a [] ha hs
      | cons x xs =>
        have hx : Q x = false := by
          by_contra hq
          simp [List.filter_cons, hq] at hs
        have hxs : xs.filter Q = [] := by simpa [List.filter_cons, hx] using hs
        simp only [interleave]
        split
        · exact ih m a (x :: xs) ha hs
        · simp only [List.filter_cons, hx]
          exact ih m a xs ha hxs

theorem haltAtExit_sublist (l : List Event) : (haltAtExit l).Sublist l := by
  obtain ⟨rest, h⟩ := haltAtExit_append l
  conv_rhs => rw [h]
  exact List.sublist_append_left _ _

theorem outerCatch_engine_calls (env : Env) (sent : Bool) (doc : Option Nat) (msg : String) :
    (outerCatch env sent doc msg).filter Event.isEngineCall = [] := by
  unfold outerCatch
  cases sent <;> cases doc <;> cases env.dbError DbSite.findByIdAndUpdate <;> rfl

theorem innerCatch_engine_calls (env : Env) (id : Nat) (p : Patch) (t : Thrown) :
    (innerCatch env id p t).filter Event.isEngineCall = [] := by
  unfold innerCatch
  cases env.dbError DbSite.saveParsingFailed <;>
    simp [List.filter_cons, Event.isEngineCall, outerCatch_engine_calls]

theorem apiCatch_engine_calls (env : Env) (f g : DbSite) (st : Status) (script : String)
    (id : Nat) (msg : String) (data : Option String) :
    (apiCatch env f g st script id msg data).filter Event.isEngineCall = [] := by
  unfold apiCatch
  cases env.dbError f <;> cases env.dbError g <;> rfl

theorem apiThen_engine_calls (env : Env) (f g f2 g2 : DbSite) (c st : Status) (script : String)
    (id : Nat) : (apiThen env f g f2 g2 c st script id).filter Event.isEngineCall = [] := by
  unfold apiThen
  cases env.dbError f <;> cases env.dbError g <;>
    simp [List.filter_cons, Event.isEngineCall, apiCatch_engine_calls]

theorem answerBookCallback_engine_calls (env : Env) (id : Nat) :
    (answerBookCallback env id).filter Event.isEngineCall = [] := by
  unfold answerBookCallback
  cases env.answerBook <;>
    simp [List.filter_cons, Event.isEngineCall, apiCatch_engine_calls, apiThen_engine_calls]

theorem studentScriptCallback_engine_calls (env : Env) (id : Nat) :
    (studentScriptCallback env id).filter Event.isEngineCall = [] := by
  unfold studentScriptCallback
  cases env.studentScripts <;>
    simp [List.filter_cons, Event.isEngineCall, apiCatch_engine_calls, apiThen_engine_calls]

theorem studentScriptStage_engine_calls (env : Env) (doc : ProfessorUpload) :
    ((studentScriptStage env doc).filter Event.isEngineCall).Sublist
      [Event.postStudentScripts doc.id] := by
  unfold studentScriptStage
  cases env.dbError DbSite.findByIdFlask2 <;>
    cases env.dbError DbSite.saveStudentScriptStarted <;>
    simp [List.filter_cons, Event.isEngineCall, innerCatch_engine_calls]

theorem answerBookStage_engine_calls (env : Env) (s : Submission) (doc : ProfessorUpload)
    (d : Json) :
    ((answerBookStage env s doc d).filter Event.isEngineCall).Sublist
      [Event.postAnswerBook (answerBookPayload env s doc d),
       Event.postStudentScripts doc.id] := by
  unfold answerBookStage
  cases env.dbError DbSite.findByIdFlask1 with
  | some m => simp [List.filter_cons, Event.isEngineCall, innerCatch_engine_calls]
  | none =>
    cases env.dbError DbSite.saveAnswerBookStarted with
    | some m => simp [List.filter_cons, Event.isEngineCall, innerCatch_engine_calls]
    | none =>
      simp only [List.filter_cons, Event.isEngineCall, if_true, Bool.false_eq_true, if_false]
      exact (studentScriptStage_engine_calls env doc).cons₂ _

/-- The engine invocations of the main flow, in order: the parser, then the
answer-book POST, then the student-script POST, each at most once. -/
theorem background_engine_calls (env : Env) (s : Submission) (doc : ProfessorUpload) :
    ∃ payload, ((background env s doc).filter Event.isEngineCall).Sublist
      [Event.execParser (env.relative s.questionPaperFilePath),
       Event.postAnswerBook payload, Event.postStudentScripts doc.id] := by
  unfold background
  cases env.dbError DbSite.saveParsingStarted with
  | some m =>
    exact ⟨answerBookPayload env s doc "", by
      simp [List.filter_cons, Event.isEngineCall, innerCatch_engine_calls]⟩
  | none =>
    cases hp : env.parser with
    | rejected c so se msg =>
      exact ⟨answerBookPayload env s doc "", by
        simp [List.filter_cons, Event.isEngineCall, innerCatch_engine_calls]⟩
    | resolved so parsed =>
      cases parsed with
      | none =>
        exact ⟨answerBookPayload env s doc "", by
          simp [List.filter_cons, Event.isEngineCall, innerCatch_engine_calls]⟩
      | some d =>
        refine ⟨answerBookPayload env s doc d, ?_⟩
        cases env.dbError DbSite.saveQuestionsExtracted with
        | some m => simp [List.filter_cons, Event.isEngineCall, innerCatch_engine_calls]
        | none =>
          simp only [List.filter_cons, Event.isEngineCall, if_true, Bool.false_eq_true, if_false]
          exact (answerBookStage_engine_calls env s doc d).cons₂ _

theorem intake_engine_calls (env : Env) (req : ProfessorRequest) (db : Store) :
    (intake env req db).events.filter Event.isEngineCall = [] := by
  unfold intake
  repeat' split
  all_goals
    simp [List.filter_cons, List.filter_append, Event.isEngineCall, outerCatch_engine_calls]

/-- The engine invocations of a run of the professor upload, in order. -/
theorem professorUpload_engine_calls (env : Env) (sched : List Tid) (req : ProfessorRequest)
    (db : Store) :
    ∃ path payload id, ((professorUpload env sched req db).filter Event.isEngineCall).Sublist
      [Event.execParser path, Event.postAnswerBook payload, Event.postStudentScripts id] := by
  cases hd : (intake env req db).doc with
  | none =>
    refine ⟨"", answerBookPayload env sampleSubmission sampleRecord "", 0, ?_⟩
    simp [professorUpload, hd, intake_engine_calls]
  | some sd =>
    obtain ⟨s, doc⟩ := sd
    obtain ⟨payload, hb⟩ := background_engine_calls env s doc
    refine ⟨env.relative s.questionPaperFilePath, payload, doc.id, ?_⟩
    simp only [professorUpload, hd, List.filter_append, intake_engine_calls, List.nil_append,
      pipeline]
    refine ((haltAtExit_sublist _).filter _).trans ?_
    rw [interleave_filter_main]
    · exact hb
    · split
      · exact answerBookCallback_engine_calls env doc.id
      · rfl
    · split
      · exact studentScriptCallback_engine_calls env doc.id
      · rfl

/-- C21. In every run of the professor upload, under every schedule and for
every outcome of the store, the parser and the two APIs (a timeout of a POST
being a rejection of it): the engine invocations of the run, in order, form a
sublist of the launch of the parser, the answer-book POST, the student-script
POST; so each of the three engines is invoked at most once, and no failure
path issues a call again. -/
theorem engines_invoked_at_most_once (env : Env) (sched : List Tid) (req : ProfessorRequest)
    (db : Store) :
    (∃ path payload id, ((professorUpload env sched req db).filter Event.isEngineCall).Sublist
      [Event.execParser path, Event.postAnswerBook payload, Event.postStudentScripts id]) ∧
    (professorUpload env sched req db).countP Event.isExecParser ≤ 1 ∧
    (professorUpload env sched req db).countP Event.isPostAnswerBook ≤ 1 ∧
    (professorUpload env sched req db).countP Event.isPostStudentScripts ≤ 1 := by
  obtain ⟨path, payload, id, h⟩ := professorUpload_engine_calls env sched req db
  have hcount : ∀ Q : Event → Bool, (∀ e, Q e = true → e.isEngineCall = true) →
      (professorUpload env sched req db).countP Q =
        ((professorUpload env sched req db).filter Event.isEngineCall).countP Q := by
    intro Q hQ
    rw [List.countP_filter]
    apply List.countP_congr
    intro e _
    constructor
    · intro hq
      simp [hq, hQ e hq]
    · intro hq
      simp only [Bool.and_eq_true, decide_eq_true_eq] at hq
      simpa using hq.1
  have h1 : ∀ e : Event, e.isExecParser = true → e.isEngineCall = true := by
    intro e he
    cases e <;> first | rfl | exact absurd he (by simp [Event.isExecParser])
  have h2 : ∀ e : Event, e.isPostAnswerBook = true → e.isEngineCall = true := by
    intro e he
    cases e <;> first | rfl | exact absurd he (by simp [Event.isPostAnswerBook])
  have h3 : ∀ e : Event, e.isPostStudentScripts = true → e.isEngineCall = true := by
    intro e he
    cases e <;> first | rfl | exact absurd he (by simp [Event.isPostStudentScripts])
  refine ⟨⟨path, payload, id, h⟩, ?_, ?_, ?_⟩
  · rw [hcount _ h1]
    exact (h.countP_le _).trans (by simp [List.countP_cons, Event.isExecParser])
  · rw [hcount _ h2]
    exact (h.countP_le _).trans (by simp [List.countP_cons, Event.isPostAnswerBook])
  · rw [hcount _ h3]
    exact (h.countP_le _).trans (by simp [List.countP_cons, Event.isPostStudentScripts])


/-- A request that passes the guard of line 64 carries both files and a
non-empty text in each of the seven fields. -/
theorem ProfessorRequest.submission_present {req : ProfessorRequest} {s : Submission}
    (h : req.submission = some s) :
    req.questionPaper ≠ none ∧ req.bookAnswer ≠ none ∧ truthy req.course = true ∧
    truthy req.subject = true ∧ truthy req.subjectCode = true ∧ truthy req.semester = true ∧
    truthy req.year = true ∧ truthy req.examType = true ∧ truthy req.sectionType = true := by
  unfold ProfessorRequest.submission at h
  split at h
  · rename_i qp ba c sj sc sem yr et st h1 h2 h3 h4 h5 h6 h7 h8 h9
    split at h
    · rename_i hc
      simp only [Bool.and_eq_true, bne_iff_ne, ne_eq] at hc
      obtain ⟨⟨⟨⟨⟨⟨c1, c2⟩, c3⟩, c4⟩, c5⟩, c6⟩, c7⟩ := hc
      simp [h1, h2, h3, h4, h5, h6, h7, h8, h9, truthy, c1, c2, c3, c4, c5, c6, c7]
    · simp at h
  · simp at h

/-- The steps of the student-result handler for a request that fails its
validation. -/
theorem studentResult_invalid (env : MarksheetEnv) (req : ResultRequest)
    (h : truthy req.rollNo = false ∨ truthy req.subjectCode = false ∨
      truthy req.examType = false ∨ truthy req.year = false ∨ truthy req.semester = false ∨
      truthy req.course = false ∨ truthy req.sectionType = false ∨
      parseInt (req.year.getD "") = none ∨ parseInt (req.semester.getD "") = none) :
    ∃ body, studentResult env req = [ResultsEvent.respond 400 body] := by
  unfold studentResult
  by_cases h1 : (!truthy req.rollNo) = true
  · exact ⟨_, if_pos h1⟩
  · rw [if_neg h1]
    by_cases h2 : (!truthy req.subjectCode || !truthy req.examType || !truthy req.year ||
        !truthy req.semester || !truthy req.course || !truthy req.sectionType) = true
    · exact ⟨_, if_pos h2⟩
    · rw [if_neg h2]
      have hp : parseInt (req.year.getD "") = none ∨ parseInt (req.semester.getD "") = none := by
        have t0 : truthy req.rollNo = true := by simpa using h1
        have t1 : truthy req.subjectCode = true := by by_contra hc; apply h2; simp [hc]
        have t2 : truthy req.examType = true := by by_contra hc; apply h2; simp [hc]
        have t3 : truthy req.year = true := by by_contra hc; apply h2; simp [hc]
        have t4 : truthy req.semester = true := by by_contra hc; apply h2; simp [hc]
        have t5 : truthy req.course = true := by by_contra hc; apply h2; simp [hc]
        have t6 : truthy req.sectionType = true := by by_contra hc; apply h2; simp [hc]
        rcases h with h | h | h | h | h | h | h | h | h
        · rw [h] at t0; cases t0
        · rw [h] at t1; cases t1
        · rw [h] at t2; cases t2
        · rw [h] at t3; cases t3
        · rw [h] at t4; cases t4
        · rw [h] at t5; cases t5
        · rw [h] at t6; cases t6
        · exact Or.inl h
        · exact Or.inr h
      refine ⟨messageBody "Year and Semester must be valid numbers.", ?_⟩
      rcases hp with hp | hp
      · simp [hp]
      · cases hy : parseInt (req.year.getD "") <;> simp [hp]

/-- The steps of the combined-class-result handler for a request that fails
its validation. -/
theorem combinedClassResult_invalid (env : CombinedEnv) (req : CombinedRequest) (db : Store)
    (h : truthy req.subjectCode = false ∨ truthy req.examType = false ∨
      truthy req.year = false ∨ truthy req.semester = false ∨ truthy req.course = false ∨
      truthy req.sectionType = false ∨
      parseInt (req.year.getD "") = none ∨ parseInt (req.semester.getD "") = none) :
    ∃ body, combinedClassResult env req db = [ResultsEvent.respond 400 body] := by
  unfold combinedClassResult
  by_cases h2 : (!truthy req.subjectCode || !truthy req.examType || !truthy req.year ||
      !truthy req.semester || !truthy req.course || !truthy req.sectionType) = true
  · exact ⟨_, if_pos h2⟩
  · rw [if_neg h2]
    have hp : parseInt (req.year.getD "") = none ∨ parseInt (req.semester.getD "") = none := by
      have t1 : truthy req.subjectCode = true := by by_contra hc; apply h2; simp [hc]
      have t2 : truthy req.examType = true := by by_contra hc; apply h2; simp [hc]
      have t3 : truthy req.year = true := by by_contra hc; apply h2; simp [hc]
      have t4 : truthy req.semester = true := by by_contra hc; apply h2; simp [hc]
      have t5 : truthy req.course = true := by by_contra hc; apply h2; simp [hc]
      have t6 : truthy req.sectionType = true := by by_contra hc; apply h2; simp [hc]
      rcases h with h | h | h | h | h | h | h | h
      · rw [h] at t1; cases t1
      · rw [h] at t2; cases t2
      · rw [h] at t3; cases t3
      · rw [h] at t4; cases t4
      · rw [h] at t5; cases t5
      · rw [h] at t6; cases t6
      · exact Or.inl h
      · exact Or.inr h
    have hq : req.criteria = none := by
      unfold CombinedRequest.criteria
      rcases hp with hp | hp
      · simp [hp]
      · cases hy : parseInt (req.year.getD "") <;> simp [hp]
    exact ⟨messageBody "Year and Semester must be valid numbers.", by simp [hq]⟩

/-- The guards in general. A request stopped by a guard is answered with one
400, and that response is the whole run: nothing is written to the store and
no engine is launched. This holds for a multipart request to the professor
upload when the question paper, the book answer or one of course, subject,
subjectCode, semester, year, examType, sectionType is missing or empty,
whatever the store holds; for the student-result handler when rollNo or one of
the six criteria is missing or empty, or when `parseInt` of year or of
semester is `NaN`; and for the combined-class-result handler under the same
conditions on its six criteria. -/
theorem invalid_request_rejected :
    (∀ (env : Env) (sched : List Tid) (req : ProfessorRequest) (db : Store),
      req.multipart = true →
      (req.questionPaper = none ∨ req.bookAnswer = none ∨ truthy req.course = false ∨
        truthy req.subject = false ∨ truthy req.subjectCode = false ∨
        truthy req.semester = false ∨ truthy req.year = false ∨
        truthy req.examType = false ∨ truthy req.sectionType = false) →
      professorUpload env sched req db = [Event.respond 400 "Required fields missing." none] ∧
      applyTrace (professorUpload env sched req db) db = db ∧
      (professorUpload env sched req db).filter Event.isEngineCall = []) ∧
    (∀ (env : MarksheetEnv) (req : ResultRequest),
      (truthy req.rollNo = false ∨ truthy req.subjectCode = false ∨
        truthy req.examType = false ∨ truthy req.year = false ∨
        truthy req.semester = false ∨ truthy req.course = false ∨
        truthy req.sectionType = false ∨
        parseInt (req.year.getD "") = none ∨ parseInt (req.semester.getD "") = none) →
      (∃ body, studentResult env req = [ResultsEvent.respond 400 body]) ∧
      launches (studentResult env req) = [] ∧
      ∀ db : Store, applyResults (studentResult env req) db = db) ∧
    (∀ (env : CombinedEnv) (req : CombinedRequest) (db : Store),
      (truthy req.subjectCode = false ∨ truthy req.examType = false ∨
        truthy req.year = false ∨ truthy req.semester = false ∨ truthy req.course = false ∨
        truthy req.sectionType = false ∨
        parseInt (req.year.getD "") = none ∨ parseInt (req.semester.getD "") = none) →
      (∃ body, combinedClassResult env req db = [ResultsEvent.respond 400 body]) ∧
      launches (combinedClassResult env req db) = [] ∧
      applyResults (combinedClassResult env req db) db = db) := by
  refine ⟨?_, ?_, ?_⟩
  · intro env sched req db hm h
    have hs : req.submission = none := by
      cases hsub : req.submission with
      | none => rfl
      | some s =>
        obtain ⟨p1, p2, p3, p4, p5, p6, p7, p8, p9⟩ := ProfessorRequest.submission_present hsub
        rcases h with h | h | h | h | h | h | h | h | h
        · exact absurd h p1
        · exact absurd h p2
        · rw [h] at p3; cases p3
        · rw [h] at p4; cases p4
        · rw [h] at p5; cases p5
        · rw [h] at p6; cases p6
        · rw [h] at p7; cases p7
        · rw [h] at p8; cases p8
        · rw [h] at p9; cases p9
    have htr : professorUpload env sched req db =
        [Event.respond 400 "Required fields missing." none] := by
      simp [professorUpload, intake, hs, hm]
    rw [htr]
    exact ⟨rfl, rfl, rfl⟩
  · intro env req h
    obtain ⟨body, hb⟩ := studentResult_invalid env req h
    rw [hb]
    exact ⟨⟨body, rfl⟩, rfl, fun _ => rfl⟩
  · intro env req db h
    obtain ⟨body, hb⟩ := combinedClassResult_invalid env req db h
    rw [hb]
    exact ⟨⟨body, rfl⟩, rfl, rfl⟩


/-- What `parseInt` takes for a number: a text that starts with digits is
parsed up to the first other character, so `2024abc` passes the test of
`isNaN`. -/
theorem parseInt_reads_leading_digits : parseInt "2024abc" = some 2024 := by
  decide

/-- C22, the code at the failing inputs. First, the fields of a valid
submission sent to the professor upload as a JSON body, without files: the
request has no question paper and no book answer, yet it is not answered 400;
multer has left `req.files` undefined, line 60 throws before the guard of
line 64, and the exception is the whole run. Second, a year or semester that
starts with digits and goes on with other characters is read by `parseInt` up
to the first of them and passes the test of `isNaN`: the student-result
handler launches the marksheet engine for the year `2024abc`, the
combined-class-result handler launches the report engine and answers 202,
and the professor upload stores a record under semester 3 for the semester
`3rd`. -/
theorem malformed_requests_not_rejected :
    jsonBodyRequest.questionPaper = none ∧ jsonBodyRequest.bookAnswer = none ∧
    professorUpload sampleEnv [] jsonBodyRequest [] = [Event.uncaught 60] ∧
    responseCodes (professorUpload sampleEnv [] jsonBodyRequest []) = [] ∧
    parseInt "2024abc" = some 2024 ∧ parseInt "3rd" = some 3 ∧
    launches (studentResult scoringFailedEnv malformedYearRequest) =
      ["Marksheet_Generator.py"] ∧
    (responses (studentResult scoringFailedEnv malformedYearRequest)).map Prod.fst = [422] ∧
    launches (combinedClassResult pendingReportEnv malformedYearCombined [sampleRecord]) =
      ["Combined_Results.py"] ∧
    (responses (combinedClassResult pendingReportEnv malformedYearCombined
      [sampleRecord])).map Prod.fst = [202] ∧
    responseCodes (professorUpload sampleEnv [] malformedSemesterRequest []) = [201] ∧
    (applyTrace (professorUpload sampleEnv [] malformedSemesterRequest []) []).map
      (fun r => r.semester) = [3] :=
  ⟨rfl, rfl, by decide, by decide, by decide, by decide, rfl, rfl, rfl, rfl, by decide,
    by decide⟩


theorem Patch.apply_origin (p : Patch) (r : ProfessorUpload) :
    (p.apply r).origin = r.origin := rfl

/-- No step changes the owner, the input paths, the exam key or the time of
upload of a stored record. -/
theorem Event.apply_keeps_origin (e : Event) (db : Store) (j : Nat) (r : ProfessorUpload)
    (hj : db.findById j = some r) :
    ∃ r1, (e.apply db).findById j = some r1 ∧ r1.origin = r.origin := by
  cases e with
  | insert doc => exact ⟨r, Store.findById_append_of_some db doc r j hj, rfl⟩
  | save site id p =>
    simp only [Event.apply, Store.findById_update, hj, Option.map_some']
    by_cases hij : id = j
    · simp only [hij, if_true]
      exact ⟨_, rfl, Patch.apply_origin p r⟩
    · simp only [hij, if_false]
      exact ⟨_, rfl, rfl⟩
  | findByIdAndUpdate id p =>
    simp only [Event.apply, Store.findById_update, hj, Option.map_some']
    by_cases hij : id = j
    · simp only [hij, if_true]
      exact ⟨_, rfl, Patch.apply_origin p r⟩
    · simp only [hij, if_false]
      exact ⟨_, rfl, rfl⟩
  | _ => exact ⟨r, hj, rfl⟩

theorem applyTrace_keeps_origin (trace : List Event) (db : Store) (j : Nat)
    (r : ProfessorUpload) (hj : db.findById j = some r) :
    ∃ r1, (applyTrace trace db).findById j = some r1 ∧ r1.origin = r.origin := by
  induction trace generalizing db r with
  | nil => exact ⟨r, hj, rfl⟩
  | cons e es ih =>
    obtain ⟨r1, h1, e1⟩ := Event.apply_keeps_origin e db j r hj
    obtain ⟨r2, h2, e2⟩ := ih (e.apply db) r1 h1
    exact ⟨r2, by rw [applyTrace_cons]; exact h2, e2.trans e1⟩

/-- C23. A submission that passes the guard and whose lookup finds a record
`r` (the record its id names): after the whole run, for every submitting user,
every uploaded question-paper and book-answer file, every schedule and every
outcome of the store and the engines, the record under that id has the
username, questionPaper, bookAnswer, exam-key fields and uploadedAt that `r`
had; the merge itself is a save to that record which pushes the submitted
script paths and assigns nothing else. -/
theorem merge_keeps_origin (env : Env) (sched : List Tid) (req : ProfessorRequest)
    (db : Store) (s : Submission) (r : ProfessorUpload)
    (hs : req.submission = some s) (hfind : db.findOne s.query = some r)
    (hid : db.findById r.id = some r) :
    (∃ r1, (applyTrace (professorUpload env sched req db) db).findById r.id = some r1 ∧
      r1.username = r.username ∧ r1.questionPaper = r.questionPaper ∧
      r1.bookAnswer = r.bookAnswer ∧ r1.examKey = r.examKey ∧
      r1.uploadedAt = r.uploadedAt) ∧
    (∀ e ∈ (intake env req db).events, ∀ site id p, e = Event.save site id p →
      site = DbSite.saveMerge ∧ id = r.id ∧
      p = { Patch.none with pushScripts := s.studentScriptPaths }) := by
  refine ⟨?_, ?_⟩
  · obtain ⟨r1, h1, e1⟩ := applyTrace_keeps_origin (professorUpload env sched req db) db r.id r hid
    simp only [ProfessorUpload.origin, Prod.mk.injEq] at e1
    obtain ⟨a, b, c, d, e⟩ := e1
    exact ⟨r1, h1, a, b, c, d, e⟩
  · intro e he site id p hp
    subst hp
    cases h1 : env.dbError DbSite.findOne with
    | some m => simp [intake, hs, h1, outerCatch] at he
    | none =>
      cases h2 : env.dbError DbSite.saveMerge with
      | some m => simp [intake, hs, h1, h2, hfind, outerCatch] at he
      | none =>
        simp [intake, hs, h1, h2, hfind] at he
        obtain ⟨rfl, rfl, rfl⟩ := he
        exact ⟨rfl, rfl, rfl⟩

/-- Witness for C23: another professor re-submits the exam of `sampleRecord`
with new question-paper and book-answer files. -/
theorem merge_keeps_origin_witness :
    ∃ r1, (applyTrace (professorUpload sampleEnv [] otherProfessorRequest [sampleRecord])
        [sampleRecord]).findById sampleRecord.id = some r1 ∧
      r1.username = sampleRecord.username ∧ r1.questionPaper = sampleRecord.questionPaper ∧
      r1.bookAnswer = sampleRecord.bookAnswer ∧ r1.examKey = sampleRecord.examKey ∧
      r1.uploadedAt = sampleRecord.uploadedAt :=
  (merge_keeps_origin sampleEnv [] otherProfessorRequest [sampleRecord]
    { sampleSubmission with
      questionPaperFilePath := "uploads/professor/questionPaper-9.pdf"
      bookAnswerFilePath := "uploads/professor/bookAnswer-9.pdf" }
    sampleRecord (by decide) (by decide) (by decide)).1


theorem outerCatch_assignsJson (env : Env) (sent : Bool) (doc : Option Nat) (msg : String) :
    (outerCatch env sent doc msg).filter Event.assignsJson = [] := by
  unfold outerCatch
  cases sent <;> cases doc <;> cases env.dbError DbSite.findByIdAndUpdate <;> rfl

theorem innerCatch_assignsJson_none (env : Env) (id : Nat) (p : Patch)
    (hp : p.processedJSON = Option.none) (t : Thrown) :
    (innerCatch env id p t).filter Event.assignsJson = [] := by
  unfold innerCatch
  cases env.dbError DbSite.saveParsingFailed <;>
    simp [List.filter_cons, Event.assignsJson, outerCatch_assignsJson, Patch.merge,
      Patch.setFailure, Patch.none, hp]

theorem innerCatch_assignsJson_some (env : Env) (id : Nat) (p : Patch) (d : Json)
    (hp : p.processedJSON = some d) (t : Thrown) :
    (innerCatch env id p t).filter Event.assignsJson = [] ∨
    ∃ q, q.processedJSON = some d ∧
      (innerCatch env id p t).filter Event.assignsJson =
        [Event.save DbSite.saveParsingFailed id q] := by
  unfold innerCatch
  cases env.dbError DbSite.saveParsingFailed with
  | some m =>
    left
    simp [List.filter_cons, Event.assignsJson, outerCatch_assignsJson]
  | none =>
    right
    have hq : (p.merge (Patch.setFailure Status.question_parsing_failed
        (parserErrorDetails t))).processedJSON = some d := by
      simp [Patch.merge, Patch.setFailure, Patch.none, hp]
    exact ⟨_, hq, by simp [List.filter_cons, Event.assignsJson, hq]⟩

theorem studentScriptStage_assignsJson (env : Env) (doc : ProfessorUpload) :
    (studentScriptStage env doc).filter Event.assignsJson = [] := by
  unfold studentScriptStage
  have hi := fun t => innerCatch_assignsJson_none env doc.id Patch.none rfl t
  have hset : ∀ st, (Patch.setStatus st).processedJSON = Option.none := fun _ => rfl
  cases env.dbError DbSite.findByIdFlask2 <;>
    cases env.dbError DbSite.saveStudentScriptStarted <;>
    simp [List.filter_cons, Event.assignsJson, hi, hset]

theorem answerBookStage_assignsJson (env : Env) (s : Submission) (doc : ProfessorUpload)
    (d : Json) : (answerBookStage env s doc d).filter Event.assignsJson = [] := by
  unfold answerBookStage
  have hi := fun t => innerCatch_assignsJson_none env doc.id Patch.none rfl t
  have hset : ∀ st, (Patch.setStatus st).processedJSON = Option.none := fun _ => rfl
  cases env.dbError DbSite.findByIdFlask1 <;> cases env.dbError DbSite.saveAnswerBookStarted <;>
    simp [List.filter_cons, Event.assignsJson, hi, studentScriptStage_assignsJson,
      hset]

theorem apiCatch_assignsJson (env : Env) (f g : DbSite) (st : Status) (script : String)
    (id : Nat) (msg : String) (data : Option String) :
    (apiCatch env f g st script id msg data).filter Event.assignsJson = [] := by
  unfold apiCatch
  cases env.dbError f <;> cases env.dbError g <;> rfl

theorem apiThen_assignsJson (env : Env) (f g f2 g2 : DbSite) (c st : Status) (script : String)
    (id : Nat) : (apiThen env f g f2 g2 c st script id).filter Event.assignsJson = [] := by
  have hset : ∀ st, (Patch.setStatus st).processedJSON = Option.none := fun _ => rfl
  unfold apiThen
  cases env.dbError f <;> cases env.dbError g <;>
    simp [List.filter_cons, Event.assignsJson, apiCatch_assignsJson, hset]

theorem answerBookCallback_assignsJson (env : Env) (id : Nat) :
    (answerBookCallback env id).filter Event.assignsJson = [] := by
  unfold answerBookCallback
  cases env.answerBook <;>
    simp [List.filter_cons, Event.assignsJson, apiCatch_assignsJson, apiThen_assignsJson]

theorem studentScriptCallback_assignsJson (env : Env) (id : Nat) :
    (studentScriptCallback env id).filter Event.assignsJson = [] := by
  unfold studentScriptCallback
  cases env.studentScripts <;>
    simp [List.filter_cons, Event.assignsJson, apiCatch_assignsJson, apiThen_assignsJson]

/-- The main flow assigns `processedJSON` at most once, and then with the
output of the parser. -/
theorem background_assignsJson (env : Env) (s : Submission) (doc : ProfessorUpload) :
    (background env s doc).filter Event.assignsJson = [] ∨
    ∃ stdout d site p, env.parser = ParserOutcome.resolved stdout (some d) ∧
      p.processedJSON = some d ∧
      (background env s doc).filter Event.assignsJson = [Event.save site doc.id p] := by
  unfold background
  have hi := fun t => innerCatch_assignsJson_none env doc.id Patch.none rfl t
  have hset : ∀ st, (Patch.setStatus st).processedJSON = Option.none := fun _ => rfl
  have hst := fun t => innerCatch_assignsJson_none env doc.id
    (Patch.setStatus Status.question_parsing_started) rfl t
  cases env.dbError DbSite.saveParsingStarted with
  | some m =>
    left
    simp [List.filter_cons, Event.assignsJson, hst]
  | none =>
    cases hp : env.parser with
    | rejected c so se msg =>
      left
      simp [List.filter_cons, Event.assignsJson, hi, hset]
    | resolved so parsed =>
      cases parsed with
      | none =>
        left
        simp [List.filter_cons, Event.assignsJson, hi, hset]
      | some d =>
        cases env.dbError DbSite.saveQuestionsExtracted with
        | some m =>
          rcases innerCatch_assignsJson_some env doc.id (questionsExtractedPatch d) d rfl
            Thrown.plain with h | ⟨q, hq, h⟩
          · left
            simp [List.filter_cons, Event.assignsJson, h, hset]
          · right
            exact ⟨so, d, DbSite.saveParsingFailed, q, rfl, hq, by
              simp [List.filter_cons, Event.assignsJson, h, hset]⟩
        | none =>
          right
          exact ⟨so, d, DbSite.saveQuestionsExtracted, questionsExtractedPatch d, rfl, rfl, by
            simp [List.filter_cons, Event.assignsJson, answerBookStage_assignsJson,
              hset, questionsExtractedPatch]⟩

theorem intake_assignsJson (env : Env) (req : ProfessorRequest) (db : Store) :
    (intake env req db).events.filter Event.assignsJson = [] := by
  unfold intake
  repeat' split
  all_goals
    simp [List.filter_cons, List.filter_append, Event.assignsJson, outerCatch_assignsJson,
      mergePatch, Patch.none]

/-- A prefix cut at the first exit keeps a list of at most one filtered
element or drops it. -/
theorem sublist_singleton_cases {l : List Event} {x : Event} (h : l.Sublist [x]) :
    l = [] ∨ l = [x] := by
  cases l with
  | nil => exact Or.inl rfl
  | cons y ys =>
    right
    have hlen := h.length_le
    cases ys with
    | nil =>
      have := h.subset (List.mem_cons_self _ _)
      simp at this
      rw [this]
    | cons z zs => simp at hlen

/-- In a run of the professor upload `processedJSON` is assigned at most
once, and then with the output of the parser of that run. -/
theorem professorUpload_assignsJson (env : Env) (sched : List Tid) (req : ProfessorRequest)
    (db : Store) :
    (professorUpload env sched req db).filter Event.assignsJson = [] ∨
    ∃ stdout d site id p, env.parser = ParserOutcome.resolved stdout (some d) ∧
      p.processedJSON = some d ∧
      (professorUpload env sched req db).filter Event.assignsJson = [Event.save site id p] := by
  cases hd : (intake env req db).doc with
  | none =>
    left
    simp [professorUpload, hd, intake_assignsJson]
  | some sd =>
    obtain ⟨s, doc⟩ := sd
    have hsub : ((professorUpload env sched req db).filter Event.assignsJson).Sublist
        ((background env s doc).filter Event.assignsJson) := by
      simp only [professorUpload, hd, List.filter_append, intake_assignsJson, List.nil_append,
        pipeline]
      refine ((haltAtExit_sublist _).filter _).trans ?_
      rw [interleave_filter_main]
      · split
        · exact answerBookCallback_assignsJson env doc.id
        · rfl
      · split
        · exact studentScriptCallback_assignsJson env doc.id
        · rfl
    rcases background_assignsJson env s doc with h | ⟨stdout, d, site, p, hp, hpd, h⟩
    · left
      rw [h] at hsub
      exact List.sublist_nil.mp hsub
    · rw [h] at hsub
      rcases sublist_singleton_cases hsub with h0 | h1
      · exact Or.inl h0
      · exact Or.inr ⟨stdout, d, site, doc.id, p, hp, hpd, h1⟩


/-- Every step of the main flow occurs in an interleaving. -/
theorem mem_interleave_of_main {e : Event} (sched : List Tid) (m a s : List Event)
    (h : e ∈ m) : e ∈ interleave sched m a s := by
  induction sched generalizing m a s with
  | nil => simp [interleave, h]
  | cons t sched ih =>
    cases t with
    | main =>
      cases m with
      | nil => simp at h
      | cons x xs =>
        simp only [interleave, List.mem_cons]
        rcases List.mem_cons.mp h with h | h
        · exact Or.inl h
        · exact Or.inr (ih xs a s h)
    | answerBook =>
      cases a with
      | nil => simpa [interleave] using ih m [] s h
      | cons x xs =>
        simp only [interleave]
        split
        · exact ih m (x :: xs) s h
        · exact List.mem_cons_of_mem _ (ih m xs s h)
    | studentScript =>
      cases s with
      | nil => simpa [interleave] using ih m a [] h
      | cons x xs =>
        simp only [interleave]
        split
        · exact ih m a (x :: xs) h
        · exact List.mem_cons_of_mem _ (ih m a xs h)

/-- Without store errors and with a parsed question paper the background
processing is the interleaving of the whole main flow with both callbacks; no
step exits the process. -/
theorem pipeline_ok (env : Env) (sched : List Tid) (s : Submission) (doc : ProfessorUpload)
    (stdout : String) (data : Json) (hdb : ∀ site, env.dbError site = none)
    (hp : env.parser = ParserOutcome.resolved stdout (some data)) :
    pipeline env sched s doc =
      interleave sched
        (mainBeforeSecondPost env s doc stdout data ++ [Event.postStudentScripts doc.id])
        (answerBookCallback env doc.id) (studentScriptCallback env doc.id) := by
  have hb := background_ok env s doc stdout data hdb hp
  have hca := answerBookCallback_ok env doc.id hdb
  have hcs := studentScriptCallback_ok env doc.id hdb
  have hany1 : (background env s doc).any Event.isPostAnswerBook = true := by
    rw [hb]; simp [mainBeforeSecondPost, Event.isPostAnswerBook]
  have hany2 : (background env s doc).any Event.isPostStudentScripts = true := by
    rw [hb]; simp [Event.isPostStudentScripts]
  have hxne : answerBookTerminalWrite doc.id env.answerBook ≠ Event.processExit := by
    cases env.answerBook <;> simp [answerBookTerminalWrite]
  have hyne : studentScriptTerminalWrite doc.id env.studentScripts ≠ Event.processExit := by
    cases env.studentScripts <;> simp [studentScriptTerminalWrite]
  have hexit : Event.processExit ∉
      interleave sched (background env s doc) (answerBookCallback env doc.id)
        (studentScriptCallback env doc.id) := by
    intro hmem
    rcases mem_interleave _ _ _ _ hmem with h | h | h
    · rw [hb] at h
      simp [mainBeforeSecondPost] at h
    · rw [hca] at h
      simp at h
      exact hxne h.symm
    · rw [hcs] at h
      simp at h
      exact hyne h.symm
  unfold pipeline
  simp only [hany1, hany2, if_true]
  rw [haltAtExit_eq_self _ hexit, hb]

/-- Without store errors and with a parsed question paper, the record of an
accepted submission ends with the output of the parser in `processedJSON`,
whatever it held before. -/
theorem final_processedJSON {env : Env} {req : ProfessorRequest} {db : Store} {s : Submission}
    {doc : ProfessorUpload} (sched : List Tid) (stdout : String) (data : Json)
    (hdoc : (intake env req db).doc = some (s, doc))
    (hdb : ∀ site, env.dbError site = none)
    (hp : env.parser = ParserOutcome.resolved stdout (some data)) :
    ((applyTrace (professorUpload env sched req db) db).findById doc.id).map
      (fun x => x.processedJSON) = some data := by
  obtain ⟨r1, _, hfinal⟩ := final_record sched hdoc
  have hb := background_ok env s doc stdout data hdb hp
  have hjson : ∀ x ∈ pipeline env sched s doc, x.writesJsonOnly data = true := by
    apply pipeline_forall
    · intro y hy
      rw [hb] at hy
      simp [mainBeforeSecondPost] at hy
      rcases hy with hy | hy | hy | hy | hy | hy | hy | hy | hy | hy <;> subst hy <;>
        simp [Event.writesJsonOnly, Patch.setStatus, Patch.none, questionsExtractedPatch]
    · exact fun y hy =>
        List.all_eq_true.mp (answerBookCallback_writesJsonOnly env doc.id data) y hy
    · exact fun y hy =>
        List.all_eq_true.mp (studentScriptCallback_writesJsonOnly env doc.id data) y hy
  have hsave : Event.save DbSite.saveQuestionsExtracted doc.id (questionsExtractedPatch data) ∈
      pipeline env sched s doc := by
    rw [pipeline_ok env sched s doc stdout data hdb hp]
    apply mem_interleave_of_main
    simp [mainBeforeSecondPost]
  have hjs := tracePatch_json_of_mem data doc.id _ hjson _ hsave
    (by simp [Event.patchAt, questionsExtractedPatch])
  rw [hfinal]
  simp [Patch.strict_apply, hjs]

/-- C24, counterexample. A record holds the parsed questions `[0]` of a
completed run. The same exam is submitted again and merged; the parser runs
again and prints `[1]`; the record ends with `[1]` in `processedJSON`. -/
theorem merged_resubmission_overwrites_json :
    parsedRecord.processedJSON = "[0]" ∧
    (applyTrace (professorUpload allSucceedEnv [] sampleRequest [parsedRecord])
        [parsedRecord]).map (fun x => x.processedJSON) = ["[1]"] := by
  decide

/-- C24, amended. Within one run of the professor upload, under every schedule
and for every outcome of the store and the engines, `processedJSON` is
assigned by at most one write, and that write holds the output of the parser
of this run. Every accepted submission starts such a run, a merged
re-submission included: when the parser succeeds and the store raises no
error, the record ends with the new output in `processedJSON`, whatever an
earlier run had stored there. -/
theorem processedJSON_written_once_per_run (env : Env) (sched : List Tid)
    (req : ProfessorRequest) (db : Store) :
    ((professorUpload env sched req db).filter Event.assignsJson = [] ∨
      ∃ stdout d site id p, env.parser = ParserOutcome.resolved stdout (some d) ∧
        p.processedJSON = some d ∧
        (professorUpload env sched req db).filter Event.assignsJson =
          [Event.save site id p]) ∧
    (∀ s doc stdout data, (intake env req db).doc = some (s, doc) →
      (∀ site, env.dbError site = none) →
      env.parser = ParserOutcome.resolved stdout (some data) →
      ((applyTrace (professorUpload env sched req db) db).findById doc.id).map
        (fun x => x.processedJSON) = some data) :=
  ⟨professorUpload_assignsJson env sched req db,
   fun _ _ stdout data hdoc hdb hp => final_processedJSON sched stdout data hdoc hdb hp⟩

/-- Witness for the amended C24: the merged re-submission of the counterexample
ends with the new parser output. -/
theorem processedJSON_written_once_per_run_witness :
    ((applyTrace (professorUpload allSucceedEnv [] sampleRequest [parsedRecord])
        [parsedRecord]).findById ((mergePatch sampleSubmission).apply parsedRecord).id).map
      (fun x => x.processedJSON) = some "[1]" :=
  (processedJSON_written_once_per_run allSucceedEnv [] sampleRequest [parsedRecord]).2
    sampleSubmission ((mergePatch sampleSubmission).apply parsedRecord) "[1]\n" "[1]"
    (by decide) (fun _ => rfl) rfl


/-- C30. For every list of roles and every request, the middleware returned
by `authorizeRoles(roles)` calls `next` exactly when the request carries a
user whose role is a member of the list, and otherwise answers 403 without
calling `next`; a request without a user is answered 403 for every list, also
for a list that contains `undefined`. -/
theorem authorizeRoles_next_iff (roles : List (Option String)) (user : Option TokenPayload) :
    (authorizeRoles roles user = Gate.next ↔ ∃ u, user = some u ∧ u.role ∈ roles) ∧
    (authorizeRoles roles user = Gate.next ∨
      authorizeRoles roles user = Gate.respond 403 "Unauthorized: Insufficient role") ∧
    authorizeRoles roles none = Gate.respond 403 "Unauthorized: Insufficient role" ∧
    authorizeRoles (none :: roles) none =
      Gate.respond 403 "Unauthorized: Insufficient role" := by
  refine ⟨?_, ?_, rfl, rfl⟩
  · cases user with
    | none => simp [authorizeRoles]
    | some u =>
      by_cases h : u.role ∈ roles
      · simp [authorizeRoles, h]
      · simp [authorizeRoles, h]
  · cases user with
    | none => exact Or.inr rfl
    | some u =>
      by_cases h : u.role ∈ roles
      · exact Or.inl (by simp [authorizeRoles, h])
      · exact Or.inr (by simp [authorizeRoles, h])


theorem responseCodes_append (l1 l2 : List Event) :
    responseCodes (l1 ++ l2) = responseCodes l1 ++ responseCodes l2 := by
  induction l1 with
  | nil => rfl
  | cons e es ih => cases e <;> simp [responseCodes, ih]

theorem responseCodes_of_quiet (l : List Event) (h : ∀ e ∈ l, e.isQuiet = true) :
    responseCodes l = [] := by
  induction l with
  | nil => rfl
  | cons e es ih =>
    have he := h e (List.mem_cons_self _ _)
    have hes := ih (fun x hx => h x (List.mem_cons_of_mem _ hx))
    cases e with
    | respond code message uploadId => simp [Event.isQuiet] at he
    | _ => simpa [responseCodes] using hes

theorem outerCatch_quiet (env : Env) (id : Option Nat) (msg : String) :
    (outerCatch env true id msg).all Event.isQuiet = true := by
  unfold outerCatch
  cases id <;> try cases env.dbError DbSite.findByIdAndUpdate
  all_goals rfl

theorem innerCatch_quiet (env : Env) (id : Nat) (p : Patch) (t : Thrown) :
    (innerCatch env id p t).all Event.isQuiet = true := by
  unfold innerCatch
  cases env.dbError DbSite.saveParsingFailed <;>
    simp [List.all_cons, Event.isQuiet, outerCatch_quiet]

theorem studentScriptStage_quiet (env : Env) (doc : ProfessorUpload) :
    (studentScriptStage env doc).all Event.isQuiet = true := by
  unfold studentScriptStage
  cases env.dbError DbSite.findByIdFlask2 <;>
    cases env.dbError DbSite.saveStudentScriptStarted <;>
    simp [List.all_cons, Event.isQuiet, innerCatch_quiet]

theorem answerBookStage_quiet (env : Env) (s : Submission) (doc : ProfessorUpload)
    (d : Json) : (answerBookStage env s doc d).all Event.isQuiet = true := by
  unfold answerBookStage
  cases env.dbError DbSite.findByIdFlask1 <;> cases env.dbError DbSite.saveAnswerBookStarted <;>
    simp [List.all_cons, Event.isQuiet, innerCatch_quiet, studentScriptStage_quiet]

theorem background_quiet (env : Env) (s : Submission) (doc : ProfessorUpload) :
    (background env s doc).all Event.isQuiet = true := by
  unfold background
  cases env.dbError DbSite.saveParsingStarted <;>
    cases env.dbError DbSite.saveQuestionsExtracted <;>
    rcases env.parser with ⟨c, so, se, msg⟩ | ⟨so, _ | d⟩ <;>
    simp [List.all_cons, Event.isQuiet, innerCatch_quiet, answerBookStage_quiet]

theorem apiCatch_quiet (env : Env) (f g : DbSite) (st : Status) (script : String) (id : Nat)
    (msg : String) (data : Option String) :
    (apiCatch env f g st script id msg data).all Event.isQuiet = true := by
  unfold apiCatch
  cases env.dbError f <;> cases env.dbError g <;> rfl

theorem apiThen_quiet (env : Env) (f g f2 g2 : DbSite) (c st : Status) (script : String)
    (id : Nat) : (apiThen env f g f2 g2 c st script id).all Event.isQuiet = true := by
  unfold apiThen
  cases env.dbError f <;> cases env.dbError g <;>
    simp [List.all_cons, Event.isQuiet, apiCatch_quiet]

theorem answerBookCallback_quiet (env : Env) (id : Nat) :
    (answerBookCallback env id).all Event.isQuiet = true := by
  unfold answerBookCallback
  cases env.answerBook <;> simp [List.all_cons, Event.isQuiet, apiCatch_quiet, apiThen_quiet]

theorem studentScriptCallback_quiet (env : Env) (id : Nat) :
    (studentScriptCallback env id).all Event.isQuiet = true := by
  unfold studentScriptCallback
  cases env.studentScripts <;>
    simp [List.all_cons, Event.isQuiet, apiCatch_quiet, apiThen_quiet]

/-- The background processing sends no response, whatever fails in it. -/
theorem pipeline_no_response (env : Env) (sched : List Tid) (s : Submission)
    (doc : ProfessorUpload) : responseCodes (pipeline env sched s doc) = [] := by
  apply responseCodes_of_quiet
  apply pipeline_forall
  · exact fun e he => List.all_eq_true.mp (background_quiet env s doc) e he
  · exact fun e he => List.all_eq_true.mp (answerBookCallback_quiet env doc.id) e he
  · exact fun e he => List.all_eq_true.mp (studentScriptCallback_quiet env doc.id) e he

/-- The one response of the synchronous part, by the path taken. -/
theorem intake_response (env : Env) (req : ProfessorRequest) (db : Store) :
    responseCodes (intake env req db).events =
      match req.submission with
      | none => if req.multipart then [400] else []
      | some s =>
        match env.dbError DbSite.findOne with
        | some _ => [500]
        | none =>
          match db.findOne s.query with
          | some _ =>
            match env.dbError DbSite.saveMerge with
            | some _ => [500]
            | none => [200]
          | none =>
            match env.dbError DbSite.saveCreate with
            | some _ => [500]
            | none =>
              match (newProfessorUpload env req.user s db.freshId).filter schemaValid with
              | none => [500]
              | some _ => [201] := by
  unfold intake
  repeat' split
  all_goals simp_all [responseCodes, outerCatch]


/-- The responses of a multipart request in general. For every multipart
request to the professor upload, every schedule and every outcome of the
store and the engines, exactly one response is sent in the run. It is sent by
the synchronous part: 400 when the guard of line 64 fails; 500 when the lookup
fails; for a found record 200, or 500 when the save of the merge fails; for an
unseen key 201, or 500 when the save of the new record fails. The background
processing sends none, whatever fails in it. -/
theorem exactly_one_response (env : Env) (sched : List Tid) (req : ProfessorRequest)
    (db : Store) (hm : req.multipart = true) :
    (∃ code, responseCodes (professorUpload env sched req db) = [code] ∧
      (code = 400 ∨ code = 200 ∨ code = 201 ∨ code = 500)) ∧
    responseCodes (professorUpload env sched req db) =
      (match req.submission with
       | none => [400]
       | some s =>
         match env.dbError DbSite.findOne with
         | some _ => [500]
         | none =>
           match db.findOne s.query with
           | some _ =>
             match env.dbError DbSite.saveMerge with
             | some _ => [500]
             | none => [200]
           | none =>
             match env.dbError DbSite.saveCreate with
             | some _ => [500]
             | none =>
               match (newProfessorUpload env req.user s db.freshId).filter schemaValid with
               | none => [500]
               | some _ => [201]) ∧
    (∀ s doc, responseCodes (pipeline env sched s doc) = []) := by
  have hrun : responseCodes (professorUpload env sched req db) =
      responseCodes (intake env req db).events := by
    cases hd : (intake env req db).doc with
    | none => simp only [professorUpload, hd]
    | some sd =>
      obtain ⟨s, doc⟩ := sd
      simp only [professorUpload, hd, responseCodes_append, pipeline_no_response,
        List.append_nil]
  have hmatch := intake_response env req db
  rw [hm] at hmatch
  simp only [if_true] at hmatch
  refine ⟨?_, hrun.trans hmatch, fun s doc => pipeline_no_response env sched s doc⟩
  rw [hrun, hmatch]
  repeat' split
  all_goals simp

/-- C29, the code at the failing input. A request to the professor upload
that is not multipart, here the fields of a valid submission sent as a JSON
body: multer leaves `req.files` undefined, the read of line 60 throws a
`TypeError` before the guard of line 64 and outside every `try`, and the run
of the handler is that exception alone, whatever the store holds and the
engines would answer: the handler sends no response, neither the 400 for the
missing files nor any other, and the store is left as it was. -/
theorem non_multipart_request_unanswered :
    jsonBodyRequest.multipart = false ∧
    (∀ (env : Env) (sched : List Tid) (db : Store),
      professorUpload env sched jsonBodyRequest db = [Event.uncaught 60] ∧
      responseCodes (professorUpload env sched jsonBodyRequest db) = [] ∧
      applyTrace (professorUpload env sched jsonBodyRequest db) db = db) ∧
    responseCodes (professorUpload sampleEnv [] jsonBodyRequest [sampleRecord]) ≠ [400] :=
  ⟨rfl, fun _ _ _ => ⟨rfl, rfl, rfl⟩, by decide⟩


/-- A step of the combined-class-result handler changes nothing in the store:
its only write is an update whose `$set` names no path of the schema. -/
theorem ResultsEvent.combinedOnly_apply_eq {e : ResultsEvent} (h : e.combinedOnly = true)
    (db : Store) : e.apply db = db := by
  cases e with
  | findByIdAndUpdate id p =>
    simp only [ResultsEvent.apply]
    apply Store.update_of_strict_none
    cases p with
    | mk ps pe pj pp pa pb pc =>
      simp [ResultsEvent.combinedOnly, Patch.combinedOnly] at h
      obtain ⟨⟨⟨ha, hb⟩, hc⟩, hd⟩ := h
      subst ha hb hc hd
      rfl
  | _ => rfl

theorem applyResults_combinedOnly_eq (trace : List ResultsEvent)
    (h : trace.all ResultsEvent.combinedOnly = true) (db : Store) :
    applyResults trace db = db := by
  induction trace generalizing db with
  | nil => rfl
  | cons e es ih =>
    simp only [List.all_cons, Bool.and_eq_true] at h
    show applyResults es (e.apply db) = db
    rw [ResultsEvent.combinedOnly_apply_eq h.1]
    exact ih h.2 db

/-- The combined-class-result handler in general: whatever the request, the
store and the outcome of the process, the collection after the run is the
collection before it; and when the callback of `exec` receives an error and
the update raises none, the handler does issue the update of lines 258-264,
whose `$set` names combinedResultGenerationStatus, combinedResultErrorMessage
(the process error message and at most the first 500 characters of stderr)
and combinedResultProcessedAt. -/
theorem combined_failure_update (env : CombinedEnv) (req : CombinedRequest) (db : Store)
    (q : CriteriaQuery) (doc : ProfessorUpload)
    (hreq : truthy req.subjectCode = true ∧ truthy req.examType = true ∧
      truthy req.year = true ∧ truthy req.semester = true ∧ truthy req.course = true ∧
      truthy req.sectionType = true)
    (hq : req.criteria = some q) (hfind : env.findError = none)
    (hlaunch : env.launchError = none) (hdoc : db.findOneByCriteria q = some doc) :
    applyResults (combinedClassResult env req db) db = db ∧
    (∀ message code stdout stderr,
      env.script = some (ExecOutcome.error message code stdout stderr) →
      env.updateError = none →
      (combinedClassResult env req db).getLast? =
        some (ResultsEvent.findByIdAndUpdate doc.id
          (combinedFailurePatch env.now message stderr)) ∧
      (combinedFailurePatch env.now message stderr).combinedResultGenerationStatus =
        some "error_script_execution" ∧
      (combinedFailurePatch env.now message stderr).combinedResultErrorMessage =
        some ("Python script execution failed: " ++ message ++ ". Stderr: " ++
          substring0 stderr 500) ∧
      (substring0 stderr 500).data = stderr.data.take 500 ∧
      (substring0 stderr 500).length ≤ 500 ∧
      (combinedFailurePatch env.now message stderr).strict = Patch.none) := by
  have hv := combinedClassResult_valid env req db q hreq hq hfind
  rw [hdoc, hlaunch] at hv
  simp only at hv
  refine ⟨?_, ?_⟩
  · exact applyResults_combinedOnly_eq _ (combinedClassResult_combinedOnly env req db) db
  · intro message code stdout stderr hs hu
    refine ⟨?_, rfl, rfl, rfl, ?_, rfl⟩
    · rw [hv]
      simp [combinedCallback, hs, hu]
    · show (stderr.data.take 500).length ≤ 500
      exact List.length_take_le _ _

/-- C27, the code at the failing input. The combined report is requested for
the exam of a stored record and the process exits with an error. The handler
answers 202 and, in the callback, issues the update of lines 258-264 with
status `error_script_execution` and the message built from the process error
and its stderr. But the three keys of the `$set` are no paths of the schema:
the update is stripped and the record is left exactly as it was, without a
combined-report status and without an error message. -/
theorem combined_failure_not_recorded :
    combinedClassResult failedReportEnv sampleCombinedRequest [sampleRecord] =
      [ResultsEvent.findOne sampleCriteria,
       ResultsEvent.exec "Combined_Results.py" (combinedArgs sampleCriteria) combinedOptions,
       ResultsEvent.respond 202 (acceptedBody "1"),
       ResultsEvent.execSettled (ExecOutcome.error "Command failed: python3" none "" "Traceback"),
       ResultsEvent.findByIdAndUpdate 1
         (combinedFailurePatch 1700000500 "Command failed: python3" "Traceback")] ∧
    (combinedFailurePatch 1700000500 "Command failed: python3"
        "Traceback").combinedResultGenerationStatus = some "error_script_execution" ∧
    (combinedFailurePatch 1700000500 "Command failed: python3"
        "Traceback").combinedResultErrorMessage =
      some "Python script execution failed: Command failed: python3. Stderr: Traceback" ∧
    applyResults (combinedClassResult failedReportEnv sampleCombinedRequest [sampleRecord])
      [sampleRecord] = [sampleRecord] ∧
    sampleRecord.combinedResultGenerationStatus = none ∧
    sampleRecord.combinedResultErrorMessage = none := by
  refine ⟨rfl, by decide, by decide, by decide, rfl, rfl⟩

theorem marksheetSettled_is_response (env : MarksheetEnv) :
    ∃ code body, marksheetSettled env = ResultsEvent.respond code body := by
  unfold marksheetSettled
  cases env.script with
  | error m c so se => exact ⟨_, _, rfl⟩
  | ok so se =>
    simp only
    split
    · exact ⟨_, _, rfl⟩
    · cases hparse : env.jsonParse (jsTrim so) with
      | none => exact ⟨_, _, rfl⟩
      | some payload =>
        obtain ⟨code, body, hresp, _⟩ := marksheetResponse_code env payload
        exact ⟨code, body, hresp⟩

/-- Every launch made by the student-result handler carries the options of
lines 128-132. -/
theorem studentResult_exec_options (env : MarksheetEnv) (req : ResultRequest) :
    ∀ e ∈ studentResult env req, ∀ script args options,
      e = ResultsEvent.exec script args options → options = marksheetOptions := by
  intro e he script args options hshape
  subst hshape
  obtain ⟨code, body, hset⟩ := marksheetSettled_is_response env
  unfold studentResult at he
  split at he
  · simp at he
  · split at he
    · simp at he
    · split at he
      · simp only [hset, List.mem_cons, List.mem_singleton, List.not_mem_nil, or_false] at he
        rcases he with h | h | h
        · cases h; rfl
        · cases h
        · cases h
      · simp at he

theorem combinedCallback_no_exec (env : CombinedEnv) (id : Nat) :
    launches (combinedCallback env id) = [] ∧
    ∀ e ∈ combinedCallback env id, ∀ script args options,
      e ≠ ResultsEvent.exec script args options := by
  refine ⟨combinedCallback_no_launch env id, ?_⟩
  intro e he script args options hshape
  subst hshape
  unfold combinedCallback at he
  cases hs : env.script with
  | none => simp [hs] at he
  | some o =>
    cases o with
    | ok stdout stderr => simp [hs] at he
    | error message code stdout stderr =>
      cases hu : env.updateError <;> simp [hs, hu] at he

/-- Every launch made by the combined-class-result handler carries the options
of lines 235-239. -/
theorem combinedClassResult_exec_options (env : CombinedEnv) (req : CombinedRequest)
    (db : Store) :
    ∀ e ∈ combinedClassResult env req db, ∀ script args options,
      e = ResultsEvent.exec script args options → options = combinedOptions := by
  intro e he script args options hshape
  subst hshape
  unfold combinedClassResult at he
  split at he
  · simp at he
  · cases hq : req.criteria with
    | none => simp [hq] at he
    | some q =>
      cases hf : env.findError with
      | some m => simp [hq, hf] at he
      | none =>
        cases hd : db.findOneByCriteria q with
        | none => simp [hq, hf, hd] at he
        | some doc =>
          cases hl : env.launchError with
          | some m => simp [hq, hf, hd, hl] at he
          | none =>
            simp only [hq, hf, hd, hl, List.mem_append, List.mem_cons, List.mem_singleton,
              List.not_mem_nil, or_false] at he
            rcases he with (h | h | h) | h
            · cases h
            · cases h; rfl
            · cases h
            · exact absurd rfl ((combinedCallback_no_exec env doc.id).2 _ h script args options)

/-- C26, counterexample. In the sample run of the professor upload the parser
is launched, and the options of that launch hold no `timeout`; the same holds
for the launch of the marksheet generator and of the combined-results
process. -/
theorem process_launched_without_timeout :
    (∃ e ∈ professorUpload sampleEnv [] sampleRequest [],
      e.isExecParser = true ∧ e.callTimeout = some none) ∧
    (∃ e ∈ studentResult scoringFailedEnv sampleResultRequest,
      e.callTimeout = some none) ∧
    (∃ e ∈ combinedClassResult pendingReportEnv sampleCombinedRequest [sampleRecord],
      e.callTimeout = some none) := by
  refine ⟨⟨Event.execParser "uploads/professor/questionPaper-1.pdf", by decide, rfl, rfl⟩,
    ⟨ResultsEvent.exec "Marksheet_Generator.py"
      ["--roll_no", "21CS042", "--course", "BTech", "--subject_code", "CS301",
       "--exam_type", "CT1", "--year", numberToString 2024, "--semester",
       numberToString 5, "--section", "A", "--mode", "student"] marksheetOptions, ?_, rfl⟩,
    ⟨ResultsEvent.exec "Combined_Results.py" (combinedArgs sampleCriteria) combinedOptions,
      ?_, rfl⟩⟩
  · have h : studentResult scoringFailedEnv sampleResultRequest =
        [ResultsEvent.exec "Marksheet_Generator.py"
          ["--roll_no", "21CS042", "--course", "BTech", "--subject_code", "CS301",
           "--exam_type", "CT1", "--year", numberToString 2024, "--semester",
           numberToString 5, "--section", "A", "--mode", "student"] marksheetOptions,
         ResultsEvent.execSettled scoringFailedEnv.script,
         marksheetSettled scoringFailedEnv] := by
      rfl
    rw [h]
    exact List.mem_cons_self _ _
  · have h : combinedClassResult pendingReportEnv sampleCombinedRequest [sampleRecord] =
        [ResultsEvent.findOne sampleCriteria,
         ResultsEvent.exec "Combined_Results.py" (combinedArgs sampleCriteria) combinedOptions,
         ResultsEvent.respond 202 (acceptedBody (pendingReportEnv.idText sampleRecord.id))] := by
      rfl
    rw [h]
    simp

/-- C26, amended. In every run of the professor upload the POST to the
answer-book API carries a timeout of 15 minutes and the POST to the
student-script API one of 30 minutes, and the launch of the question parser
carries none; every launch made by the student-result handler and by the
combined-class-result handler carries no timeout either: the options of the
three processes hold a buffer limit only, so their duration has no bound. -/
theorem timeouts_on_requests_only :
    (∀ (env : Env) (sched : List Tid) (req : ProfessorRequest) (db : Store),
      ∀ e ∈ professorUpload env sched req db,
        (e.isPostAnswerBook = true → e.callTimeout = some (some 900000)) ∧
        (e.isPostStudentScripts = true → e.callTimeout = some (some 1800000)) ∧
        (e.isExecParser = true → e.callTimeout = some none) ∧
        (e.isEngineCall = false → e.callTimeout = none)) ∧
    (∀ (env : MarksheetEnv) (req : ResultRequest),
      ∀ e ∈ studentResult env req, ∀ script args options,
        e = ResultsEvent.exec script args options →
        options.timeout = none ∧ options.maxBuffer = 15 * 1024 * 1024) ∧
    (∀ (env : CombinedEnv) (req : CombinedRequest) (db : Store),
      ∀ e ∈ combinedClassResult env req db, ∀ script args options,
        e = ResultsEvent.exec script args options →
        options.timeout = none ∧ options.maxBuffer = 25 * 1024 * 1024) := by
  refine ⟨?_, ?_, ?_⟩
  · intro env sched req db e _
    cases e <;>
      simp [Event.isPostAnswerBook, Event.isPostStudentScripts, Event.isExecParser,
        Event.isEngineCall, Event.callTimeout, answerBookConfig, studentScriptConfig,
        parserOptions]
  · intro env req e he script args options hshape
    rw [studentResult_exec_options env req e he script args options hshape]
    exact ⟨rfl, rfl⟩
  · intro env req db e he script args options hshape
    rw [combinedClassResult_exec_options env req db e he script args options hshape]
    exact ⟨rfl, rfl⟩

/-- Witness for the amended C26: the launch of the marksheet generator in the
sample world carries no timeout. -/
theorem timeouts_on_requests_only_witness :
    marksheetOptions.timeout = none ∧ marksheetOptions.maxBuffer = 15 * 1024 * 1024 :=
  timeouts_on_requests_only.2.1 scoringFailedEnv sampleResultRequest
    (ResultsEvent.exec "Marksheet_Generator.py"
      ["--roll_no", "21CS042", "--course", "BTech", "--subject_code", "CS301",
       "--exam_type", "CT1", "--year", numberToString 2024, "--semester",
       numberToString 5, "--section", "A", "--mode", "student"] marksheetOptions)
    (List.mem_cons_self _ _) _ _ _ rfl


/-- The lookup followed at once by the write has the effect of the synchronous
part of the handler on the collection. -/
theorem intake_as_lookup_then_write (env : Env) (req : ProfessorRequest) (db : Store) :
    applyTrace (intake env req db).events db =
      applyTrace (writeStep env req (lookupStep env req db) db) db := by
  cases hs : req.submission with
  | none =>
    cases hm : req.multipart <;>
      simp [intake, lookupStep, hs, hm, writeStep, applyTrace, Event.apply]
  | some s =>
    cases h1 : env.dbError DbSite.findOne with
    | some m =>
      simp [intake, lookupStep, hs, h1, outerCatch, applyTrace, Event.apply, writeStep]
    | none =>
      cases hf : db.findOne s.query with
      | some r =>
        cases h2 : env.dbError DbSite.saveMerge <;>
          simp [intake, lookupStep, hs, h1, hf, outerCatch, applyTrace, Event.apply, writeStep,
            h2]
      | none =>
        cases h2 : env.dbError DbSite.saveCreate with
        | some m =>
          simp [intake, lookupStep, hs, h1, hf, outerCatch, applyTrace, Event.apply, writeStep,
            h2]
        | none =>
          cases hn : (newProfessorUpload env req.user s db.freshId).filter schemaValid <;>
            simp [intake, lookupStep, hs, h1, hf, outerCatch, applyTrace, Event.apply,
              writeStep, h2, hn]

/-- C25, counterexample. Two submissions of the same exam, under a key the
empty store has not seen, with no store error: both lookups run before either
write, both find nothing, both create, and the store ends with two records
under the same exam key. -/
theorem concurrent_submissions_duplicate_key :
    ((race allSucceedEnv allSucceedEnv sampleRequest sampleRequest
        [true, false, true, false] []).db.map ProfessorUpload.examKey) =
      [sampleRecord.examKey, sampleRecord.examKey] ∧
    (race allSucceedEnv allSucceedEnv sampleRequest sampleRequest
        [true, false, true, false] []).first = Phase.done ∧
    (race allSucceedEnv allSucceedEnv sampleRequest sampleRequest
        [true, false, true, false] []).second = Phase.done := by
  decide


/-- C25, amended. Two submissions carrying the same exam key, which the store
has not seen, with no store error and both passing the schema. If both lookups
run before either write, both requests create a record and the store ends with
two records under the same exam key: the schema declares no unique index and
the handler does not retry. If the second lookup runs after the first write
and finds the record just created, the second request merges into it and the
store ends with one new record. -/
theorem race_outcome (env1 env2 : Env) (req1 req2 : ProfessorRequest) (db : Store)
    (s1 s2 : Submission) (d1 d2 : ProfessorUpload)
    (hs1 : req1.submission = some s1) (hs2 : req2.submission = some s2)
    (hkey : s1.query = s2.query) (hunseen : db.findOne s1.query = none)
    (he1 : env1.dbError DbSite.findOne = none ∧ env1.dbError DbSite.saveCreate = none)
    (he2 : env2.dbError DbSite.findOne = none ∧ env2.dbError DbSite.saveCreate = none ∧
      env2.dbError DbSite.saveMerge = none)
    (hd1 : (newProfessorUpload env1 req1.user s1 db.freshId).filter schemaValid = some d1)
    (hd2 : (newProfessorUpload env2 req2.user s2 (db ++ [d1]).freshId).filter schemaValid =
      some d2) :
    ((race env1 env2 req1 req2 [true, false, true, false] db).db = db ++ [d1, d2] ∧
      (race env1 env2 req1 req2 [false, true, true, false] db).db = db ++ [d1, d2] ∧
      d1.examKey = d2.examKey) ∧
    (s2.query.matches d1 = true →
      (race env1 env2 req1 req2 [true, true, false, false] db).db =
        Store.update d1.id (mergePatch s2) (db ++ [d1]) ∧
      (race env1 env2 req1 req2 [true, true, false, false] db).db.length = db.length + 1) := by
  have hunseen2 : db.findOne s2.query = none := by rw [← hkey]; exact hunseen
  have hl1 : lookupStep env1 req1 db = Looked.missing s1 := by
    simp [lookupStep, hs1, he1.1, hunseen]
  have hl2 : lookupStep env2 req2 db = Looked.missing s2 := by
    simp [lookupStep, hs2, he2.1, hunseen2]
  have hw1 : ∀ x, writeStep env1 req1 (Looked.missing s1) db = x → x = [Event.insert d1] := by
    intro x hx
    rw [← hx]
    simp [writeStep, he1.2, hd1]
  have hw2 : writeStep env2 req2 (Looked.missing s2) (db ++ [d1]) = [Event.insert d2] := by
    simp [writeStep, he2.2.1, hd2]
  have hn1 := (Option.filter_eq_some.mp hd1).1
  have hn2 := (Option.filter_eq_some.mp hd2).1
  have f1 := newProfessorUpload_fields hn1
  have f2 := newProfessorUpload_fields hn2
  have hq : s1.course = s2.course ∧ s1.subject = s2.subject ∧
      s1.subjectCode = s2.subjectCode ∧ parseInt s1.semester = parseInt s2.semester ∧
      parseInt s1.year = parseInt s2.year ∧ s1.examType = s2.examType ∧
      s1.sectionType = s2.sectionType := by
    simp only [Submission.query, ExamQuery.mk.injEq] at hkey
    exact hkey
  have hkeys : d1.examKey = d2.examKey := by
    obtain ⟨_, _, _, _, _, _, a1, a2, a3, a4, a5, a6, a7⟩ := f1
    obtain ⟨_, _, _, _, _, _, b1, b2, b3, b4, b5, b6, b7⟩ := f2
    obtain ⟨q1, q2, q3, q4, q5, q6, q7⟩ := hq
    have e4 : d1.examKey.semester = d2.examKey.semester := by
      have : some d1.examKey.semester = some d2.examKey.semester := by rw [a4, b4, q4]
      exact Option.some.inj this
    have e5 : d1.examKey.year = d2.examKey.year := by
      have : some d1.examKey.year = some d2.examKey.year := by rw [a5, b5, q5]
      exact Option.some.inj this
    cases hk1 : d1.examKey
    cases hk2 : d2.examKey
    simp only [hk1, hk2] at a1 a2 a3 a6 a7 b1 b2 b3 b6 b7 e4 e5
    simp only [ExamKey.mk.injEq]
    exact ⟨by rw [a1, b1, q1], by rw [a2, b2, q2], by rw [a3, b3, q3], e4, e5,
      by rw [a6, b6, q6], by rw [a7, b7, q7]⟩
  have hw1' := hw1 _ rfl
  refine ⟨⟨?_, ?_, hkeys⟩, ?_⟩
  · simp [race, Race.step, hl1, hl2, hw1', hw2, applyTrace_cons, applyTrace_nil, Event.apply]
  · simp [race, Race.step, hl1, hl2, hw1', hw2, applyTrace_cons, applyTrace_nil, Event.apply]
  · intro hmatch
    have hfind : (db ++ [d1]).findOne s2.query = some d1 := by
      unfold Store.findOne at hunseen2 ⊢
      simp [List.find?_append, hunseen2, List.find?_cons, hmatch]
    have hl3 : lookupStep env2 req2 (db ++ [d1]) = Looked.found s2 d1 := by
      simp [lookupStep, hs2, he2.1, hfind]
    have hw3 : writeStep env2 req2 (Looked.found s2 d1) (db ++ [d1]) =
        [Event.save DbSite.saveMerge d1.id (mergePatch s2)] := by
      simp [writeStep, he2.2.2]
    have hfinal : (race env1 env2 req1 req2 [true, true, false, false] db).db =
        Store.update d1.id (mergePatch s2) (db ++ [d1]) := by
      simp [race, Race.step, hl1, hl3, hw1', hw3, applyTrace_cons, applyTrace_nil, Event.apply]
    refine ⟨hfinal, ?_⟩
    rw [hfinal, Store.update_length]
    simp


/-- Witness for the amended C25: two submissions of `sampleRequest` on the
empty store, both lookups first. -/
theorem race_outcome_witness :
    (race allSucceedEnv allSucceedEnv sampleRequest sampleRequest [true, false, true, false]
      []).db = [] ++ [sampleCreated, sampleCreatedAgain] ∧
    sampleCreated.examKey = sampleCreatedAgain.examKey :=
  ⟨(race_outcome allSucceedEnv allSucceedEnv sampleRequest sampleRequest [] sampleSubmission
      sampleSubmission sampleCreated sampleCreatedAgain (by decide) (by decide) rfl (by decide)
      (by decide) (by decide) (by decide) (by decide)).1.1,
   (race_outcome allSucceedEnv allSucceedEnv sampleRequest sampleRequest [] sampleSubmission
      sampleSubmission sampleCreated sampleCreatedAgain (by decide) (by decide) rfl (by decide)
      (by decide) (by decide) (by decide) (by decide)).1.2.2⟩


/-- An interleaving holds the steps of the three flows, each once. -/
theorem interleave_perm (sched : List Tid) (m a s : List Event) :
    (interleave sched m a s).Perm (m ++ a ++ s) := by
  induction sched generalizing m a s with
  | nil => simp [interleave]
  | cons t sched ih =>
    cases t with
    | main =>
      cases m with
      | nil => simpa [interleave] using ih [] a s
      | cons x xs =>
        simp only [interleave, List.cons_append]
        exact (ih xs a s).cons x
    | answerBook =>
      cases a with
      | nil => simpa [interleave] using ih m [] s
      | cons x xs =>
        simp only [interleave]
        split
        · exact ih m (x :: xs) s
        · refine ((ih m xs s).cons x).trans ?_
          simp only [List.append_assoc, List.cons_append]
          exact List.perm_middle.symm
    | studentScript =>
      cases s with
      | nil => simpa [interleave] using ih m a []
      | cons x xs =>
        simp only [interleave]
        split
        · exact ih m a (x :: xs)
        · refine ((ih m a xs).cons x).trans ?_
          exact List.perm_middle.symm

/-- Until the main flow issues its first POST no callback can move: the
interleaving starts with the main flow up to that POST. -/
theorem interleave_until_first_post (sched : List Tid) (m1 : List Event) (pa : Event)
    (rest a s : List Event) (hpa : pa.isPostAnswerBook = true)
    (hrest : rest.any Event.isPostStudentScripts = true) :
    ∃ sched', interleave sched (m1 ++ pa :: rest) a s =
      m1 ++ pa :: interleave sched' rest a s := by
  have hg1 : ∀ l : List Event, (l ++ pa :: rest).any Event.isPostAnswerBook = true := by
    intro l
    simp [List.any_append, hpa]
  have hg2 : ∀ l : List Event, (l ++ pa :: rest).any Event.isPostStudentScripts = true := by
    intro l
    simp only [List.any_append, List.any_cons, hrest, Bool.or_true]
  induction sched generalizing m1 a s with
  | nil => exact ⟨[], by simp [interleave]⟩
  | cons t sched ih =>
    cases t with
    | main =>
      cases m1 with
      | nil => exact ⟨sched, by simp [interleave]⟩
      | cons x xs =>
        obtain ⟨sched', h⟩ := ih xs a s
        exact ⟨sched', by simp [interleave, h]⟩
    | answerBook =>
      cases a with
      | nil =>
        obtain ⟨sched', h⟩ := ih m1 [] s
        exact ⟨sched', by simpa [interleave] using h⟩
      | cons x xs =>
        obtain ⟨sched', h⟩ := ih m1 (x :: xs) s
        exact ⟨sched', by simp only [interleave, hg1 m1, if_true]; exact h⟩
    | studentScript =>
      cases s with
      | nil =>
        obtain ⟨sched', h⟩ := ih m1 a []
        exact ⟨sched', by simpa [interleave] using h⟩
      | cons x xs =>
        obtain ⟨sched', h⟩ := ih m1 a (x :: xs)
        exact ⟨sched', by simp only [interleave, hg2 m1, if_true]; exact h⟩

/-- After the first POST and up to the second, the main flow is interleaved
with a first part of the answer-book callback; after the second POST the rest
of that callback is interleaved with the student-script callback. -/
theorem interleave_between_posts (sched : List Tid) (m0 a s : List Event) (p : Event)
    (hp : p.isPostStudentScripts = true) :
    ∃ a1 a2 X Y, a = a1 ++ a2 ∧ interleave sched (m0 ++ [p]) a s = X ++ p :: Y ∧
      X.Perm (m0 ++ a1) ∧ Y.Perm (a2 ++ s) := by
  obtain ⟨sched', a1, a2, X, ha, hL, _, _⟩ := interleave_split_at_last sched m0 a s p hp
  refine ⟨a1, a2, X, interleave sched' [] a2 s, ha, hL, ?_, ?_⟩
  · have h1 := interleave_perm sched (m0 ++ [p]) a s
    rw [hL, ha] at h1
    have h2 := interleave_perm sched' [] a2 s
    simp only [List.nil_append] at h2
    have h3 : (X ++ p :: (a2 ++ s)).Perm (m0 ++ [p] ++ (a1 ++ a2) ++ s) :=
      ((h2.cons p).append_left X).symm.trans h1
    have h4 : (m0 ++ [p] ++ (a1 ++ a2) ++ s).Perm ((m0 ++ a1) ++ p :: (a2 ++ s)) := by
      have h5 : ([p] ++ (a1 ++ a2) ++ s).Perm (a1 ++ p :: (a2 ++ s)) := by
        simp only [List.singleton_append, List.cons_append, List.append_assoc,
          List.nil_append]
        exact List.perm_middle.symm
      simpa [List.append_assoc] using List.Perm.append_left m0 h5
    exact (List.perm_append_right_iff _).mp (h3.trans h4)
  · simpa using interleave_perm sched' [] a2 s

theorem perm_pair_cases {l : List Status} {x y : Status} (h : l.Perm [x, y]) :
    l = [x, y] ∨ l = [y, x] := by
  have hlen := h.length_eq
  match l, h, hlen with
  | [u, v], h, _ =>
    have hu : u ∈ [x, y] := h.subset (List.mem_cons_self _ _)
    simp only [List.mem_cons, List.mem_singleton, List.not_mem_nil, or_false] at hu
    rcases hu with rfl | rfl
    · have := (List.perm_cons u).mp h
      left
      rw [List.perm_singleton.mp this]
    · have h2 : ([u, v] : List Status).Perm [u, x] := h.trans (List.Perm.swap _ _ _)
      have := (List.perm_cons u).mp h2
      right
      rw [List.perm_singleton.mp this]

/-- The status in the patch of a run is the last one a step of it assigns. -/
theorem tracePatch_status_getLast (j : Nat) (l : List Event) :
    (tracePatch j l).status = (l.filterMap (fun e => (e.patchAt j).status)).getLast? := by
  induction l with
  | nil => rfl
  | cons e es ih =>
    rw [tracePatch_cons]
    cases he : (e.patchAt j).status with
    | none =>
      simp only [List.filterMap_cons, he]
      rw [← ih]
      simp [Patch.merge, he]
    | some t =>
      simp only [List.filterMap_cons, he]
      rw [List.getLast?_cons, ← ih]
      cases hs : (tracePatch j es).status <;> simp [Patch.merge, he, hs]


/-- The status assignments of a successful run in general. A submission under
an unseen exam key in which the parser and both engine calls succeed and no
store error occurs, under every schedule. The handler assigns, each time
before a save, question_parsing_started, questions_extracted and
answer_book_processing_started in this order, followed by
student_script_api_processing_started, answer_book_processing_completed and
student_script_api_processing_completed in one of three orders: started,
answer-book completed, student-script completed; started, student-script
completed, answer-book completed; or answer-book completed, started,
student-script completed. `upload_received` is not among them: the
constructor dropped it. None of the saves stores a status: the record has none
when the run has ended. -/
theorem statuses_assigned_in_successful_run (env : Env) (sched : List Tid)
    (req : ProfessorRequest)
    (db : Store) (s : Submission) (doc : ProfessorUpload) (stdout : String) (data : Json)
    (x y : String)
    (hdoc : (intake env req db).doc = some (s, doc)) (hunseen : db.findOne s.query = none)
    (hdb : ∀ site, env.dbError site = none)
    (hp : env.parser = ParserOutcome.resolved stdout (some data))
    (ha : env.answerBook = ApiOutcome.fulfilled x)
    (hs : env.studentScripts = ApiOutcome.fulfilled y) :
    (statusesAssigned (professorUpload env sched req db) =
        [Status.question_parsing_started, Status.questions_extracted,
         Status.answer_book_processing_started, Status.student_script_api_processing_started,
         Status.answer_book_processing_completed,
         Status.student_script_api_processing_completed] ∨
      statusesAssigned (professorUpload env sched req db) =
        [Status.question_parsing_started, Status.questions_extracted,
         Status.answer_book_processing_started, Status.student_script_api_processing_started,
         Status.student_script_api_processing_completed,
         Status.answer_book_processing_completed] ∨
      statusesAssigned (professorUpload env sched req db) =
        [Status.question_parsing_started, Status.questions_extracted,
         Status.answer_book_processing_started, Status.answer_book_processing_completed,
         Status.student_script_api_processing_started,
         Status.student_script_api_processing_completed]) ∧
    ((applyTrace (professorUpload env sched req db) db).findById doc.id).map
        (fun r => r.status) = some none := by
  -- the synchronous part
  have hin : (intake env req db).events =
      [Event.findOne s.query, Event.insert doc,
       Event.respond 201 "Upload received. Background processing started." (some doc.id)] ∧
      doc.status = none ∧ doc.id = db.freshId := by
    rcases (intake_accepted hdoc).2 with ⟨r, hf, _, _⟩ | ⟨_, hn, _, hev⟩
    · rw [hunseen] at hf
      cases hf
    · exact ⟨hev, (newProfessorUpload_fields hn).2.1, (newProfessorUpload_fields hn).1⟩
  have htr : professorUpload env sched req db =
      (intake env req db).events ++ pipeline env sched s doc := by
    simp [professorUpload, hdoc]
  -- the background processing
  have hpl := pipeline_ok env sched s doc stdout data hdb hp
  have hca := answerBookCallback_ok env doc.id hdb
  have hcs := studentScriptCallback_ok env doc.id hdb
  rw [ha] at hca
  rw [hs] at hcs
  simp only [answerBookFindSite, answerBookTerminalWrite] at hca
  simp only [studentScriptFindSite, studentScriptTerminalWrite] at hcs
  obtain ⟨sched1, h1⟩ := interleave_until_first_post sched
    [Event.save DbSite.saveParsingStarted doc.id
       (Patch.setStatus Status.question_parsing_started),
     Event.execParser (env.relative s.questionPaperFilePath),
     Event.parserSettled (ParserOutcome.resolved stdout (some data)),
     Event.save DbSite.saveQuestionsExtracted doc.id (questionsExtractedPatch data),
     Event.findById DbSite.findByIdFlask1 doc.id,
     Event.save DbSite.saveAnswerBookStarted doc.id
       (Patch.setStatus Status.answer_book_processing_started)]
    (Event.postAnswerBook (answerBookPayload env s doc data))
    ([Event.findById DbSite.findByIdFlask2 doc.id,
      Event.save DbSite.saveStudentScriptStarted doc.id
        (Patch.setStatus Status.student_script_api_processing_started)] ++
      [Event.postStudentScripts doc.id])
    (answerBookCallback env doc.id) (studentScriptCallback env doc.id) rfl
    (by simp [Event.isPostStudentScripts])
  obtain ⟨a1, a2, X, Y, haa, h2, hX, hY⟩ := interleave_between_posts sched1
    [Event.findById DbSite.findByIdFlask2 doc.id,
     Event.save DbSite.saveStudentScriptStarted doc.id
       (Patch.setStatus Status.student_script_api_processing_started)]
    (answerBookCallback env doc.id) (studentScriptCallback env doc.id)
    (Event.postStudentScripts doc.id) rfl
  have hshape : pipeline env sched s doc =
      [Event.save DbSite.saveParsingStarted doc.id
         (Patch.setStatus Status.question_parsing_started),
       Event.execParser (env.relative s.questionPaperFilePath),
       Event.parserSettled (ParserOutcome.resolved stdout (some data)),
       Event.save DbSite.saveQuestionsExtracted doc.id (questionsExtractedPatch data),
       Event.findById DbSite.findByIdFlask1 doc.id,
       Event.save DbSite.saveAnswerBookStarted doc.id
         (Patch.setStatus Status.answer_book_processing_started)] ++
      Event.postAnswerBook (answerBookPayload env s doc data) ::
        (X ++ Event.postStudentScripts doc.id :: Y) := by
    rw [hpl, ← h2, ← h1]
    simp [mainBeforeSecondPost]
  have hXs : (statusesAssigned X).Perm
      (Status.student_script_api_processing_started :: statusesAssigned a1) := by
    have := hX.filterMap Event.statusAssigned
    simpa [statusesAssigned, List.filterMap_append, List.filterMap_cons, Event.statusAssigned,
      Patch.setStatus, Patch.none] using this
  have hYs : (statusesAssigned Y).Perm
      (statusesAssigned a2 ++ [Status.student_script_api_processing_completed]) := by
    have := hY.filterMap Event.statusAssigned
    rw [hcs] at this
    simpa [statusesAssigned, List.filterMap_append, List.filterMap_cons, Event.statusAssigned,
      Patch.setStatus, Patch.none] using this
  have hsplit : statusesAssigned a1 ++ statusesAssigned a2 =
      [Status.answer_book_processing_completed] := by
    have : statusesAssigned (a1 ++ a2) = [Status.answer_book_processing_completed] := by
      rw [← haa, hca]
      simp [statusesAssigned, List.filterMap_cons, Event.statusAssigned, Patch.setStatus,
        Patch.none]
    simpa [statusesAssigned, List.filterMap_append] using this
  have hSLp : statusesAssigned (pipeline env sched s doc) =
      [Status.question_parsing_started, Status.questions_extracted,
       Status.answer_book_processing_started] ++ statusesAssigned X ++ statusesAssigned Y := by
    rw [hshape]
    simp [statusesAssigned, List.filterMap_append, List.filterMap_cons, Event.statusAssigned,
      Patch.setStatus, Patch.none, questionsExtractedPatch]
  have hcases : statusesAssigned (pipeline env sched s doc) =
        [Status.question_parsing_started, Status.questions_extracted,
         Status.answer_book_processing_started, Status.student_script_api_processing_started,
         Status.answer_book_processing_completed,
         Status.student_script_api_processing_completed] ∨
      statusesAssigned (pipeline env sched s doc) =
        [Status.question_parsing_started, Status.questions_extracted,
         Status.answer_book_processing_started, Status.student_script_api_processing_started,
         Status.student_script_api_processing_completed,
         Status.answer_book_processing_completed] ∨
      statusesAssigned (pipeline env sched s doc) =
        [Status.question_parsing_started, Status.questions_extracted,
         Status.answer_book_processing_started, Status.answer_book_processing_completed,
         Status.student_script_api_processing_started,
         Status.student_script_api_processing_completed] := by
    rw [hSLp]
    cases h1a : statusesAssigned a1 with
    | nil =>
      rw [h1a] at hsplit hXs
      simp only [List.nil_append] at hsplit
      rw [hsplit] at hYs
      have hXe := List.perm_singleton.mp hXs
      rcases perm_pair_cases hYs with hYe | hYe
      · left; rw [hXe, hYe]; rfl
      · right; left; rw [hXe, hYe]; rfl
    | cons t ts =>
      rw [h1a] at hsplit hXs
      simp only [List.cons_append, List.cons.injEq] at hsplit
      obtain ⟨rfl, hrest⟩ := hsplit
      have hts : ts = [] := (List.append_eq_nil.mp hrest).1
      have h2a : statusesAssigned a2 = [] := (List.append_eq_nil.mp hrest).2
      subst hts
      rw [h2a] at hYs
      simp only [List.nil_append] at hYs
      have hYe := List.perm_singleton.mp hYs
      rcases perm_pair_cases hXs with hXe | hXe
      · left; rw [hXe, hYe]; rfl
      · right; right; rw [hXe, hYe]; rfl
  have hSL : statusesAssigned (professorUpload env sched req db) =
      statusesAssigned (pipeline env sched s doc) := by
    rw [htr, hin.1]
    simp [statusesAssigned, List.filterMap_append, List.filterMap_cons, Event.statusAssigned,
      hin.2.1]
  -- the stored status
  obtain ⟨r1, hr1, hfinal⟩ := final_record sched hdoc
  have hr1doc : r1 = doc := by
    rw [hin.1] at hr1
    have := Store.findById_append_fresh db doc hin.2.2
    simp only [applyTrace, List.foldl_cons, List.foldl_nil, Event.apply] at hr1
    rw [this] at hr1
    exact (Option.some.inj hr1).symm
  refine ⟨?_, ?_⟩
  · rw [hSL]
    exact hcases
  · rw [hfinal, hr1doc]
    simp [(Patch.strict_apply_status _ doc).1, hin.2.1]

/-- C28, the code at the failing input. The first submission of an exam, on
the empty collection, with the parser and both APIs succeeding and no store
error. The inserted document has no status: `upload_received` of line 100 is
dropped by the constructor. The handler then assigns six statuses, each before
a save; on the plain schedule they follow the order of the claim, and when the
answer-book callback runs right after its POST,
`answer_book_processing_completed` is assigned before
`student_script_api_processing_started`. But no save stores a status, `status`
being no path of the schema: on both schedules the record has no status when
the run has ended, so its final status is not that of the engine that
responded last. -/
theorem statuses_never_persisted :
    (professorUpload allSucceedEnv [] sampleRequest []).take 3 =
      [Event.findOne sampleSubmission.query, Event.insert sampleCreated,
       Event.respond 201 "Upload received. Background processing started." (some 1)] ∧
    sampleCreated.status = none ∧
    statusesAssigned (professorUpload allSucceedEnv [] sampleRequest []) =
      [Status.question_parsing_started, Status.questions_extracted,
       Status.answer_book_processing_started, Status.student_script_api_processing_started,
       Status.answer_book_processing_completed,
       Status.student_script_api_processing_completed] ∧
    (applyTrace (professorUpload allSucceedEnv [] sampleRequest []) []).map
        (fun r => (r.id, r.status)) = [(1, none)] ∧
    statusesAssigned (professorUpload allSucceedEnv answerBookEarly sampleRequest []) =
      [Status.question_parsing_started, Status.questions_extracted,
       Status.answer_book_processing_started, Status.answer_book_processing_completed,
       Status.student_script_api_processing_started,
       Status.student_script_api_processing_completed] ∧
    (applyTrace (professorUpload allSucceedEnv answerBookEarly sampleRequest []) []).map
        (fun r => (r.id, r.status)) = [(1, none)] ∧
    (professorUpload allSucceedEnv answerBookOvertaken sampleRequest []).filterMap
        Event.settledEngine = [Engine.answerBook, Engine.studentScripts] ∧
    (applyTrace (professorUpload allSucceedEnv answerBookOvertaken sampleRequest []) []).map
        (fun r => (r.id, r.status)) = [(1, none)] := by
  decide

end Nirikshak
